import Mathlib

/-!
# be-wallet: the transactional balance engine

A shallow embedding of the wallet service of `paper-trade-chatbot/be-wallet`:

* `dbModels`              the two persisted rows (`models/dbModels`);
* `gorm`                  the part of the `gorm.io/gorm` API the DAOs call, over an
                          in-memory MySQL state with one optional open transaction;
* `walletDao`, `transactionRecordDao`   the two DAOs (`dao/...`);
* `WalletImpl`            the service methods (`service/wallet/wallet.go`).

Amounts (`decimal.Decimal`) are exact decimals of the fixed scale of the `amount`
columns; they are embedded as the integer count of units of that scale.
Unsigned 64-bit identifiers are natural numbers.  Every gorm call that reaches the
database is logged in `Database.trace` and may fail: `Env.fault c n` is the failure
injected into a call of kind `c` made when `n` calls had been made before it.
-/

namespace BeWallet

/-- The type `decimal.Decimal` of `github.com/shopspring/decimal`: an exact signed decimal,
counted in units of the scale of the `amount` columns.  `Add`, `Neg`, `LessThan` and the SQL
comparison `amount = ?` are the integer operations. -/
abbrev Decimal := Int

/-- The type `decimal.NullDecimal`: `none` is `Valid = false`. -/
abbrev NullDecimal := Option Decimal

/-- The type `time.Time`, as Unix seconds and nanoseconds within the second. -/
structure Time where
  sec : Int
  nsec : Nat
deriving DecidableEq

instance : Inhabited Time := ⟨⟨0, 0⟩⟩

/-- The method `time.Time.Unix`. -/
def Time.Unix (t : Time) : Int := t.sec

namespace dbModels

/-- The row type `WalletModel` (table `wallet`). -/
structure WalletModel where
  ID : Nat
  MemberID : Nat
  Amount : Decimal
  Currency : String
  CreatedAt : Option Time
  UpdatedAt : Option Time
  DeletedAt : Option Time
deriving DecidableEq

/-- The Go zero value `WalletModel{}`. -/
instance : Inhabited WalletModel := ⟨⟨0, 0, 0, "", none, none, none⟩⟩

/-- The Go type `TransactionAction` is an `int`. -/
abbrev TransactionAction := Int

def TransactionAction_NONE : TransactionAction := 0
def TransactionAction_Deposit : TransactionAction := 1
def TransactionAction_Withdraw : TransactionAction := 2
def TransactionAction_Bonus : TransactionAction := 3
def TransactionAction_Interest : TransactionAction := 4
def TransactionAction_Open : TransactionAction := 5
def TransactionAction_Close : TransactionAction := 6
def TransactionAction_Manually : TransactionAction := 7

/-- The Go type `TransactionStatus` is an `int`. -/
abbrev TransactionStatus := Int

def TransactionStatus_NONE : TransactionStatus := 0
def TransactionStatus_Pending : TransactionStatus := 1
def TransactionStatus_Success : TransactionStatus := 2
def TransactionStatus_Failed : TransactionStatus := 3
def TransactionStatus_Rollback : TransactionStatus := 4

/-- The row type `TransactionRecordModel` (table `transaction_record`).  `Remark` is the
`sql.NullString` the service assigns and reads (`.Valid`, `.String`); `RollbackerID` is a
`sql.NullInt64`. -/
structure TransactionRecordModel where
  ID : Nat
  MemberID : Nat
  WalletID : Nat
  Action : TransactionAction
  Amount : Decimal
  BeforeAmount : NullDecimal
  AfterAmount : NullDecimal
  Currency : String
  CommitterID : Nat
  Status : TransactionStatus
  Remark : Option String
  CreatedAt : Time
  UpdatedAt : Time
  RollbackBeforeAmount : NullDecimal
  RollbackAfterAmount : NullDecimal
  RollbackerID : Option Int
deriving DecidableEq

/-- The Go zero value `TransactionRecordModel{}`. -/
instance : Inhabited TransactionRecordModel :=
  ⟨⟨0, 0, 0, 0, 0, none, none, "", 0, 0, none, default, default, none, none, none⟩⟩

end dbModels

/-! ## Errors and the environment -/

/-- An error value a gorm call can leave in `.Error`: `gorm.ErrRecordNotFound`,
`sql.ErrTxDone` (a statement on a transaction that was already committed or rolled back), or
any other fault of the driver or the database, told apart by a code. -/
inductive StoreFault where
  | ErrRecordNotFound
  | ErrTxDone
  | other (code : Nat)
deriving DecidableEq

/-- The `error` values the service returns: the sentinels of `be-common`, the error of
`decimal.NewFromString`, or an error handed up from the store. -/
inductive Error where
  | ErrUpdateWalletInterrupted
  | ErrNoSuchWallet
  | ErrInsufficientBalance
  | ErrNoSuchTransactionRecord
  | ErrTransactionNotSuccess
  | decimalSyntax (input : String)
  | store (e : StoreFault)
deriving DecidableEq

/-- The gorm finishers the DAOs use. -/
inductive Verb where
  | Create
  | Scan
  | Updates
  | Delete
  | Count
deriving DecidableEq

/-- The names of the two tables. -/
inductive TableName where
  | wallet
  | transaction_record
deriving DecidableEq

/-- A call that reaches the database: a finisher on a table. -/
structure Call where
  verb : Verb
  table : TableName
deriving DecidableEq

/-- What the service takes from outside the repository: the decimal library's parser and
printer, and the faults of the database (`fault c n` is injected into a call `c` made after
`n` earlier calls; `none` lets the call run). -/
structure Env where
  NewFromString : String → Option Decimal
  DecimalString : Decimal → String
  fault : Call → Nat → Option StoreFault

/-- How a service method ends: a response, an error, or a nil-pointer dereference (a Go
panic, recovered at the RPC boundary). -/
inductive Outcome (α : Type) where
  | ok (res : α)
  | err (e : Error)
  | panic
deriving DecidableEq

/-! ## The database behind gorm -/

/-- The two tables. -/
structure Tables where
  wallet : List dbModels.WalletModel
  transaction_record : List dbModels.TransactionRecordModel
deriving DecidableEq

/-- The MySQL state seen through gorm: the committed tables, the working tables of the one
transaction that is open (if any), the clock gorm stamps rows with, and the log of the calls
that have reached the database so far, newest first. -/
structure Database where
  committed : Tables
  pending : Option Tables
  now : Time
  trace : List Call
deriving DecidableEq

namespace gorm

/-- A `*gorm.DB` value as the service holds it: the process-wide handle of
`database.GetDB()`, or the handle returned by `Begin` (and returned again by `Commit` and
`Rollback`, which finish the transaction but hand back the same handle). -/
inductive DB where
  | pool
  | began
deriving DecidableEq

/-- The method `Begin`: opens a transaction on the committed state. -/
def Begin (st : Database) : DB × Database :=
  (DB.began, { st with pending := some st.committed })

/-- The method `Commit`: publishes the working tables of the open transaction and returns the
same handle. -/
def Commit (db : DB) (st : Database) : DB × Database :=
  match db, st.pending with
  | DB.began, some t => (db, { st with committed := t, pending := none })
  | _, _ => (db, st)

/-- The method `Rollback`: drops the working tables of the open transaction and returns the
same handle. -/
def Rollback (db : DB) (st : Database) : DB × Database :=
  match db with
  | DB.began => (db, { st with pending := none })
  | DB.pool => (db, st)

/-- The tables handle `db` sees: the committed ones, or the working ones of its transaction;
`none` once that transaction has been committed or rolled back. -/
def view (db : DB) (st : Database) : Option Tables :=
  match db with
  | DB.pool => some st.committed
  | DB.began => st.pending

/-- The tables a call `c` on handle `db` runs against, after logging the call: a finished
transaction answers `sql.ErrTxDone`, an injected fault answers itself. -/
def connect (env : Env) (c : Call) (db : DB) (st : Database) :
    Except StoreFault Tables × Database :=
  match view db st with
  | none => (Except.error StoreFault.ErrTxDone, { st with trace := c :: st.trace })
  | some t =>
    match env.fault c st.trace.length with
    | some e => (Except.error e, { st with trace := c :: st.trace })
    | none => (Except.ok t, { st with trace := c :: st.trace })

/-- Writes the tables back through handle `db`: into the open transaction, or straight into
the committed state (autocommit). -/
def flush (db : DB) (t : Tables) (st : Database) : Database :=
  match db with
  | DB.began => { st with pending := some t }
  | DB.pool => { st with committed := t }

/-- The statement a chain of scopes builds: the `Where` conditions (a conjunction), `Limit`,
`Offset` and the `Order` clauses. -/
structure Statement (α : Type) where
  Where : List (α → Bool)
  Limit : Option Int
  Offset : Option Int
  Order : List String

/-- The statement of a fresh `tx.Table(table)`. -/
def Statement.table (α : Type) : Statement α := ⟨[], none, none, []⟩

/-- The rows a statement selects from a table, in storage order: those meeting every `Where`
condition, after `Offset` rows, at most `Limit` of them.  (`Order` clauses are kept on the
statement; the order MySQL returns rows in is not modelled.) -/
def Statement.rows {α : Type} (s : Statement α) (table : List α) : List α :=
  let hit := table.filter (fun r => s.Where.all (fun c => c r))
  let skipped := match s.Offset with
    | some n => hit.drop n.toNat
    | none => hit
  match s.Limit with
  | some n => skipped.take n.toNat
  | none => skipped

/-- What a finisher leaves behind: `.Error`, `.RowsAffected`, and the destination it
filled. -/
structure Result (α : Type) where
  Error : Option StoreFault
  RowsAffected : Nat
  dest : α

/-- The next AUTO_INCREMENT value of a table: above every stored id. -/
def nextID (ids : List Nat) : Nat :=
  ids.foldr max 0 + 1

/-- One of the two tables, as `tx.Table(name)` addresses it. -/
structure TableRef (α : Type) where
  name : TableName
  get : Tables → List α
  set : List α → Tables → Tables

/-- The finisher `Scan(dest)` with a single struct as destination: the first selected row is
copied into `dest`; when no row is selected `dest` keeps its zero value, `RowsAffected` is 0
and no error is set (gorm raises `ErrRecordNotFound` only from `First`, `Take` and `Last`). -/
def Scan {α : Type} [Inhabited α] (env : Env) (db : DB) (table : TableRef α)
    (s : Statement α) (st : Database) : Result α × Database :=
  match connect env ⟨Verb.Scan, table.name⟩ db st with
  | (Except.error e, st1) => (⟨some e, 0, default⟩, st1)
  | (Except.ok t, st1) =>
    match s.rows (table.get t) with
    | [] => (⟨none, 0, default⟩, st1)
    | r :: _ => (⟨none, 1, r⟩, st1)

/-- The finisher `Scan(&dest)` with a slice as destination. -/
def ScanAll {α : Type} (env : Env) (db : DB) (table : TableRef α)
    (s : Statement α) (st : Database) : Result (List α) × Database :=
  match connect env ⟨Verb.Scan, table.name⟩ db st with
  | (Except.error e, st1) => (⟨some e, 0, []⟩, st1)
  | (Except.ok t, st1) =>
    (⟨none, (s.rows (table.get t)).length, s.rows (table.get t)⟩, st1)

/-- The finisher `Create(model)`: appends the row; `fill id now` is gorm backfilling the
primary key and the creation timestamps into the model.  `dest` is the model afterwards. -/
def Create {α : Type} (env : Env) (db : DB) (table : TableRef α) (ids : List α → List Nat)
    (fill : Nat → Time → α → α) (model : α) (st : Database) : Result α × Database :=
  match connect env ⟨Verb.Create, table.name⟩ db st with
  | (Except.error e, st1) => (⟨some e, 0, model⟩, st1)
  | (Except.ok t, st1) =>
    let row := fill (nextID (ids (table.get t))) st.now model
    (⟨none, 1, row⟩, flush db (table.set (table.get t ++ [row]) t) st1)

/-- The finisher `Updates(attrs)`: every row meeting the `Where` conditions of the statement
gets the assignments; `RowsAffected` counts them.  A statement that matches no row is not an
error: `.Error` stays nil and `RowsAffected` is 0. -/
def Updates {α : Type} (env : Env) (db : DB) (table : TableRef α) (s : Statement α)
    (assign : Time → α → α) (st : Database) : Result Unit × Database :=
  match connect env ⟨Verb.Updates, table.name⟩ db st with
  | (Except.error e, st1) => (⟨some e, 0, ()⟩, st1)
  | (Except.ok t, st1) =>
    let hit := fun r => s.Where.all (fun c => c r)
    let rows := (table.get t).map (fun r => if hit r then assign st.now r else r)
    (⟨none, ((table.get t).filter hit).length, ()⟩, flush db (table.set rows t) st1)

end gorm

/-- The table `wallet`. -/
def walletTable : gorm.TableRef dbModels.WalletModel :=
  ⟨TableName.wallet, Tables.wallet, fun rows t => { t with wallet := rows }⟩

/-- The table `transaction_record`. -/
def transactionRecordTable : gorm.TableRef dbModels.TransactionRecordModel :=
  ⟨TableName.transaction_record, Tables.transaction_record,
    fun rows t => { t with transaction_record := rows }⟩

/-- An instant at the precision of the store, in microseconds since the epoch.  MySQL keeps
and compares `DATETIME` values to the microsecond at most; what a `time.Time` holds below
the microsecond is rounded to the nearest microsecond on its way into a statement (the 10
nanoseconds of `time.Unix(x, 10)` vanish, under rounding as under truncation). -/
def Time.micros (t : Time) : Int :=
  t.sec * 1000000 + ((t.nsec + 500) / 1000 : Nat)

/-- Comparison of two instants, as `BETWEEN` compares `created_at` with a bound: at the
precision of the store. -/
def Time.le (a b : Time) : Bool :=
  decide (a.micros ≤ b.micros)

/-! ## dao/walletDao -/

namespace walletDao

open dbModels

/-- The struct `QueryModel`: the query conditions used by `queryChain`. -/
structure QueryModel where
  ID : List Nat
  MemberID : List Nat
  Currency : Option String
  Amount : Option Decimal

/-- The struct `UpdateModel` (`Amount` is a pointer the service always sets). -/
structure UpdateModel where
  Amount : Decimal

/-- The function `idInScope`. -/
def idInScope (id : List Nat) (db : gorm.Statement WalletModel) : gorm.Statement WalletModel :=
  if id.length > 0 then { db with Where := db.Where ++ [fun w => id.contains w.ID] } else db

/-- The function `memberIDInScope`. -/
def memberIDInScope (memberID : List Nat) (db : gorm.Statement WalletModel) :
    gorm.Statement WalletModel :=
  if memberID.length > 0 then
    { db with Where := db.Where ++ [fun w => memberID.contains w.MemberID] }
  else db

/-- The function `currencyEqualScope`. -/
def currencyEqualScope (currency : Option String) (db : gorm.Statement WalletModel) :
    gorm.Statement WalletModel :=
  match currency with
  | some c => { db with Where := db.Where ++ [fun w => decide (w.Currency = c)] }
  | none => db

/-- The function `limitScope`. -/
def limitScope (limit : Int) (db : gorm.Statement WalletModel) : gorm.Statement WalletModel :=
  if limit > 0 then { db with Limit := some limit } else db

/-- The function `offsetScope`: it calls `db.Limit(offset)`. -/
def offsetScope (offset : Int) (db : gorm.Statement WalletModel) : gorm.Statement WalletModel :=
  if offset > 0 then { db with Limit := some offset } else db

/-- The function `queryChain`: the id scope, then the member scope. -/
def queryChain (query : QueryModel) (db : gorm.Statement WalletModel) :
    gorm.Statement WalletModel :=
  memberIDInScope query.MemberID (idInScope query.ID db)

/-- The function `New`: `Create(model)`; the model comes back with its id and timestamps. -/
def New (env : Env) (db : gorm.DB) (model : WalletModel) (st : Database) :
    Except StoreFault WalletModel × Database :=
  let fill := fun (id : Nat) (now : Time) (m : WalletModel) =>
    { m with ID := if m.ID = 0 then id else m.ID,
             CreatedAt := if m.CreatedAt = none then some now else m.CreatedAt,
             UpdatedAt := if m.UpdatedAt = none then some now else m.UpdatedAt }
  match gorm.Create env db walletTable (fun rows => rows.map (fun w => w.ID)) fill model st with
  | (r, st1) =>
    match r.Error with
    | some e => (Except.error e, st1)
    | none => (Except.ok r.dest, st1)

/-- The function `Get`: `Scan(result)` into one struct; `ErrRecordNotFound` becomes
`(nil, nil)`, any other error is returned, otherwise the scanned struct is. -/
def Get (env : Env) (tx : gorm.DB) (query : QueryModel) (st : Database) :
    Except StoreFault (Option WalletModel) × Database :=
  match gorm.Scan env tx walletTable (queryChain query (gorm.Statement.table WalletModel)) st with
  | (r, st1) =>
    match r.Error with
    | some StoreFault.ErrRecordNotFound => (Except.ok none, st1)
    | some e => (Except.error e, st1)
    | none => (Except.ok (some r.dest), st1)

/-- The function `Gets`. -/
def Gets (env : Env) (tx : gorm.DB) (query : QueryModel) (st : Database) :
    Except StoreFault (List WalletModel) × Database :=
  match gorm.ScanAll env tx walletTable (queryChain query (gorm.Statement.table WalletModel))
      st with
  | (r, st1) =>
    match r.Error with
    | some StoreFault.ErrRecordNotFound => (Except.ok [], st1)
    | some e => (Except.error e, st1)
    | none => (Except.ok r.dest, st1)

/-- The statement of `Modify`:
`Model(WalletModel{}).Where("wallet.id = ? AND wallet.amount = ?", model.ID, model.Amount)`.
`Model` brings the soft-delete clause of the `gorm.DeletedAt` field (`deleted_at IS NULL`)
into the UPDATE. -/
def modifyStatement (model : WalletModel) : gorm.Statement WalletModel :=
  { gorm.Statement.table WalletModel with
    Where := [fun w => decide (w.ID = model.ID) && decide (w.Amount = model.Amount),
              fun w => w.DeletedAt.isNone] }

/-- The gorm call of `Modify`: `Updates(attrs)` with `attrs = {"amount": update.Amount}`
(gorm also stamps `updated_at`). -/
def modifyUpdates (env : Env) (tx : gorm.DB) (model : WalletModel) (update : UpdateModel)
    (st : Database) : gorm.Result Unit × Database :=
  gorm.Updates env tx walletTable (modifyStatement model)
    (fun now w => { w with Amount := update.Amount, UpdatedAt := some now }) st

/-- The function `Modify`: it returns the `.Error` of the `Updates` call and nothing else. -/
def Modify (env : Env) (tx : gorm.DB) (model : WalletModel) (update : UpdateModel)
    (st : Database) : Option StoreFault × Database :=
  match modifyUpdates env tx model update st with
  | (r, st1) => (r.Error, st1)

end walletDao

/-! ## dao/transactionRecordDao -/

namespace transactionRecordDao

open dbModels

/-- The Go type `OrderColumn` is an `int`. -/
abbrev OrderColumn := Int

def OrderColumn_None : OrderColumn := 0
def OrderColumn_MemberID : OrderColumn := 1
def OrderColumn_CommitterID : OrderColumn := 2
def OrderColumn_Currency : OrderColumn := 3
def OrderColumn_CreatedAt : OrderColumn := 4

/-- The Go type `OrderDirection` is an `int`. -/
abbrev OrderDirection := Int

def OrderDirection_None : OrderDirection := 0
def OrderDirection_ASC : OrderDirection := 1
def OrderDirection_DESC : OrderDirection := -1

/-- The struct `Order`. -/
structure Order where
  Column : OrderColumn
  Direction : OrderDirection

/-- The struct `QueryModel`: the query conditions used by `queryChain`. -/
structure QueryModel where
  ID : Option Nat
  MemberID : Option Nat
  CommitterID : Option Nat
  RollbackerID : Option Nat
  Currency : List String
  Action : List TransactionAction
  Status : List TransactionStatus
  CreatedFrom : Option Time
  CreatedTo : Option Time
  OrderBy : List Order

/-- The query `&QueryModel{ID: &id}`. -/
def QueryModel.byID (id : Nat) : QueryModel :=
  ⟨some id, none, none, none, [], [], [], none, none, []⟩

/-- The struct `UpdateModel`: a patch, each field a pointer that may be nil. -/
structure UpdateModel where
  BeforeAmount : Option NullDecimal
  AfterAmount : Option NullDecimal
  Status : Option TransactionStatus
  Remark : Option (Option String)
  RollbackBeforeAmount : Option NullDecimal
  RollbackAfterAmount : Option NullDecimal
  RollbackerID : Option (Option Int)

/-- The patch `&UpdateModel{Status: &status}`. -/
def UpdateModel.status (status : TransactionStatus) : UpdateModel :=
  ⟨none, none, some status, none, none, none, none⟩

/-- The function `idEqualScope`. -/
def idEqualScope (id : Option Nat) (db : gorm.Statement TransactionRecordModel) :
    gorm.Statement TransactionRecordModel :=
  match id with
  | some v => { db with Where := db.Where ++ [fun r => decide (r.ID = v)] }
  | none => db

/-- The function `memberIDEqualScope`. -/
def memberIDEqualScope (memberID : Option Nat) (db : gorm.Statement TransactionRecordModel) :
    gorm.Statement TransactionRecordModel :=
  match memberID with
  | some v => { db with Where := db.Where ++ [fun r => decide (r.MemberID = v)] }
  | none => db

/-- The function `committerIDEqualScope`. -/
def committerIDEqualScope (committerID : Option Nat)
    (db : gorm.Statement TransactionRecordModel) : gorm.Statement TransactionRecordModel :=
  match committerID with
  | some v => { db with Where := db.Where ++ [fun r => decide (r.CommitterID = v)] }
  | none => db

/-- The function `rollbackerIDEqualScope`: its condition is on the column `committer_id`. -/
def rollbackerIDEqualScope (committerID : Option Nat)
    (db : gorm.Statement TransactionRecordModel) : gorm.Statement TransactionRecordModel :=
  match committerID with
  | some v => { db with Where := db.Where ++ [fun r => decide (r.CommitterID = v)] }
  | none => db

/-- The function `currencyInScope`. -/
def currencyInScope (currency : List String) (db : gorm.Statement TransactionRecordModel) :
    gorm.Statement TransactionRecordModel :=
  if currency.length > 0 then
    { db with Where := db.Where ++ [fun r => currency.contains r.Currency] }
  else db

/-- The function `statusInScope`. -/
def statusInScope (status : List TransactionStatus)
    (db : gorm.Statement TransactionRecordModel) : gorm.Statement TransactionRecordModel :=
  if status.length > 0 then
    { db with Where := db.Where ++ [fun r => status.contains r.Status] }
  else db

/-- The function `actionInScope`. -/
def actionInScope (action : List TransactionAction)
    (db : gorm.Statement TransactionRecordModel) : gorm.Statement TransactionRecordModel :=
  if action.length > 0 then
    { db with Where := db.Where ++ [fun r => action.contains r.Action] }
  else db

/-- The function `createdBetweenScope`. -/
def createdBetweenScope (createdFrom createdTo : Option Time)
    (db : gorm.Statement TransactionRecordModel) : gorm.Statement TransactionRecordModel :=
  match createdFrom, createdTo with
  | some a, some b =>
    { db with Where := db.Where ++ [fun r => Time.le a r.CreatedAt && Time.le r.CreatedAt b] }
  | _, _ => db

/-- The body of the loop of `orderByScope` for one `Order`. -/
def orderClause (o : Order) : Option String :=
  let column : Option String :=
    if o.Column = OrderColumn_MemberID then some "member_id"
    else if o.Column = OrderColumn_CommitterID then some "committer_id"
    else if o.Column = OrderColumn_Currency then some "currency"
    else if o.Column = OrderColumn_CreatedAt then some "created_at"
    else none
  match column with
  | none => none
  | some c =>
    if o.Direction = OrderDirection_ASC then some (c ++ " ASC")
    else if o.Direction = OrderDirection_DESC then some (c ++ " DESC")
    else some c

/-- The function `orderByScope`. -/
def orderByScope (order : List Order) (db : gorm.Statement TransactionRecordModel) :
    gorm.Statement TransactionRecordModel :=
  { db with Order := db.Order ++ order.filterMap orderClause }

/-- The function `limitScope`. -/
def limitScope (limit : Int) (db : gorm.Statement TransactionRecordModel) :
    gorm.Statement TransactionRecordModel :=
  if limit > 0 then { db with Limit := some limit } else db

/-- The function `offsetScope`: it calls `db.Limit(offset)`. -/
def offsetScope (offset : Int) (db : gorm.Statement TransactionRecordModel) :
    gorm.Statement TransactionRecordModel :=
  if offset > 0 then { db with Limit := some offset } else db

/-- The function `queryChain`. -/
def queryChain (query : QueryModel) (db : gorm.Statement TransactionRecordModel) :
    gorm.Statement TransactionRecordModel :=
  orderByScope query.OrderBy
    (createdBetweenScope query.CreatedFrom query.CreatedTo
      (actionInScope query.Action
        (statusInScope query.Status
          (currencyInScope query.Currency
            (rollbackerIDEqualScope query.RollbackerID
              (committerIDEqualScope query.CommitterID
                (memberIDEqualScope query.MemberID
                  (idEqualScope query.ID db))))))))

/-- The function `New`: `Create(model)`; the model comes back with its id and timestamps. -/
def New (env : Env) (db : gorm.DB) (model : TransactionRecordModel) (st : Database) :
    Except StoreFault TransactionRecordModel × Database :=
  let fill := fun (id : Nat) (now : Time) (m : TransactionRecordModel) =>
    { m with ID := if m.ID = 0 then id else m.ID,
             CreatedAt := if m.CreatedAt = default then now else m.CreatedAt,
             UpdatedAt := if m.UpdatedAt = default then now else m.UpdatedAt }
  match gorm.Create env db transactionRecordTable (fun rows => rows.map (fun r => r.ID)) fill
      model st with
  | (r, st1) =>
    match r.Error with
    | some e => (Except.error e, st1)
    | none => (Except.ok r.dest, st1)

/-- The function `Get`: `Scan(result)` into one struct; `ErrRecordNotFound` becomes
`(nil, nil)`, any other error is returned, otherwise the scanned struct is. -/
def Get (env : Env) (tx : gorm.DB) (query : QueryModel) (st : Database) :
    Except StoreFault (Option TransactionRecordModel) × Database :=
  match gorm.Scan env tx transactionRecordTable
      (queryChain query (gorm.Statement.table TransactionRecordModel)) st with
  | (r, st1) =>
    match r.Error with
    | some StoreFault.ErrRecordNotFound => (Except.ok none, st1)
    | some e => (Except.error e, st1)
    | none => (Except.ok (some r.dest), st1)

/-- The map `attrs` that `Modify` builds from the patch, as the assignment it makes to a
row: only the fields whose pointer is not nil are set. -/
def attrs (update : UpdateModel) (r : TransactionRecordModel) : TransactionRecordModel :=
  let r1 := match update.BeforeAmount with
    | some v => { r with BeforeAmount := v }
    | none => r
  let r2 := match update.AfterAmount with
    | some v => { r1 with AfterAmount := v }
    | none => r1
  let r3 := match update.Status with
    | some v => { r2 with Status := v }
    | none => r2
  let r4 := match update.Remark with
    | some v => { r3 with Remark := v }
    | none => r3
  let r5 := match update.RollbackBeforeAmount with
    | some v => { r4 with RollbackBeforeAmount := v }
    | none => r4
  let r6 := match update.RollbackAfterAmount with
    | some v => { r5 with RollbackAfterAmount := v }
    | none => r5
  match update.RollbackerID with
  | some v => { r6 with RollbackerID := v }
  | none => r6

/-- The statement of `Modify`:
`Where("transaction_record.id = ? AND transaction_record.status = ?", model.ID, model.Status)`. -/
def modifyStatement (model : TransactionRecordModel) : gorm.Statement TransactionRecordModel :=
  { gorm.Statement.table TransactionRecordModel with
    Where := [fun r => decide (r.ID = model.ID) && decide (r.Status = model.Status)] }

/-- The function `Modify`: `Updates(attrs)` under the guard on `(id, status)` of the model
the caller holds (gorm also stamps `updated_at`); it returns the `.Error` of that call. -/
def Modify (env : Env) (tx : gorm.DB) (model : TransactionRecordModel) (update : UpdateModel)
    (st : Database) : Option StoreFault × Database :=
  match gorm.Updates env tx transactionRecordTable (modifyStatement model)
      (fun now r => { attrs update r with UpdatedAt := now }) st with
  | (r, st1) => (r.Error, st1)

end transactionRecordDao

/-! ## service/wallet -/

/-- The request message `wallet.CreateWalletReq`. -/
structure CreateWalletReq where
  MemberID : Nat
  Currency : String

/-- The response message `wallet.CreateWalletRes`. -/
structure CreateWalletRes where
  WalletID : Nat
deriving DecidableEq

/-- The request message `wallet.TransactionReq`. -/
structure TransactionReq where
  WalletID : Nat
  Action : Int
  Amount : String
  Currency : String
  CommitterID : Nat
  Remark : Option String

/-- The response message `wallet.TransactionRes`. -/
structure TransactionRes where
  Id : Nat
  BeforeAmount : String
  AfterAmount : String
  Currency : String
  Status : Int
  CreatedAt : Int
  UpdatedAt : Int
deriving DecidableEq

/-- The request message `wallet.RollbackTransactionReq`. -/
structure RollbackTransactionReq where
  Id : Nat
  RollbackerID : Nat
  Remark : Option String

/-- The response message `wallet.RollbackTransactionRes` (empty). -/
structure RollbackTransactionRes where
deriving DecidableEq

/-- The Go conversion `int64(x)` of a `uint64`. -/
def toInt64 (x : Nat) : Int :=
  if x % 2 ^ 64 < 2 ^ 63 then (x % 2 ^ 64 : Nat) else (x % 2 ^ 64 : Nat) - 2 ^ 64

namespace WalletImpl

open dbModels

/-- The method `CreateWallet`. -/
def CreateWallet (env : Env) (req : CreateWalletReq) (st : Database) :
    Outcome CreateWalletRes × Database :=
  match walletDao.New env gorm.DB.pool
      { (default : WalletModel) with MemberID := req.MemberID, Currency := req.Currency,
                                     Amount := 0 } st with
  | (Except.error e, st1) => (Outcome.err (Error.store e), st1)
  | (Except.ok model, st1) => (Outcome.ok ⟨model.ID⟩, st1)

/-- How the retry loop of `Transaction` or `RollbackTransaction` is left: by a `return` with
an error, or with `success = true` and the two amounts it computed last. -/
inductive LoopExit where
  | returned (e : Error)
  | success (beforeAmount afterAmount : Decimal)
deriving DecidableEq

/-- The block `Transaction` repeats on its failure paths (lines 156-162, 173-179, 185-191,
213-219): `db = db.Rollback()`, then `transactionRecordDao.Modify(db, transactionRecord,
{Status: Failed})` on that same handle, whose error is only logged. -/
def Transaction.fail (env : Env) (db : gorm.DB) (transactionRecord : TransactionRecordModel)
    (st : Database) : Database :=
  (transactionRecordDao.Modify env (gorm.Rollback db st).1 transactionRecord
    (transactionRecordDao.UpdateModel.status TransactionStatus_Failed)
    (gorm.Rollback db st).2).2

/-- The loop `for !success` of `Transaction` (lines 152-224), entered with `retryCount`;
`fuel` bounds the iterations of the model and `none` means it ran out. -/
def Transaction.loop (env : Env) (req : TransactionReq) (amount : Decimal)
    (transactionRecord : TransactionRecordModel) (db : gorm.DB) :
    Nat → Nat → Database → Option (LoopExit × Database)
  | 0, _, _ => none
  | fuel + 1, retryCount, st =>
    if retryCount > 10 then
      some (LoopExit.returned Error.ErrUpdateWalletInterrupted,
        Transaction.fail env db transactionRecord st)
    else
      match walletDao.Get env db ⟨[req.WalletID], [], none, none⟩ st with
      | (Except.error e, st1) =>
        some (LoopExit.returned (Error.store e), Transaction.fail env db transactionRecord st1)
      | (Except.ok none, st1) =>
        some (LoopExit.returned Error.ErrNoSuchWallet,
          Transaction.fail env db transactionRecord st1)
      | (Except.ok (some walletModel), st1) =>
        if walletModel.Amount + amount < 0 then
          some (LoopExit.returned Error.ErrInsufficientBalance, st1)
        else
          match walletDao.Modify env db walletModel ⟨walletModel.Amount + amount⟩ st1 with
          | (some StoreFault.ErrRecordNotFound, st2) =>
            Transaction.loop env req amount transactionRecord db fuel (retryCount + 1) st2
          | (some e, st2) =>
            some (LoopExit.returned (Error.store e),
              Transaction.fail env db transactionRecord st2)
          | (none, st2) =>
            some (LoopExit.success walletModel.Amount (walletModel.Amount + amount), st2)

/-- The record `Transaction` builds for the journal (lines 122-137): the request fields, the
member of the wallet it read, status Pending, and the remark if the request has one. -/
def Transaction.pendingRecord (req : TransactionReq) (amount : Decimal)
    (walletModel : WalletModel) : TransactionRecordModel :=
  { (default : TransactionRecordModel) with
    MemberID := walletModel.MemberID, WalletID := req.WalletID, Action := req.Action,
    Amount := amount, Currency := req.Currency, CommitterID := req.CommitterID,
    Status := TransactionStatus_Pending, Remark := req.Remark }

/-- The method `Transaction` (lines 105-256).  `none` only if the loop ran out of fuel. -/
def Transaction (env : Env) (req : TransactionReq) (st : Database) :
    Option (Outcome TransactionRes × Database) :=
  match env.NewFromString req.Amount with
  | none => some (Outcome.err (Error.decimalSyntax req.Amount), st)
  | some amount =>
    match walletDao.Get env gorm.DB.pool ⟨[req.WalletID], [], none, none⟩ st with
    | (Except.error e, st1) => some (Outcome.err (Error.store e), st1)
    | (Except.ok none, st1) => some (Outcome.panic, st1)
    | (Except.ok (some walletModel), st1) =>
      match transactionRecordDao.New env gorm.DB.pool
          (Transaction.pendingRecord req amount walletModel) st1 with
      | (Except.error e, st2) => some (Outcome.err (Error.store e), st2)
      | (Except.ok transactionRecord, st2) =>
        match Transaction.loop env req amount transactionRecord (gorm.Begin st2).1 12 0
            (gorm.Begin st2).2 with
        | none => none
        | some (LoopExit.returned e, st3) => some (Outcome.err e, st3)
        | some (LoopExit.success beforeAmount afterAmount, st3) =>
          match transactionRecordDao.Modify env (gorm.Begin st2).1 transactionRecord
              ⟨some (some beforeAmount), some (some afterAmount),
                some TransactionStatus_Success, none, none, none, none⟩ st3 with
          | (some e, st4) =>
            some (Outcome.err (Error.store e), (gorm.Rollback (gorm.Begin st2).1 st4).2)
          | (none, st4) =>
            match transactionRecordDao.Get env gorm.DB.pool
                (transactionRecordDao.QueryModel.byID transactionRecord.ID)
                (gorm.Commit (gorm.Begin st2).1 st4).2 with
            | (Except.error e, st5) => some (Outcome.err (Error.store e), st5)
            | (Except.ok none, st5) => some (Outcome.panic, st5)
            | (Except.ok (some stored), st5) =>
              some (Outcome.ok
                { Id := stored.ID,
                  BeforeAmount := env.DecimalString beforeAmount,
                  AfterAmount := env.DecimalString afterAmount,
                  Currency := req.Currency,
                  Status := TransactionStatus_Success,
                  CreatedAt := stored.CreatedAt.Unix,
                  UpdatedAt := stored.UpdatedAt.Unix }, st5)

/-- The loop `for !success` of `RollbackTransaction` (lines 285-324), entered with
`retryCount`; `fuel` bounds the iterations of the model and `none` means it ran out. -/
def RollbackTransaction.loop (env : Env) (record : TransactionRecordModel) (db : gorm.DB) :
    Nat → Nat → Database → Option (LoopExit × Database)
  | 0, _, _ => none
  | fuel + 1, retryCount, st =>
    if retryCount > 10 then
      some (LoopExit.returned Error.ErrUpdateWalletInterrupted, st)
    else
      match walletDao.Get env db ⟨[record.WalletID], [], none, none⟩ st with
      | (Except.error e, st1) =>
        some (LoopExit.returned (Error.store e), (gorm.Rollback db st1).2)
      | (Except.ok none, st1) =>
        some (LoopExit.returned Error.ErrNoSuchWallet, (gorm.Rollback db st1).2)
      | (Except.ok (some walletModel), st1) =>
        match walletDao.Modify env db walletModel ⟨walletModel.Amount + (- record.Amount)⟩
            st1 with
        | (some StoreFault.ErrRecordNotFound, st2) =>
          RollbackTransaction.loop env record db fuel (retryCount + 1) st2
        | (some e, st2) =>
          some (LoopExit.returned (Error.store e), (gorm.Rollback db st2).2)
        | (none, st2) =>
          some (LoopExit.success walletModel.Amount (walletModel.Amount + (- record.Amount)),
            st2)

/-- The method `RollbackTransaction` (lines 258-353).  `none` only if the loop ran out of
fuel. -/
def RollbackTransaction (env : Env) (req : RollbackTransactionReq) (st : Database) :
    Option (Outcome RollbackTransactionRes × Database) :=
  match transactionRecordDao.Get env gorm.DB.pool
      (transactionRecordDao.QueryModel.byID req.Id) st with
  | (Except.error e, st1) => some (Outcome.err (Error.store e), st1)
  | (Except.ok none, st1) => some (Outcome.err Error.ErrNoSuchTransactionRecord, st1)
  | (Except.ok (some record), st1) =>
    if record.Status ≠ TransactionStatus_Success then
      some (Outcome.err Error.ErrTransactionNotSuccess, st1)
    else
      match RollbackTransaction.loop env record (gorm.Begin st1).1 12 0 (gorm.Begin st1).2 with
      | none => none
      | some (LoopExit.returned e, st2) => some (Outcome.err e, st2)
      | some (LoopExit.success beforeAmount afterAmount, st2) =>
        match transactionRecordDao.Modify env (gorm.Begin st1).1 record
            ⟨none, none, some TransactionStatus_Rollback,
              (match req.Remark with
                | some text => some (some text)
                | none => none),
              some (some beforeAmount), some (some afterAmount),
              some (some (toInt64 req.RollbackerID))⟩ st2 with
        | (some e, st3) =>
          some (Outcome.err (Error.store e), (gorm.Rollback (gorm.Begin st1).1 st3).2)
        | (none, st3) =>
          some (Outcome.ok ⟨⟩, (gorm.Commit (gorm.Begin st1).1 st3).2)

end WalletImpl

/-! ## Observations used in the statements -/

/-- The wallet row an id resolves to: the first row of the table `wallet` with that id. -/
def Tables.walletByID (t : Tables) (id : Nat) : Option dbModels.WalletModel :=
  t.wallet.find? (fun w => decide (w.ID = id))

/-- The journal row an id resolves to: the first row of `transaction_record` with that id. -/
def Tables.recordByID (t : Tables) (id : Nat) : Option dbModels.TransactionRecordModel :=
  t.transaction_record.find? (fun r => decide (r.ID = id))

/-- The call `walletDao.Get` makes. -/
def walletScan : Call := ⟨Verb.Scan, TableName.wallet⟩

/-- The call `walletDao.Modify` makes (the conditional update of the amount). -/
def walletUpdates : Call := ⟨Verb.Updates, TableName.wallet⟩

/-- The call `transactionRecordDao.New` makes. -/
def recordCreate : Call := ⟨Verb.Create, TableName.transaction_record⟩

/-- The call `transactionRecordDao.Get` makes. -/
def recordScan : Call := ⟨Verb.Scan, TableName.transaction_record⟩

/-- The call `transactionRecordDao.Modify` makes. -/
def recordUpdates : Call := ⟨Verb.Updates, TableName.transaction_record⟩

/-- The call `walletDao.New` makes. -/
def walletCreate : Call := ⟨Verb.Create, TableName.wallet⟩

/-- The row `walletDao.New` stores for the model `CreateWallet` builds. -/
def walletDao.created (req : CreateWalletReq) (now : Time) (l : List dbModels.WalletModel) :
    dbModels.WalletModel :=
  { (default : dbModels.WalletModel) with
    ID := gorm.nextID (l.map (fun w => w.ID)), MemberID := req.MemberID,
    Currency := req.Currency, Amount := 0, CreatedAt := some now, UpdatedAt := some now }

/-- The rows of `wallet` after the UPDATE of `walletDao.Modify` has run. -/
def walletDao.modified (model : dbModels.WalletModel) (amount : Decimal) (now : Time)
    (l : List dbModels.WalletModel) : List dbModels.WalletModel :=
  l.map (fun w =>
    if w.ID = model.ID ∧ w.Amount = model.Amount ∧ w.DeletedAt = none then
      { w with Amount := amount, UpdatedAt := some now }
    else w)

/-- The row `transactionRecordDao.New` stores for a model whose id and timestamps are zero. -/
def transactionRecordDao.created (model : dbModels.TransactionRecordModel) (now : Time)
    (l : List dbModels.TransactionRecordModel) : dbModels.TransactionRecordModel :=
  { model with ID := gorm.nextID (l.map (fun r => r.ID)), CreatedAt := now, UpdatedAt := now }

/-- The rows of `transaction_record` after the UPDATE of `transactionRecordDao.Modify` has
run. -/
def transactionRecordDao.modified (model : dbModels.TransactionRecordModel)
    (update : transactionRecordDao.UpdateModel) (now : Time)
    (l : List dbModels.TransactionRecordModel) : List dbModels.TransactionRecordModel :=
  l.map (fun r =>
    if r.ID = model.ID ∧ r.Status = model.Status then
      { transactionRecordDao.attrs update r with UpdatedAt := now }
    else r)

/-- The journal row a successful `Transaction` leaves behind, for a journal that held the
rows `l` before: the `l`-fresh id, the request fields, status Success and the two amounts. -/
def WalletImpl.Transaction.successRow (req : TransactionReq) (a : Decimal)
    (w : dbModels.WalletModel) (now : Time) (l : List dbModels.TransactionRecordModel) :
    dbModels.TransactionRecordModel :=
  { (default : dbModels.TransactionRecordModel) with
    ID := gorm.nextID (l.map (fun r => r.ID)),
    MemberID := w.MemberID, WalletID := req.WalletID, Action := req.Action,
    Amount := a, Currency := req.Currency, CommitterID := req.CommitterID,
    Status := dbModels.TransactionStatus_Success, Remark := req.Remark,
    BeforeAmount := some w.Amount, AfterAmount := some (w.Amount + a),
    CreatedAt := now, UpdatedAt := now }

/-- The Go conversion `uint64(x)` of an `int64`, as `GetTransactionRecord` reads
`rollbacker_id` back. -/
def toUint64 (x : Int) : Nat := (x % 2 ^ 64).toNat

/-- The patch `RollbackTransaction` stamps its record with (lines 326-344): status Rollback,
the two rollback amounts, the rollbacker, and the remark if the request has one. -/
def WalletImpl.RollbackTransaction.patch (req : RollbackTransactionReq)
    (beforeAmount afterAmount : Decimal) : transactionRecordDao.UpdateModel :=
  ⟨none, none, some dbModels.TransactionStatus_Rollback,
    (match req.Remark with
      | some text => some (some text)
      | none => none),
    some (some beforeAmount), some (some afterAmount),
    some (some (toInt64 req.RollbackerID))⟩

/-- A request to the balance engine. -/
inductive Request where
  | transaction (req : TransactionReq)
  | rollback (req : RollbackTransactionReq)

/-- The engine serving requests one after another; `none` only if a loop ran out of fuel. -/
def WalletImpl.serve (env : Env) : List Request → Database → Option Database
  | [], st => some st
  | Request.transaction req :: rest, st =>
    match WalletImpl.Transaction env req st with
    | none => none
    | some (_, st1) => WalletImpl.serve env rest st1
  | Request.rollback req :: rest, st =>
    match WalletImpl.RollbackTransaction env req st with
    | none => none
    | some (_, st1) => WalletImpl.serve env rest st1

/-- `Transaction` calls made one after another, with what each returned. -/
def WalletImpl.transactions (env : Env) :
    List TransactionReq → Database → Option (List (Outcome TransactionRes) × Database)
  | [], st => some ([], st)
  | req :: rest, st =>
    match WalletImpl.Transaction env req st with
    | none => none
    | some (out, st1) =>
      match WalletImpl.transactions env rest st1 with
      | none => none
      | some (outs, st2) => some (out :: outs, st2)

/-- Whether a call returned a result (and a nil error). -/
def Outcome.isOk {α : Type} : Outcome α → Bool
  | Outcome.ok _ => true
  | _ => false

/-- The `BeforeAmount` and `AfterAmount` a `Transaction` call returned, if it returned a
result. -/
def Outcome.amounts : Outcome TransactionRes → Option (String × String)
  | Outcome.ok res => some (res.BeforeAmount, res.AfterAmount)
  | _ => none

/-- The balances a wallet passes through when the amounts are applied in order, starting
from `start`: for each amount the balance before and the balance after. -/
def ledger (start : Decimal) : List Decimal → List (Decimal × Decimal)
  | [] => []
  | a :: rest => (start, start + a) :: ledger (start + a) rest

/-! ## The read side: pagination, `GetWallets`, `GetTransactionRecords` -/

/-- The message `general.Pagination` of `be-proto`, with the two fields the DAOs read. -/
structure general.Pagination where
  Page : Int
  PageSize : Int
deriving DecidableEq

/-- The message `general.PaginationInfo`, kept as the four arguments
`pagination.SetPaginationDto(page, pageSize, count, offset)` of `be-common` builds it from. -/
structure general.PaginationInfo where
  Page : Int
  PageSize : Int
  Count : Int
  Offset : Int
deriving DecidableEq

/-- The Go conversion `int32(x)` of an `int` or `int64`. -/
def toInt32 (x : Int) : Int :=
  (x + 2 ^ 31) % 2 ^ 32 - 2 ^ 31

/-- The finisher `Count(&count)`: one `SELECT count(*)` under the conditions the statement
holds when it is called; the statement stays as it was for the calls chained after it. -/
def gorm.Count {α : Type} (env : Env) (db : gorm.DB) (table : gorm.TableRef α)
    (s : gorm.Statement α) (st : Database) : gorm.Result Int × Database :=
  match gorm.connect env ⟨Verb.Count, table.name⟩ db st with
  | (Except.error e, st1) => (⟨some e, 0, 0⟩, st1)
  | (Except.ok t, st1) => (⟨none, 0, ((s.rows (table.get t)).length : Int)⟩, st1)

/-- The function `paginateChain` of `walletDao`: `offsetScope(offset)`, then
`limitScope(limit)`, on what `pagination.GetOffsetAndLimit` (of `be-common`, a parameter
here) makes of the request's pagination. -/
def walletDao.paginateChain (GetOffsetAndLimit : Option general.Pagination → Int × Int)
    (paginate : Option general.Pagination) (db : gorm.Statement dbModels.WalletModel) :
    gorm.Statement dbModels.WalletModel :=
  walletDao.limitScope (GetOffsetAndLimit paginate).2
    (walletDao.offsetScope (GetOffsetAndLimit paginate).1 db)

/-- The function `paginateChain` of `transactionRecordDao`. -/
def transactionRecordDao.paginateChain
    (GetOffsetAndLimit : Option general.Pagination → Int × Int)
    (paginate : Option general.Pagination)
    (db : gorm.Statement dbModels.TransactionRecordModel) :
    gorm.Statement dbModels.TransactionRecordModel :=
  transactionRecordDao.limitScope (GetOffsetAndLimit paginate).2
    (transactionRecordDao.offsetScope (GetOffsetAndLimit paginate).1 db)

/-- The function `GetsWithPagination` of `transactionRecordDao`:
`Scopes(queryChain).Count(&count).Scopes(paginateChain).Scan(&rows)`.  An error of `Count`
stays on the chain, so `Scan` issues no query then.  `paginate.Page` is read through the
pointer the caller passed: the outer `none` is the nil dereference when that pointer is
nil. -/
def transactionRecordDao.GetsWithPagination (env : Env)
    (GetOffsetAndLimit : Option general.Pagination → Int × Int) (tx : gorm.DB)
    (query : transactionRecordDao.QueryModel) (paginate : Option general.Pagination)
    (st : Database) :
    Option (Except StoreFault
      (List dbModels.TransactionRecordModel × general.PaginationInfo)) × Database :=
  let chain := transactionRecordDao.queryChain query
    (gorm.Statement.table dbModels.TransactionRecordModel)
  match gorm.Count env tx transactionRecordTable chain st with
  | (c, st1) =>
    let scanned : gorm.Result (List dbModels.TransactionRecordModel) × Database :=
      match c.Error with
      | some e => (⟨some e, 0, []⟩, st1)
      | none =>
        gorm.ScanAll env tx transactionRecordTable
          (transactionRecordDao.paginateChain GetOffsetAndLimit paginate chain) st1
    match paginate with
    | none => (none, scanned.2)
    | some p =>
      let paginationInfo : general.PaginationInfo :=
        ⟨p.Page, p.PageSize, toInt32 c.dest, toInt32 (GetOffsetAndLimit paginate).1⟩
      match scanned.1.Error with
      | some StoreFault.ErrRecordNotFound => (some (Except.ok ([], paginationInfo)), scanned.2)
      | some e => (some (Except.error e), scanned.2)
      | none => (some (Except.ok (scanned.1.dest, paginationInfo)), scanned.2)

/-- The oneof `wallet.isGetWalletsReq_Wallet` of the request (nil when unset). -/
inductive GetWalletsReq.isWallet where
  | unset
  | Id (id : Nat)
  | MemberID (memberID : Nat)
deriving DecidableEq

/-- The request message `wallet.GetWalletsReq`. -/
structure GetWalletsReq where
  Wallet : GetWalletsReq.isWallet
  Currency : Option String

/-- The message `wallet.Wallet`. -/
structure Wallet where
  Id : Nat
  MemberID : Nat
  Amount : String
  Currency : String
  CreatedAt : Int
  UpdatedAt : Int
deriving DecidableEq

/-- The response message `wallet.GetWalletsRes`. -/
structure GetWalletsRes where
  Wallets : List Wallet
deriving DecidableEq

/-- The query `GetWallets` builds from its request (lines 56-65). -/
def WalletImpl.GetWallets.query (req : GetWalletsReq) : walletDao.QueryModel :=
  match req.Wallet with
  | GetWalletsReq.isWallet.Id id => ⟨[id], [], none, none⟩
  | GetWalletsReq.isWallet.MemberID memberID => ⟨[], [memberID], req.Currency, none⟩
  | GetWalletsReq.isWallet.unset => ⟨[], [], none, none⟩

/-- The body of the loop of `GetWallets` (lines 74-81) for one row; `none` is the nil
dereference of `m.CreatedAt.Unix()` on a row whose `created_at` is NULL. -/
def WalletImpl.GetWallets.entry (env : Env) (m : dbModels.WalletModel) : Option Wallet :=
  match m.CreatedAt with
  | none => none
  | some createdAt =>
    some { Id := m.ID, MemberID := m.MemberID, Amount := env.DecimalString m.Amount,
           Currency := m.Currency, CreatedAt := createdAt.Unix, UpdatedAt := createdAt.Unix }

/-- The method `GetWallets` (lines 54-89). -/
def WalletImpl.GetWallets (env : Env) (req : GetWalletsReq) (st : Database) :
    Outcome GetWalletsRes × Database :=
  match walletDao.Gets env gorm.DB.pool (WalletImpl.GetWallets.query req) st with
  | (Except.error e, st1) => (Outcome.err (Error.store e), st1)
  | (Except.ok models, st1) =>
    match models.mapM (WalletImpl.GetWallets.entry env) with
    | none => (Outcome.panic, st1)
    | some wallets => (Outcome.ok ⟨wallets⟩, st1)

/-- An element of `GetTransactionRecordsReq_Order`. -/
structure GetTransactionRecordsReq_Order where
  OrderBy : Int
  OrderDirection : Int
deriving DecidableEq

/-- The request message `wallet.GetTransactionRecordsReq`. -/
structure GetTransactionRecordsReq where
  MemberID : Option Nat
  CommitterID : Option Nat
  RollbackerID : Option Nat
  Currency : List String
  Action : List Int
  Status : List Int
  CreatedFrom : Option Int
  CreatedTo : Option Int
  Order : List GetTransactionRecordsReq_Order
  Pagination : Option general.Pagination

/-- The message `wallet.TransactionRecord`. -/
structure TransactionRecord where
  Id : Nat
  MemberID : Nat
  WalletID : Nat
  Action : Int
  Amount : String
  Currency : String
  CommitterID : Nat
  Status : Int
  CreatedAt : Int
  UpdatedAt : Int
  Remark : Option String
  BeforeAmount : Option String
  AfterAmount : Option String
  RollbackBeforeAmount : Option String
  RollbackAfterAmount : Option String
  RollbackerID : Option Nat
deriving DecidableEq

/-- The response message `wallet.GetTransactionRecordsRes`. -/
structure GetTransactionRecordsRes where
  Records : List TransactionRecord
  PaginationInfo : general.PaginationInfo
deriving DecidableEq

/-- The query `GetTransactionRecords` builds from its request (lines 418-445); a bound
given in Unix seconds becomes `time.Unix(seconds, 10)`. -/
def WalletImpl.GetTransactionRecords.query (req : GetTransactionRecordsReq) :
    transactionRecordDao.QueryModel :=
  { ID := none, MemberID := req.MemberID, CommitterID := req.CommitterID,
    RollbackerID := req.RollbackerID, Currency := req.Currency,
    Action := req.Action, Status := req.Status,
    CreatedFrom := req.CreatedFrom.map (fun sec => (⟨sec, 10⟩ : Time)),
    CreatedTo := req.CreatedTo.map (fun sec => (⟨sec, 10⟩ : Time)),
    OrderBy := req.Order.map (fun o => ⟨o.OrderBy, o.OrderDirection⟩) }

/-- The body of the loop of `GetTransactionRecords` (lines 461-498) for one row. -/
def WalletImpl.GetTransactionRecords.entry (env : Env) (m : dbModels.TransactionRecordModel) :
    TransactionRecord :=
  { Id := m.ID, MemberID := m.MemberID, WalletID := m.WalletID, Action := m.Action,
    Amount := env.DecimalString m.Amount, Currency := m.Currency,
    CommitterID := m.CommitterID, Status := m.Status,
    CreatedAt := m.CreatedAt.Unix, UpdatedAt := m.UpdatedAt.Unix,
    Remark := m.Remark,
    BeforeAmount := m.BeforeAmount.map env.DecimalString,
    AfterAmount := m.AfterAmount.map env.DecimalString,
    RollbackBeforeAmount := m.RollbackBeforeAmount.map env.DecimalString,
    RollbackAfterAmount := m.RollbackAfterAmount.map env.DecimalString,
    RollbackerID := m.RollbackerID.map toUint64 }

/-- The method `GetTransactionRecords` (lines 414-499). -/
def WalletImpl.GetTransactionRecords (env : Env)
    (GetOffsetAndLimit : Option general.Pagination → Int × Int)
    (req : GetTransactionRecordsReq) (st : Database) :
    Outcome GetTransactionRecordsRes × Database :=
  match transactionRecordDao.GetsWithPagination env GetOffsetAndLimit gorm.DB.pool
      (WalletImpl.GetTransactionRecords.query req) req.Pagination st with
  | (none, st1) => (Outcome.panic, st1)
  | (some (Except.error e), st1) => (Outcome.err (Error.store e), st1)
  | (some (Except.ok (models, paginationInfo)), st1) =>
    (Outcome.ok ⟨models.map (WalletImpl.GetTransactionRecords.entry env), paginationInfo⟩, st1)

/-! ## The request context -/

/-- Why a `context.Context` has ended: `context.Canceled` or `context.DeadlineExceeded`. -/
inductive context.Reason where
  | Canceled
  | DeadlineExceeded
deriving DecidableEq

/-- The `context.Context` of a request, as a method could observe it: what `ctx.Err()`
answers once the store has seen `n` calls (`none` while the context is live). -/
structure context.Context where
  Err : Nat → Option context.Reason

/-- The context `context.Background()`: never cancelled. -/
def context.Background : context.Context := ⟨fun _ => none⟩

/-- The method `Transaction` with the `ctx` of its signature.  The body hands `ctx` to the
calls of `logging` and to nothing else: it calls neither `ctx.Done()` nor `ctx.Err()`, and
its gorm handle is `database.GetDB()`, without `WithContext(ctx)`.  So its store calls and
its result are those of `Transaction` above, which leaves the log out. -/
def WalletImpl.Transaction.withContext (_ctx : context.Context) (env : Env)
    (req : TransactionReq) (st : Database) : Option (Outcome TransactionRes × Database) :=
  WalletImpl.Transaction env req st

/-! ## Views of the journal without the action column -/

/-- A journal row with its `action` column blanked. -/
def dbModels.TransactionRecordModel.withoutAction (r : dbModels.TransactionRecordModel) :
    dbModels.TransactionRecordModel :=
  { r with Action := 0 }

/-- The tables with the `action` column of the journal blanked. -/
def Tables.withoutAction (t : Tables) : Tables :=
  { t with transaction_record :=
      t.transaction_record.map dbModels.TransactionRecordModel.withoutAction }

/-- The database with the `action` column of the journal blanked, in the committed tables
and in those of the open transaction. -/
def Database.withoutAction (st : Database) : Database :=
  { st with committed := st.committed.withoutAction,
            pending := st.pending.map Tables.withoutAction }

/-! ## Concrete scenarios -/

namespace Scenario

/-- A decimal parser for the amounts the scenarios use; every other string is rejected. -/
def parse (s : String) : Option Decimal :=
  if s = "25" then some 25 else if s = "-75" then some (-75) else if s = "100" then some 100
  else none

/-- A store without faults. -/
def env : Env := ⟨parse, fun d => toString d, fun _ _ => none⟩

/-- A store that answers every conditional update of `wallet` with `ErrRecordNotFound`. -/
def conflictEnv : Env :=
  ⟨parse, fun d => toString d,
    fun c _ => if c = walletUpdates then some StoreFault.ErrRecordNotFound else none⟩

/-- A store whose reads of `wallet` answer `ErrRecordNotFound`. -/
def notFoundEnv : Env :=
  ⟨parse, fun d => toString d,
    fun c _ => if c = walletScan then some StoreFault.ErrRecordNotFound else none⟩

/-- A store whose reads of `transaction_record` answer `ErrRecordNotFound`. -/
def recordNotFoundEnv : Env :=
  ⟨parse, fun d => toString d,
    fun c _ => if c = recordScan then some StoreFault.ErrRecordNotFound else none⟩

/-- Wallet 1 of member 7: 50 units of USD. -/
def wallet : dbModels.WalletModel := ⟨1, 7, 50, "USD", none, none, none⟩

/-- A database holding that wallet and an empty journal. -/
def st : Database := ⟨⟨[wallet], []⟩, none, ⟨1700000000, 0⟩, []⟩

/-- A deposit of 25 into wallet 1. -/
def deposit : TransactionReq :=
  ⟨1, dbModels.TransactionAction_Deposit, "25", "USD", 9, none⟩

/-- A withdrawal of 75 from wallet 1. -/
def withdraw : TransactionReq :=
  ⟨1, dbModels.TransactionAction_Withdraw, "-75", "USD", 9, none⟩

/-- A deposit of 25 into wallet 2, which does not exist. -/
def depositNowhere : TransactionReq :=
  ⟨2, dbModels.TransactionAction_Deposit, "25", "USD", 9, none⟩

/-- A deposit of 25 EUR into wallet 1, which holds USD. -/
def depositEUR : TransactionReq :=
  ⟨1, dbModels.TransactionAction_Deposit, "25", "EUR", 9, none⟩

/-- A deposit whose amount is not a decimal. -/
def depositGarbage : TransactionReq :=
  ⟨1, dbModels.TransactionAction_Deposit, "1O0", "USD", 9, none⟩

/-- The wallet as a caller read it when it still held 40 units. -/
def staleWallet : dbModels.WalletModel := { wallet with Amount := 40 }

/-- A journal row of wallet 1 in status Failed. -/
def failedRow : dbModels.TransactionRecordModel :=
  { (default : dbModels.TransactionRecordModel) with
    ID := 1, MemberID := 7, WalletID := 1, Action := dbModels.TransactionAction_Withdraw,
    Amount := -75, Currency := "USD", CommitterID := 9,
    Status := dbModels.TransactionStatus_Failed }

/-- The database with that row in its journal. -/
def stFailed : Database := ⟨⟨[wallet], [failedRow]⟩, none, ⟨1700000000, 0⟩, []⟩

/-- The journal row of a deposit of 25 that took wallet 1 from 25 to 50. -/
def depositedRow : dbModels.TransactionRecordModel :=
  { (default : dbModels.TransactionRecordModel) with
    ID := 1, MemberID := 7, WalletID := 1, Action := dbModels.TransactionAction_Deposit,
    Amount := 25, BeforeAmount := some 25, AfterAmount := some 50, Currency := "USD",
    CommitterID := 9, Status := dbModels.TransactionStatus_Success }

/-- The database with wallet 1 at 50 and that Success row in its journal. -/
def stDeposited : Database := ⟨⟨[wallet], [depositedRow]⟩, none, ⟨1700000000, 0⟩, []⟩

/-- The journal row of a deposit of 100 that took wallet 1 from 0 to 100. -/
def hundredRow : dbModels.TransactionRecordModel :=
  { (default : dbModels.TransactionRecordModel) with
    ID := 1, MemberID := 7, WalletID := 1, Action := dbModels.TransactionAction_Deposit,
    Amount := 100, BeforeAmount := some 0, AfterAmount := some 100, Currency := "USD",
    CommitterID := 9, Status := dbModels.TransactionStatus_Success }

/-- Wallet 1 drawn down to 0 again. -/
def drainedWallet : dbModels.WalletModel := { wallet with Amount := 0 }

/-- The database with wallet 1 at 0 and the deposit of 100 in status Success. -/
def stDrained : Database := ⟨⟨[drainedWallet], [hundredRow]⟩, none, ⟨1700000000, 0⟩, []⟩

/-- The request to roll back journal row 1, made by member 3. -/
def rollbackFirst : RollbackTransactionReq := ⟨1, 3, none⟩

/-- A database with no wallet and no journal row. -/
def empty : Database := ⟨⟨[], []⟩, none, ⟨1700000000, 0⟩, []⟩

/-- The request of member 7 for a USD wallet. -/
def createUSD : CreateWalletReq := ⟨7, "USD"⟩

/-- A deposit of 100 into wallet 1. -/
def deposit100 : TransactionReq :=
  ⟨1, dbModels.TransactionAction_Deposit, "100", "USD", 9, none⟩

/-- A store that answers the first conditional update of `wallet` (the fourth call it sees)
with `ErrRecordNotFound`, the read of `wallet` that follows with error 7, and every update
of `transaction_record` with error 8. -/
def brokenReadEnv : Env :=
  ⟨parse, fun d => toString d,
    fun c n =>
      if c = walletUpdates ∧ n = 3 then some StoreFault.ErrRecordNotFound
      else if c = walletScan ∧ n = 4 then some (StoreFault.other 7)
      else if c = recordUpdates then some (StoreFault.other 8)
      else none⟩

/-- The database after the deposit of 25 into wallet 1 of `st`. -/
def afterDeposit : Database :=
  ((WalletImpl.Transaction env deposit st).map Prod.snd).getD st

/-- The database after one more deposit of 25. -/
def afterDeposits : Database :=
  ((WalletImpl.transactions env [deposit] afterDeposit).map Prod.snd).getD st

/-- Wallet 1 of member 7, in USD: created at 1700000000, last updated at 1700000600. -/
def usdWallet : dbModels.WalletModel :=
  ⟨1, 7, 50, "USD", some ⟨1700000000, 0⟩, some ⟨1700000600, 0⟩, none⟩

/-- Wallet 2 of member 7, in EUR. -/
def eurWallet : dbModels.WalletModel :=
  ⟨2, 7, 30, "EUR", some ⟨1700000100, 0⟩, some ⟨1700000100, 0⟩, none⟩

/-- The database with the two wallets of member 7 and an empty journal. -/
def stWallets : Database := ⟨⟨[usdWallet, eurWallet], []⟩, none, ⟨1700001000, 0⟩, []⟩

/-- The request for the USD wallets of member 7. -/
def getUSDOfMember : GetWalletsReq := ⟨GetWalletsReq.isWallet.MemberID 7, some "USD"⟩

/-- The request for wallet 1. -/
def getWalletOne : GetWalletsReq := ⟨GetWalletsReq.isWallet.Id 1, none⟩

/-- A page function standing in for `pagination.GetOffsetAndLimit` of `be-common` in the
scenarios: page `n` of size `k` starts after `(n - 1) * k` rows. -/
def GetOffsetAndLimit (paginate : Option general.Pagination) : Int × Int :=
  match paginate with
  | some p => ((p.Page - 1) * p.PageSize, p.PageSize)
  | none => (0, 0)

/-- Journal row 1: committed by 9, rolled back by 3. -/
def rolledBackRow : dbModels.TransactionRecordModel :=
  { (default : dbModels.TransactionRecordModel) with
    ID := 1, MemberID := 7, WalletID := 1, Action := dbModels.TransactionAction_Deposit,
    Amount := 25, BeforeAmount := some 25, AfterAmount := some 50, Currency := "USD",
    CommitterID := 9, Status := dbModels.TransactionStatus_Rollback,
    CreatedAt := ⟨1700000000, 0⟩, UpdatedAt := ⟨1700000600, 0⟩,
    RollbackBeforeAmount := some 50, RollbackAfterAmount := some 25, RollbackerID := some 3 }

/-- Journal row 2: committed by 3, never rolled back. -/
def committedByThree : dbModels.TransactionRecordModel :=
  { (default : dbModels.TransactionRecordModel) with
    ID := 2, MemberID := 7, WalletID := 1, Action := dbModels.TransactionAction_Deposit,
    Amount := 25, BeforeAmount := some 25, AfterAmount := some 50, Currency := "USD",
    CommitterID := 3, Status := dbModels.TransactionStatus_Success,
    CreatedAt := ⟨1700000100, 0⟩, UpdatedAt := ⟨1700000100, 0⟩ }

/-- The database with these two journal rows. -/
def stJournal : Database :=
  ⟨⟨[usdWallet], [rolledBackRow, committedByThree]⟩, none, ⟨1700001000, 0⟩, []⟩

/-- The request for the journal rows rolled back by 3, first page of ten. -/
def rolledBackByThree : GetTransactionRecordsReq :=
  { MemberID := none, CommitterID := none, RollbackerID := some 3, Currency := [],
    Action := [], Status := [], CreatedFrom := none, CreatedTo := none, Order := [],
    Pagination := some ⟨1, 10⟩ }

/-- The request for the second page of size one of the whole journal. -/
def secondPage : GetTransactionRecordsReq :=
  { MemberID := none, CommitterID := none, RollbackerID := none, Currency := [],
    Action := [], Status := [], CreatedFrom := none, CreatedTo := none, Order := [],
    Pagination := some ⟨2, 1⟩ }

/-- The request for the first page of ten of the whole journal. -/
def wholeJournal : GetTransactionRecordsReq :=
  { MemberID := none, CommitterID := none, RollbackerID := none, Currency := [],
    Action := [], Status := [], CreatedFrom := none, CreatedTo := none, Order := [],
    Pagination := some ⟨1, 10⟩ }

/-- A context that was cancelled before the call began. -/
def cancelled : context.Context := ⟨fun _ => some context.Reason.Canceled⟩

/-- The database after the deposit of 25 on the store whose conditional updates all meet a
conflict. -/
def afterConflicts : Database :=
  ((WalletImpl.Transaction conflictEnv deposit st).map Prod.snd).getD st

end Scenario

/-! ## The DAO calls on a known state -/

theorem gorm.connect_ok (env : Env) (c : Call) (db : gorm.DB) (st : Database) (t : Tables)
    (hv : gorm.view db st = some t) (hf : env.fault c st.trace.length = none) :
    gorm.connect env c db st = (Except.ok t, { st with trace := c :: st.trace }) := by
  simp [gorm.connect, hv, hf]

theorem gorm.connect_fault (env : Env) (c : Call) (db : gorm.DB) (st : Database) (t : Tables)
    (e : StoreFault) (hv : gorm.view db st = some t)
    (hf : env.fault c st.trace.length = some e) :
    gorm.connect env c db st = (Except.error e, { st with trace := c :: st.trace }) := by
  simp [gorm.connect, hv, hf]

theorem gorm.connect_done (env : Env) (c : Call) (db : gorm.DB) (st : Database)
    (hv : gorm.view db st = none) :
    gorm.connect env c db st =
      (Except.error StoreFault.ErrTxDone, { st with trace := c :: st.trace }) := by
  simp [gorm.connect, hv]

theorem gorm.Scan_ok {α : Type} [Inhabited α] (env : Env) (db : gorm.DB)
    (table : gorm.TableRef α) (s : gorm.Statement α) (st : Database) (t : Tables)
    (hv : gorm.view db st = some t)
    (hf : env.fault ⟨Verb.Scan, table.name⟩ st.trace.length = none) :
    gorm.Scan env db table s st =
      (⟨none, min 1 (s.rows (table.get t)).length, ((s.rows (table.get t)).head?).getD default⟩,
        { st with trace := ⟨Verb.Scan, table.name⟩ :: st.trace }) := by
  simp only [gorm.Scan, gorm.connect_ok env _ db st t hv hf]
  cases s.rows (table.get t) <;> simp

theorem gorm.Scan_fault {α : Type} [Inhabited α] (env : Env) (db : gorm.DB)
    (table : gorm.TableRef α) (s : gorm.Statement α) (st : Database) (t : Tables)
    (e : StoreFault) (hv : gorm.view db st = some t)
    (hf : env.fault ⟨Verb.Scan, table.name⟩ st.trace.length = some e) :
    gorm.Scan env db table s st =
      (⟨some e, 0, default⟩, { st with trace := ⟨Verb.Scan, table.name⟩ :: st.trace }) := by
  simp only [gorm.Scan, gorm.connect_fault env _ db st t e hv hf]

theorem gorm.Updates_ok {α : Type} (env : Env) (db : gorm.DB)
    (table : gorm.TableRef α) (s : gorm.Statement α) (assign : Time → α → α) (st : Database)
    (t : Tables) (hv : gorm.view db st = some t)
    (hf : env.fault ⟨Verb.Updates, table.name⟩ st.trace.length = none) :
    gorm.Updates env db table s assign st =
      (⟨none, ((table.get t).filter (fun r => s.Where.all (fun c => c r))).length, ()⟩,
        gorm.flush db
          (table.set ((table.get t).map
            (fun r => if s.Where.all (fun c => c r) then assign st.now r else r)) t)
          { st with trace := ⟨Verb.Updates, table.name⟩ :: st.trace }) := by
  simp only [gorm.Updates, gorm.connect_ok env _ db st t hv hf]

theorem gorm.Updates_fault {α : Type} (env : Env) (db : gorm.DB)
    (table : gorm.TableRef α) (s : gorm.Statement α) (assign : Time → α → α) (st : Database)
    (t : Tables) (e : StoreFault) (hv : gorm.view db st = some t)
    (hf : env.fault ⟨Verb.Updates, table.name⟩ st.trace.length = some e) :
    gorm.Updates env db table s assign st =
      (⟨some e, 0, ()⟩, { st with trace := ⟨Verb.Updates, table.name⟩ :: st.trace }) := by
  simp only [gorm.Updates, gorm.connect_fault env _ db st t e hv hf]

theorem gorm.Updates_done {α : Type} (env : Env) (db : gorm.DB)
    (table : gorm.TableRef α) (s : gorm.Statement α) (assign : Time → α → α) (st : Database)
    (hv : gorm.view db st = none) :
    gorm.Updates env db table s assign st =
      (⟨some StoreFault.ErrTxDone, 0, ()⟩,
        { st with trace := ⟨Verb.Updates, table.name⟩ :: st.trace }) := by
  simp only [gorm.Updates, gorm.connect_done env _ db st hv]

theorem walletDao_rows_byID (id : Nat) (l : List dbModels.WalletModel) :
    (walletDao.queryChain ⟨[id], [], none, none⟩
      (gorm.Statement.table dbModels.WalletModel)).rows l =
      l.filter (fun w => decide (w.ID = id)) := by
  simp [walletDao.queryChain, walletDao.idInScope, walletDao.memberIDInScope,
    gorm.Statement.table, gorm.Statement.rows]

theorem walletDao_Get_ok (env : Env) (db : gorm.DB) (id : Nat) (st : Database) (t : Tables)
    (hv : gorm.view db st = some t) (hf : env.fault walletScan st.trace.length = none) :
    walletDao.Get env db ⟨[id], [], none, none⟩ st =
      (Except.ok (some ((t.walletByID id).getD default)),
        { st with trace := walletScan :: st.trace }) := by
  have hs := gorm.Scan_ok env db walletTable
    (walletDao.queryChain ⟨[id], [], none, none⟩ (gorm.Statement.table dbModels.WalletModel))
    st t hv hf
  simp only [walletDao.Get, hs, walletDao_rows_byID]
  simp [walletTable, Tables.walletByID, walletScan]

theorem walletDao_Get_fault (env : Env) (db : gorm.DB) (q : walletDao.QueryModel)
    (st : Database) (t : Tables) (e : StoreFault)
    (hv : gorm.view db st = some t) (hf : env.fault walletScan st.trace.length = some e) :
    walletDao.Get env db q st =
      (if e = StoreFault.ErrRecordNotFound then Except.ok none else Except.error e,
        { st with trace := walletScan :: st.trace }) := by
  have hs := gorm.Scan_fault env db walletTable
    (walletDao.queryChain q (gorm.Statement.table dbModels.WalletModel)) st t e hv hf
  simp only [walletDao.Get, hs]
  cases e <;> simp [walletTable, walletScan]

theorem walletDao_Modify_ok (env : Env) (db : gorm.DB) (model : dbModels.WalletModel)
    (update : walletDao.UpdateModel) (st : Database) (t : Tables)
    (hv : gorm.view db st = some t) (hf : env.fault walletUpdates st.trace.length = none) :
    walletDao.Modify env db model update st =
      (none, gorm.flush db { t with wallet := walletDao.modified model update.Amount st.now t.wallet }
        { st with trace := walletUpdates :: st.trace }) := by
  have hs := gorm.Updates_ok env db walletTable (walletDao.modifyStatement model)
    (fun now w => { w with Amount := update.Amount, UpdatedAt := some now }) st t hv hf
  simp only [walletDao.Modify, walletDao.modifyUpdates, hs]
  simp [walletTable, walletUpdates, walletDao.modified, walletDao.modifyStatement,
    gorm.Statement.table, and_assoc]

theorem walletDao_Modify_fault (env : Env) (db : gorm.DB) (model : dbModels.WalletModel)
    (update : walletDao.UpdateModel) (st : Database) (t : Tables) (e : StoreFault)
    (hv : gorm.view db st = some t) (hf : env.fault walletUpdates st.trace.length = some e) :
    walletDao.Modify env db model update st =
      (some e, { st with trace := walletUpdates :: st.trace }) := by
  have hs := gorm.Updates_fault env db walletTable (walletDao.modifyStatement model)
    (fun now w => { w with Amount := update.Amount, UpdatedAt := some now }) st t e hv hf
  simp only [walletDao.Modify, walletDao.modifyUpdates, hs]
  simp [walletTable, walletUpdates]

theorem gorm.Create_ok {α : Type} (env : Env) (db : gorm.DB) (table : gorm.TableRef α)
    (ids : List α → List Nat) (fill : Nat → Time → α → α) (model : α) (st : Database)
    (t : Tables) (hv : gorm.view db st = some t)
    (hf : env.fault ⟨Verb.Create, table.name⟩ st.trace.length = none) :
    gorm.Create env db table ids fill model st =
      (⟨none, 1, fill (gorm.nextID (ids (table.get t))) st.now model⟩,
        gorm.flush db
          (table.set (table.get t ++ [fill (gorm.nextID (ids (table.get t))) st.now model]) t)
          { st with trace := ⟨Verb.Create, table.name⟩ :: st.trace }) := by
  simp only [gorm.Create, gorm.connect_ok env _ db st t hv hf]

theorem gorm.Create_fault {α : Type} (env : Env) (db : gorm.DB) (table : gorm.TableRef α)
    (ids : List α → List Nat) (fill : Nat → Time → α → α) (model : α) (st : Database)
    (t : Tables) (e : StoreFault) (hv : gorm.view db st = some t)
    (hf : env.fault ⟨Verb.Create, table.name⟩ st.trace.length = some e) :
    gorm.Create env db table ids fill model st =
      (⟨some e, 0, model⟩, { st with trace := ⟨Verb.Create, table.name⟩ :: st.trace }) := by
  simp only [gorm.Create, gorm.connect_fault env _ db st t e hv hf]

theorem gorm.lt_nextID (ids : List Nat) (n : Nat) (h : n ∈ ids) : n < gorm.nextID ids := by
  induction ids with
  | nil => simp at h
  | cons a l ih =>
    simp only [gorm.nextID, List.foldr_cons] at ih ⊢
    rcases List.mem_cons.mp h with h1 | h1
    · subst h1; omega
    · have := ih h1; omega

theorem transactionRecordDao_New_ok (env : Env) (db : gorm.DB)
    (model : dbModels.TransactionRecordModel) (st : Database) (t : Tables)
    (hv : gorm.view db st = some t) (hf : env.fault recordCreate st.trace.length = none)
    (hid : model.ID = 0) (hc : model.CreatedAt = default) (hu : model.UpdatedAt = default) :
    transactionRecordDao.New env db model st =
      (Except.ok (transactionRecordDao.created model st.now t.transaction_record),
        gorm.flush db { t with transaction_record := t.transaction_record ++
            [transactionRecordDao.created model st.now t.transaction_record] }
          { st with trace := recordCreate :: st.trace }) := by
  simp only [transactionRecordDao.New]
  rw [gorm.Create_ok env db transactionRecordTable _ _ model st t hv hf]
  simp [transactionRecordTable, transactionRecordDao.created, recordCreate, hid, hc, hu]

theorem transactionRecordDao_New_fault (env : Env) (db : gorm.DB)
    (model : dbModels.TransactionRecordModel) (st : Database) (t : Tables) (e : StoreFault)
    (hv : gorm.view db st = some t) (hf : env.fault recordCreate st.trace.length = some e) :
    transactionRecordDao.New env db model st =
      (Except.error e, { st with trace := recordCreate :: st.trace }) := by
  simp only [transactionRecordDao.New]
  rw [gorm.Create_fault env db transactionRecordTable _ _ model st t e hv hf]
  simp [transactionRecordTable, recordCreate]

theorem transactionRecordDao_rows_byID (id : Nat) (l : List dbModels.TransactionRecordModel) :
    (transactionRecordDao.queryChain (transactionRecordDao.QueryModel.byID id)
      (gorm.Statement.table dbModels.TransactionRecordModel)).rows l =
      l.filter (fun r => decide (r.ID = id)) := by
  simp [transactionRecordDao.queryChain, transactionRecordDao.QueryModel.byID,
    transactionRecordDao.idEqualScope, transactionRecordDao.memberIDEqualScope,
    transactionRecordDao.committerIDEqualScope, transactionRecordDao.rollbackerIDEqualScope,
    transactionRecordDao.currencyInScope, transactionRecordDao.statusInScope,
    transactionRecordDao.actionInScope, transactionRecordDao.createdBetweenScope,
    transactionRecordDao.orderByScope, gorm.Statement.table, gorm.Statement.rows]

theorem transactionRecordDao_Get_ok (env : Env) (db : gorm.DB) (id : Nat) (st : Database)
    (t : Tables) (hv : gorm.view db st = some t)
    (hf : env.fault recordScan st.trace.length = none) :
    transactionRecordDao.Get env db (transactionRecordDao.QueryModel.byID id) st =
      (Except.ok (some ((t.recordByID id).getD default)),
        { st with trace := recordScan :: st.trace }) := by
  have hs := gorm.Scan_ok env db transactionRecordTable
    (transactionRecordDao.queryChain (transactionRecordDao.QueryModel.byID id)
      (gorm.Statement.table dbModels.TransactionRecordModel)) st t hv hf
  simp only [transactionRecordDao.Get, hs, transactionRecordDao_rows_byID]
  simp [transactionRecordTable, Tables.recordByID, recordScan]

theorem transactionRecordDao_Get_fault (env : Env) (db : gorm.DB)
    (q : transactionRecordDao.QueryModel) (st : Database) (t : Tables) (e : StoreFault)
    (hv : gorm.view db st = some t) (hf : env.fault recordScan st.trace.length = some e) :
    transactionRecordDao.Get env db q st =
      (if e = StoreFault.ErrRecordNotFound then Except.ok none else Except.error e,
        { st with trace := recordScan :: st.trace }) := by
  have hs := gorm.Scan_fault env db transactionRecordTable
    (transactionRecordDao.queryChain q (gorm.Statement.table dbModels.TransactionRecordModel))
    st t e hv hf
  simp only [transactionRecordDao.Get, hs]
  cases e <;> simp [transactionRecordTable, recordScan]

theorem transactionRecordDao_Modify_ok (env : Env) (db : gorm.DB)
    (model : dbModels.TransactionRecordModel) (update : transactionRecordDao.UpdateModel)
    (st : Database) (t : Tables)
    (hv : gorm.view db st = some t) (hf : env.fault recordUpdates st.trace.length = none) :
    transactionRecordDao.Modify env db model update st =
      (none, gorm.flush db
        { t with transaction_record :=
            transactionRecordDao.modified model update st.now t.transaction_record }
        { st with trace := recordUpdates :: st.trace }) := by
  simp only [transactionRecordDao.Modify]
  rw [gorm.Updates_ok env db transactionRecordTable _ _ st t hv hf]
  simp [transactionRecordTable, recordUpdates, transactionRecordDao.modified,
    transactionRecordDao.modifyStatement, gorm.Statement.table]

theorem transactionRecordDao_Modify_fault (env : Env) (db : gorm.DB)
    (model : dbModels.TransactionRecordModel) (update : transactionRecordDao.UpdateModel)
    (st : Database) (t : Tables) (e : StoreFault)
    (hv : gorm.view db st = some t) (hf : env.fault recordUpdates st.trace.length = some e) :
    transactionRecordDao.Modify env db model update st =
      (some e, { st with trace := recordUpdates :: st.trace }) := by
  simp only [transactionRecordDao.Modify]
  rw [gorm.Updates_fault env db transactionRecordTable _ _ st t e hv hf]
  simp [transactionRecordTable, recordUpdates]

theorem transactionRecordDao_Modify_done (env : Env) (db : gorm.DB)
    (model : dbModels.TransactionRecordModel) (update : transactionRecordDao.UpdateModel)
    (st : Database) (hv : gorm.view db st = none) :
    transactionRecordDao.Modify env db model update st =
      (some StoreFault.ErrTxDone, { st with trace := recordUpdates :: st.trace }) := by
  simp only [transactionRecordDao.Modify]
  rw [gorm.Updates_done env db transactionRecordTable _ _ st hv]
  simp [transactionRecordTable, recordUpdates]

theorem WalletImpl.Transaction.fail_eq (env : Env)
    (transactionRecord : dbModels.TransactionRecordModel) (st : Database) :
    WalletImpl.Transaction.fail env gorm.DB.began transactionRecord st =
      { st with pending := none, trace := recordUpdates :: st.trace } := by
  simp only [WalletImpl.Transaction.fail, gorm.Rollback]
  rw [transactionRecordDao_Modify_done env gorm.DB.began _ _ _ (by simp [gorm.view])]

theorem WalletImpl.Transaction.loop_attempt_ok (env : Env) (req : TransactionReq) (a : Decimal)
    (transactionRecord : dbModels.TransactionRecordModel) (fuel retryCount : Nat)
    (st : Database) (t : Tables) (w : dbModels.WalletModel)
    (hrc : retryCount ≤ 10) (hp : st.pending = some t)
    (hw : (t.walletByID req.WalletID).getD default = w) (hab : 0 ≤ w.Amount + a)
    (hf1 : env.fault walletScan st.trace.length = none)
    (hf2 : env.fault walletUpdates (st.trace.length + 1) = none) :
    WalletImpl.Transaction.loop env req a transactionRecord gorm.DB.began (fuel + 1) retryCount
        st =
      some (WalletImpl.LoopExit.success w.Amount (w.Amount + a),
        { st with
          pending := some { t with
            wallet := walletDao.modified w (w.Amount + a) st.now t.wallet },
          trace := walletUpdates :: walletScan :: st.trace }) := by
  have hv : gorm.view gorm.DB.began st = some t := by simp [gorm.view, hp]
  simp only [WalletImpl.Transaction.loop]
  rw [if_neg (show ¬ retryCount > 10 by omega),
    walletDao_Get_ok env gorm.DB.began req.WalletID st t hv hf1]
  simp only [hw]
  rw [if_neg (not_lt.mpr hab),
    walletDao_Modify_ok env gorm.DB.began w _ _ t (by simp [gorm.view, hp]) (by simpa using hf2)]
  simp [gorm.flush]

theorem transactionRecordDao_created_fresh (model : dbModels.TransactionRecordModel)
    (now : Time) (l : List dbModels.TransactionRecordModel) :
    ∀ r ∈ l, r.ID ≠ (transactionRecordDao.created model now l).ID := by
  intro r hr
  have := gorm.lt_nextID (l.map (fun r => r.ID)) r.ID (List.mem_map_of_mem _ hr)
  simp only [transactionRecordDao.created]
  omega

theorem transactionRecordDao_modified_append (model row : dbModels.TransactionRecordModel)
    (update : transactionRecordDao.UpdateModel) (now : Time)
    (l : List dbModels.TransactionRecordModel) (hl : ∀ r ∈ l, r.ID ≠ model.ID)
    (hid : row.ID = model.ID) (hs : row.Status = model.Status) :
    transactionRecordDao.modified model update now (l ++ [row]) =
      l ++ [{ transactionRecordDao.attrs update row with UpdatedAt := now }] := by
  simp only [transactionRecordDao.modified, List.map_append, List.map_cons, List.map_nil,
    hid, hs, and_self, if_true]
  congr 1
  conv_rhs => rw [← List.map_id l]
  apply List.map_congr_left
  intro r hr
  simp [hl r hr]

theorem Tables.recordByID_append (w : List dbModels.WalletModel)
    (l : List dbModels.TransactionRecordModel) (row : dbModels.TransactionRecordModel)
    (hl : ∀ r ∈ l, r.ID ≠ row.ID) :
    Tables.recordByID ⟨w, l ++ [row]⟩ row.ID = some row := by
  have : List.find? (fun r => decide (r.ID = row.ID)) l = none := by
    simp only [List.find?_eq_none, decide_eq_true_eq]
    exact hl
  simp [Tables.recordByID, List.find?_append, this]

theorem walletDao_find_modified (id : Nat) (w : dbModels.WalletModel) (amount : Decimal)
    (now : Time) (l : List dbModels.WalletModel)
    (hw : l.find? (fun r => decide (r.ID = id)) = some w) (hlive : w.DeletedAt = none) :
    (walletDao.modified w amount now l).find? (fun r => decide (r.ID = id)) =
      some { w with Amount := amount, UpdatedAt := some now } := by
  induction l with
  | nil => simp at hw
  | cons x l ih =>
    simp only [walletDao.modified, List.map_cons]
    by_cases hx : x.ID = id
    · simp only [List.find?_cons, hx, decide_True] at hw
      have hxw : x = w := by simpa using hw
      subst hxw
      simp [hx, hlive]
    · simp only [List.find?_cons, hx, decide_False] at hw
      have hid : w.ID = id := by
        have := List.find?_some hw
        simpa using this
      have hne : ¬ (x.ID = w.ID) := by rw [hid]; exact hx
      simp only [hne, false_and, if_false, List.find?_cons, hx, decide_False]
      exact ih hw

theorem WalletImpl.Transaction.stamp_success (req : TransactionReq) (a : Decimal)
    (w : dbModels.WalletModel) (now : Time) (l : List dbModels.TransactionRecordModel) :
    transactionRecordDao.modified
        (transactionRecordDao.created (WalletImpl.Transaction.pendingRecord req a w) now l)
        ⟨some (some w.Amount), some (some (w.Amount + a)),
          some dbModels.TransactionStatus_Success, none, none, none, none⟩ now
        (l ++ [transactionRecordDao.created (WalletImpl.Transaction.pendingRecord req a w)
          now l]) =
      l ++ [WalletImpl.Transaction.successRow req a w now l] := by
  rw [transactionRecordDao_modified_append _ _ _ _ _
    (transactionRecordDao_created_fresh _ _ _) rfl rfl]
  simp [transactionRecordDao.attrs, transactionRecordDao.created,
    WalletImpl.Transaction.successRow, WalletImpl.Transaction.pendingRecord]

theorem WalletImpl.Transaction.successRow_fresh (req : TransactionReq) (a : Decimal)
    (w : dbModels.WalletModel) (now : Time) (l : List dbModels.TransactionRecordModel) :
    ∀ r ∈ l, r.ID ≠ (WalletImpl.Transaction.successRow req a w now l).ID := by
  intro r hr
  have := gorm.lt_nextID (l.map (fun r => r.ID)) r.ID (List.mem_map_of_mem _ hr)
  simp only [WalletImpl.Transaction.successRow]
  omega

theorem WalletImpl.Transaction_eval_success (env : Env) (req : TransactionReq) (st : Database)
    (w : dbModels.WalletModel) (a : Decimal)
    (hparse : env.NewFromString req.Amount = some a)
    (hfault : ∀ c n, env.fault c n = none)
    (hw : (st.committed.walletByID req.WalletID).getD default = w)
    (hab : 0 ≤ w.Amount + a) :
    WalletImpl.Transaction env req st =
      some (Outcome.ok
        { Id := gorm.nextID (st.committed.transaction_record.map (fun r => r.ID)),
          BeforeAmount := env.DecimalString w.Amount,
          AfterAmount := env.DecimalString (w.Amount + a),
          Currency := req.Currency,
          Status := dbModels.TransactionStatus_Success,
          CreatedAt := st.now.sec,
          UpdatedAt := st.now.sec },
        { committed :=
            { wallet := walletDao.modified w (w.Amount + a) st.now st.committed.wallet,
              transaction_record := st.committed.transaction_record ++
                [WalletImpl.Transaction.successRow req a w st.now
                  st.committed.transaction_record] },
          pending := none,
          now := st.now,
          trace := recordScan :: recordUpdates :: walletUpdates :: walletScan ::
            recordCreate :: walletScan :: st.trace }) := by
  simp only [WalletImpl.Transaction, hparse]
  rw [walletDao_Get_ok env gorm.DB.pool req.WalletID st st.committed (by simp [gorm.view])
    (hfault _ _)]
  simp only [hw]
  rw [transactionRecordDao_New_ok env gorm.DB.pool _ _ st.committed (by simp [gorm.view])
    (hfault _ _) rfl rfl rfl]
  simp only [gorm.Begin, gorm.flush]
  rw [WalletImpl.Transaction.loop_attempt_ok env req a _ 11 0 _ _ w (by omega) rfl
    (by simpa only [Tables.walletByID] using hw) hab (hfault _ _) (hfault _ _)]
  simp only []
  rw [transactionRecordDao_Modify_ok env gorm.DB.began _ _ _ _ (by simp only [gorm.view]; rfl)
    (hfault _ _)]
  simp only [gorm.flush, gorm.Commit, WalletImpl.Transaction.stamp_success]
  rw [transactionRecordDao_Get_ok env gorm.DB.pool _ _ _ (by simp only [gorm.view]; rfl)
    (hfault _ _)]
  have hid : (transactionRecordDao.created (WalletImpl.Transaction.pendingRecord req a w)
      st.now st.committed.transaction_record).ID =
      (WalletImpl.Transaction.successRow req a w st.now st.committed.transaction_record).ID :=
    rfl
  rw [hid, Tables.recordByID_append _ _ _ (WalletImpl.Transaction.successRow_fresh _ _ _ _ _)]
  simp [WalletImpl.Transaction.successRow, Time.Unix]

/-! ## What a DAO call does to the state, whatever the store answers -/

theorem gorm.connect_snd (env : Env) (c : Call) (db : gorm.DB) (st : Database) :
    (gorm.connect env c db st).2 = { st with trace := c :: st.trace } := by
  unfold gorm.connect
  split
  · rfl
  · split <;> rfl

theorem walletDao_Get_snd (env : Env) (db : gorm.DB) (q : walletDao.QueryModel)
    (st : Database) :
    (walletDao.Get env db q st).2 = { st with trace := walletScan :: st.trace } := by
  have h := gorm.connect_snd env ⟨Verb.Scan, TableName.wallet⟩ db st
  unfold walletDao.Get gorm.Scan
  simp only [walletTable]
  generalize gorm.connect env ⟨Verb.Scan, TableName.wallet⟩ db st = r at h ⊢
  obtain ⟨x, st1⟩ := r
  simp only at h
  subst h
  cases x with
  | error e => cases e <;> rfl
  | ok t =>
    simp only []
    generalize (walletDao.queryChain q _).rows t.wallet = l
    cases l <;> rfl

theorem transactionRecordDao_Get_snd (env : Env) (db : gorm.DB)
    (q : transactionRecordDao.QueryModel) (st : Database) :
    (transactionRecordDao.Get env db q st).2 = { st with trace := recordScan :: st.trace } := by
  have h := gorm.connect_snd env ⟨Verb.Scan, TableName.transaction_record⟩ db st
  unfold transactionRecordDao.Get gorm.Scan
  simp only [transactionRecordTable]
  generalize gorm.connect env ⟨Verb.Scan, TableName.transaction_record⟩ db st = r at h ⊢
  obtain ⟨x, st1⟩ := r
  simp only at h
  subst h
  cases x with
  | error e => cases e <;> rfl
  | ok t =>
    simp only []
    generalize (transactionRecordDao.queryChain q _).rows t.transaction_record = l
    cases l <;> rfl

theorem walletDao_Modify_began (env : Env) (model : dbModels.WalletModel)
    (update : walletDao.UpdateModel) (st : Database) :
    (walletDao.Modify env gorm.DB.began model update st).2.committed = st.committed ∧
    (walletDao.Modify env gorm.DB.began model update st).2.now = st.now ∧
    (walletDao.Modify env gorm.DB.began model update st).2.trace = walletUpdates :: st.trace ∧
    ((walletDao.Modify env gorm.DB.began model update st).1 = none →
      (walletDao.Modify env gorm.DB.began model update st).2.pending ≠ none) ∧
    ((walletDao.Modify env gorm.DB.began model update st).1 ≠ none →
      (walletDao.Modify env gorm.DB.began model update st).2.pending = st.pending) := by
  have h := gorm.connect_snd env ⟨Verb.Updates, TableName.wallet⟩ gorm.DB.began st
  unfold walletDao.Modify walletDao.modifyUpdates gorm.Updates
  simp only [walletTable]
  generalize gorm.connect env ⟨Verb.Updates, TableName.wallet⟩ gorm.DB.began st = r at h ⊢
  obtain ⟨x, st1⟩ := r
  simp only at h
  subst h
  cases x with
  | error e => simp [walletUpdates]
  | ok t => simp [gorm.flush, walletUpdates]

theorem transactionRecordDao_Modify_began (env : Env)
    (model : dbModels.TransactionRecordModel) (update : transactionRecordDao.UpdateModel)
    (st : Database) :
    (transactionRecordDao.Modify env gorm.DB.began model update st).2.committed = st.committed ∧
    (transactionRecordDao.Modify env gorm.DB.began model update st).2.now = st.now ∧
    (transactionRecordDao.Modify env gorm.DB.began model update st).2.trace =
      recordUpdates :: st.trace := by
  have h := gorm.connect_snd env ⟨Verb.Updates, TableName.transaction_record⟩ gorm.DB.began st
  unfold transactionRecordDao.Modify gorm.Updates
  simp only [transactionRecordTable]
  generalize gorm.connect env ⟨Verb.Updates, TableName.transaction_record⟩ gorm.DB.began st = r
    at h ⊢
  obtain ⟨x, st1⟩ := r
  simp only at h
  subst h
  cases x with
  | error e => simp [recordUpdates]
  | ok t => simp [gorm.flush, recordUpdates]

theorem count_calls :
    (∀ l : List Call, (walletScan :: l).count walletUpdates = l.count walletUpdates) ∧
    (∀ l : List Call, (recordUpdates :: l).count walletUpdates = l.count walletUpdates) ∧
    (∀ l : List Call, (walletUpdates :: l).count walletUpdates = l.count walletUpdates + 1) ∧
    (∀ l : List Call, (walletScan :: l).count walletScan = l.count walletScan + 1) ∧
    (∀ l : List Call, (recordUpdates :: l).count walletScan = l.count walletScan) ∧
    (∀ l : List Call, (walletUpdates :: l).count walletScan = l.count walletScan) := by
  refine ⟨?_, ?_, ?_, ?_, ?_, ?_⟩ <;> intro l <;>
    simp [List.count_cons, walletScan, walletUpdates, recordUpdates]

/-- The loop of `Transaction` returns for every behaviour of the store; it never writes to
the committed tables, and each iteration logs at most one read and one update of `wallet`. -/
theorem WalletImpl.Transaction.loop_frame (env : Env) (req : TransactionReq) (a : Decimal)
    (transactionRecord : dbModels.TransactionRecordModel) :
    ∀ (fuel retryCount : Nat) (st : Database), retryCount ≤ 11 → 12 ≤ fuel + retryCount →
    ∃ exit st', WalletImpl.Transaction.loop env req a transactionRecord gorm.DB.began fuel
        retryCount st = some (exit, st') ∧
      st'.committed = st.committed ∧ st'.now = st.now ∧
      st'.trace.count walletUpdates ≤ st.trace.count walletUpdates + (11 - retryCount) ∧
      st'.trace.count walletScan ≤ st.trace.count walletScan + (11 - retryCount) ∧
      (∀ b c, exit = WalletImpl.LoopExit.success b c → st'.pending ≠ none) := by
  obtain ⟨c1, c2, c3, c4, c5, c6⟩ := count_calls
  intro fuel
  induction fuel with
  | zero => intro rc st h1 h2; omega
  | succ fuel ih =>
    intro rc st h1 h2
    simp only [WalletImpl.Transaction.loop]
    by_cases hrc : rc > 10
    · rw [if_pos hrc, WalletImpl.Transaction.fail_eq]
      exact ⟨_, _, rfl, rfl, rfl, by simp [c2], by simp [c5], by intro b c h; cases h⟩
    · rw [if_neg hrc]
      have hs := walletDao_Get_snd env gorm.DB.began ⟨[req.WalletID], [], none, none⟩ st
      rcases hget : walletDao.Get env gorm.DB.began ⟨[req.WalletID], [], none, none⟩ st with
        ⟨r, st1⟩
      rw [hget] at hs
      simp only at hs
      subst hs
      rcases r with e | _ | w
      · simp only [WalletImpl.Transaction.fail_eq]
        exact ⟨_, _, rfl, rfl, rfl, by simp [c1, c2], by simp [c4, c5]; omega,
          by intro b c h; cases h⟩
      · simp only [WalletImpl.Transaction.fail_eq]
        exact ⟨_, _, rfl, rfl, rfl, by simp [c1, c2], by simp [c4, c5]; omega,
          by intro b c h; cases h⟩
      · simp only []
        by_cases hlt : w.Amount + a < 0
        · rw [if_pos hlt]
          exact ⟨_, _, rfl, rfl, rfl, by simp [c1], by simp [c4]; omega,
            by intro b c h; cases h⟩
        · rw [if_neg hlt]
          have hm := walletDao_Modify_began env w ⟨w.Amount + a⟩
            { st with trace := walletScan :: st.trace }
          rcases hmod : walletDao.Modify env gorm.DB.began w ⟨w.Amount + a⟩
            { st with trace := walletScan :: st.trace } with ⟨err, st2⟩
          rw [hmod] at hm
          simp only at hm
          obtain ⟨hm1, hm2, hm3, hm4, hm5⟩ := hm
          rcases err with _ | e
          · simp only []
            refine ⟨_, _, rfl, hm1, hm2, ?_, ?_, ?_⟩
            · rw [hm3, c3, c1]; omega
            · rw [hm3, c6, c4]; omega
            · intro b c _; exact hm4 rfl
          · cases e with
            | ErrRecordNotFound =>
              simp only []
              obtain ⟨exit, st', h3, h4, h5, h6, h7, h8⟩ := ih (rc + 1) st2 (by omega) (by omega)
              refine ⟨exit, st', h3, by rw [h4, hm1], by rw [h5, hm2], ?_, ?_, h8⟩
              · rw [hm3, c3, c1] at h6; omega
              · rw [hm3, c6, c4] at h7; omega
            | ErrTxDone =>
              simp only [WalletImpl.Transaction.fail_eq]
              refine ⟨_, _, rfl, hm1, hm2, ?_, ?_, by intro b c h; cases h⟩
              · simp only [c2, hm3, c3, c1]; omega
              · simp only [c5, hm3, c6, c4]; omega
            | other code =>
              simp only [WalletImpl.Transaction.fail_eq]
              refine ⟨_, _, rfl, hm1, hm2, ?_, ?_, by intro b c h; cases h⟩
              · simp only [c2, hm3, c3, c1]; omega
              · simp only [c5, hm3, c6, c4]; omega

/-- When every conditional update is answered by `ErrRecordNotFound` and every read of the
wallet succeeds, the loop of `Transaction` makes the attempts that are left up to the
eleventh, then gives up with `ErrUpdateWalletInterrupted`, the transaction rolled back. -/
theorem WalletImpl.Transaction.loop_conflicts (env : Env) (req : TransactionReq) (a : Decimal)
    (transactionRecord : dbModels.TransactionRecordModel) (t : Tables)
    (w : dbModels.WalletModel) (hw : t.walletByID req.WalletID = some w)
    (hab : 0 ≤ w.Amount + a)
    (hread : ∀ n, env.fault walletScan n = none)
    (hcas : ∀ n, env.fault walletUpdates n = some StoreFault.ErrRecordNotFound) :
    ∀ (fuel retryCount : Nat) (st : Database), retryCount ≤ 11 → 12 ≤ fuel + retryCount →
    st.pending = some t →
    ∃ st', WalletImpl.Transaction.loop env req a transactionRecord gorm.DB.began fuel
        retryCount st = some (WalletImpl.LoopExit.returned Error.ErrUpdateWalletInterrupted, st') ∧
      st'.committed = st.committed ∧ st'.pending = none ∧
      st'.trace.count walletUpdates = st.trace.count walletUpdates + (11 - retryCount) ∧
      st'.trace.count walletScan = st.trace.count walletScan + (11 - retryCount) := by
  obtain ⟨c1, c2, c3, c4, c5, c6⟩ := count_calls
  intro fuel
  induction fuel with
  | zero => intro rc st h1 h2; omega
  | succ fuel ih =>
    intro rc st h1 h2 hp
    simp only [WalletImpl.Transaction.loop]
    by_cases hrc : rc > 10
    · rw [if_pos hrc, WalletImpl.Transaction.fail_eq]
      exact ⟨_, rfl, rfl, rfl, by simp [c2]; omega, by simp [c5]; omega⟩
    · rw [if_neg hrc,
        walletDao_Get_ok env gorm.DB.began req.WalletID st t (by simp [gorm.view, hp])
          (hread _)]
      simp only [hw, Option.getD_some]
      rw [if_neg (not_lt.mpr hab),
        walletDao_Modify_fault env gorm.DB.began w _ _ t StoreFault.ErrRecordNotFound
          (by simp [gorm.view, hp]) (hcas _)]
      simp only []
      obtain ⟨st', h3, h4, h5, h6, h7⟩ := ih (rc + 1)
        { st with trace := walletUpdates :: walletScan :: st.trace } (by omega) (by omega) hp
      refine ⟨st', h3, h4, h5, ?_, ?_⟩
      · rw [h6]; simp only [c3, c1]; omega
      · rw [h7]; simp only [c6, c4]; omega

theorem transactionRecordDao_New_pool (env : Env) (model : dbModels.TransactionRecordModel)
    (st : Database) :
    (transactionRecordDao.New env gorm.DB.pool model st).2.trace = recordCreate :: st.trace ∧
    (transactionRecordDao.New env gorm.DB.pool model st).2.committed.wallet =
      st.committed.wallet := by
  simp only [transactionRecordDao.New]
  rcases hf : env.fault recordCreate st.trace.length with _ | e
  · rw [gorm.Create_ok env gorm.DB.pool transactionRecordTable _ _ model st st.committed
      (by simp [gorm.view]) hf]
    simp [gorm.flush, transactionRecordTable, recordCreate]
  · rw [gorm.Create_fault env gorm.DB.pool transactionRecordTable _ _ model st st.committed e
      (by simp [gorm.view]) hf]
    simp [transactionRecordTable, recordCreate]

theorem count_calls_record :
    (∀ l : List Call, (recordCreate :: l).count walletUpdates = l.count walletUpdates) ∧
    (∀ l : List Call, (recordScan :: l).count walletUpdates = l.count walletUpdates) ∧
    (∀ l : List Call, (recordCreate :: l).count walletScan = l.count walletScan) ∧
    (∀ l : List Call, (recordScan :: l).count walletScan = l.count walletScan) := by
  refine ⟨?_, ?_, ?_, ?_⟩ <;> intro l <;>
    simp [List.count_cons, walletScan, walletUpdates, recordCreate, recordScan]

/-- For every behaviour of the store, `Transaction` returns, having made at most eleven
conditional updates of `wallet` and at most twelve reads of it (one up front, one for each
attempt). -/
theorem WalletImpl.Transaction_frame (env : Env) (req : TransactionReq) (st : Database) :
    ∃ out st', WalletImpl.Transaction env req st = some (out, st') ∧
      st'.trace.count walletUpdates ≤ st.trace.count walletUpdates + 11 ∧
      st'.trace.count walletScan ≤ st.trace.count walletScan + 12 := by
  obtain ⟨c1, c2, c3, c4, c5, c6⟩ := count_calls
  obtain ⟨d1, d2, d3, d4⟩ := count_calls_record
  unfold WalletImpl.Transaction
  rcases hparse : env.NewFromString req.Amount with _ | a
  · exact ⟨_, _, rfl, by omega, by omega⟩
  · simp only []
    have hs := walletDao_Get_snd env gorm.DB.pool ⟨[req.WalletID], [], none, none⟩ st
    rcases hget : walletDao.Get env gorm.DB.pool ⟨[req.WalletID], [], none, none⟩ st with
      ⟨r, st1⟩
    rw [hget] at hs
    simp only at hs
    subst hs
    rcases r with e | _ | w
    · exact ⟨_, _, rfl, by simp [c1], by simp [c4]⟩
    · exact ⟨_, _, rfl, by simp [c1], by simp [c4]⟩
    · simp only []
      have hn := transactionRecordDao_New_pool env
        (WalletImpl.Transaction.pendingRecord req a w)
        { st with trace := walletScan :: st.trace }
      rcases hnew : transactionRecordDao.New env gorm.DB.pool
        (WalletImpl.Transaction.pendingRecord req a w)
        { st with trace := walletScan :: st.trace } with ⟨r2, st2⟩
      rw [hnew] at hn
      simp only at hn
      obtain ⟨hn1, -⟩ := hn
      rcases r2 with e | transactionRecord
      · exact ⟨_, _, rfl, by simp only [hn1, d1, c1]; omega, by simp only [hn1, d3, c4]; omega⟩
      · simp only [gorm.Begin]
        obtain ⟨exit, st3, h3, -, -, h6, h7, -⟩ :=
          WalletImpl.Transaction.loop_frame env req a transactionRecord 12 0
            { st2 with pending := some st2.committed } (by omega) (by omega)
        rw [h3]
        simp only [hn1, d1, c1, d3, c4] at h6 h7
        rcases exit with e | ⟨b, c⟩
        · exact ⟨_, _, rfl, by omega, by omega⟩
        · simp only []
          have hm := transactionRecordDao_Modify_began env transactionRecord
            ⟨some (some b), some (some c), some dbModels.TransactionStatus_Success, none, none,
              none, none⟩ st3
          rcases hmod : transactionRecordDao.Modify env gorm.DB.began transactionRecord
            ⟨some (some b), some (some c), some dbModels.TransactionStatus_Success, none, none,
              none, none⟩ st3 with ⟨err, st4⟩
          rw [hmod] at hm
          simp only at hm
          obtain ⟨-, -, hm3⟩ := hm
          rcases err with _ | e
          · simp only []
            have hg := transactionRecordDao_Get_snd env gorm.DB.pool
              (transactionRecordDao.QueryModel.byID transactionRecord.ID)
              (gorm.Commit gorm.DB.began st4).2
            rcases hget2 : transactionRecordDao.Get env gorm.DB.pool
              (transactionRecordDao.QueryModel.byID transactionRecord.ID)
              (gorm.Commit gorm.DB.began st4).2 with ⟨r5, st5⟩
            rw [hget2] at hg
            simp only at hg
            have htr : (gorm.Commit gorm.DB.began st4).2.trace = st4.trace := by
              unfold gorm.Commit
              split <;> rfl
            have h5 : st5.trace = recordScan :: recordUpdates :: st3.trace := by
              rw [hg]; simp only [htr, hm3]
            rcases r5 with e | _ | stored
            · exact ⟨_, _, rfl, by simp only [h5, d2, c2]; omega,
                by simp only [h5, d4, c5]; omega⟩
            · exact ⟨_, _, rfl, by simp only [h5, d2, c2]; omega,
                by simp only [h5, d4, c5]; omega⟩
            · exact ⟨_, _, rfl, by simp only [h5, d2, c2]; omega,
                by simp only [h5, d4, c5]; omega⟩
          · refine ⟨_, _, rfl, ?_, ?_⟩
            · simp only [gorm.Rollback, hm3, c2]; omega
            · simp only [gorm.Rollback, hm3, c5]; omega

/-- `Transaction` on a store whose conditional updates all answer `ErrRecordNotFound` while
the reads of the wallet and the append of the journal row succeed. -/
theorem WalletImpl.Transaction_eval_conflicts (env : Env) (req : TransactionReq)
    (st : Database) (w : dbModels.WalletModel) (a : Decimal)
    (hparse : env.NewFromString req.Amount = some a)
    (hw : st.committed.walletByID req.WalletID = some w)
    (hab : 0 ≤ w.Amount + a)
    (hread : ∀ n, env.fault walletScan n = none)
    (hnew : ∀ n, env.fault recordCreate n = none)
    (hcas : ∀ n, env.fault walletUpdates n = some StoreFault.ErrRecordNotFound) :
    ∃ st', WalletImpl.Transaction env req st =
        some (Outcome.err Error.ErrUpdateWalletInterrupted, st') ∧
      st'.committed.wallet = st.committed.wallet ∧ st'.pending = none ∧
      st'.trace.count walletUpdates = st.trace.count walletUpdates + 11 ∧
      st'.trace.count walletScan = st.trace.count walletScan + 12 := by
  obtain ⟨c1, c2, c3, c4, c5, c6⟩ := count_calls
  obtain ⟨d1, d2, d3, d4⟩ := count_calls_record
  simp only [WalletImpl.Transaction, hparse]
  rw [walletDao_Get_ok env gorm.DB.pool req.WalletID st st.committed (by simp [gorm.view])
    (hread _)]
  simp only [hw, Option.getD_some]
  rw [transactionRecordDao_New_ok env gorm.DB.pool _ _ st.committed (by simp [gorm.view])
    (hnew _) rfl rfl rfl]
  simp only [gorm.Begin, gorm.flush]
  obtain ⟨st', h3, h4, h5, h6, h7⟩ :=
    WalletImpl.Transaction.loop_conflicts env req a
      (transactionRecordDao.created (WalletImpl.Transaction.pendingRecord req a w) st.now
        st.committed.transaction_record)
      { st.committed with transaction_record := st.committed.transaction_record ++
          [transactionRecordDao.created (WalletImpl.Transaction.pendingRecord req a w) st.now
            st.committed.transaction_record] }
      w (by simpa [Tables.walletByID] using hw) hab hread hcas 12 0
      { committed := { st.committed with transaction_record :=
            st.committed.transaction_record ++
            [transactionRecordDao.created (WalletImpl.Transaction.pendingRecord req a w) st.now
              st.committed.transaction_record] },
        pending := some { st.committed with transaction_record :=
            st.committed.transaction_record ++
            [transactionRecordDao.created (WalletImpl.Transaction.pendingRecord req a w) st.now
              st.committed.transaction_record] },
        now := st.now,
        trace := recordCreate :: walletScan :: st.trace } (by omega) (by omega) rfl
  rw [h3]
  refine ⟨st', rfl, by rw [h4], h5, ?_, ?_⟩
  · rw [h6]; simp only [d1, c1]
  · rw [h7]; simp only [d3, c4]

/-- While the wallet in the open transaction holds an amount `b` with `0 ≤ b + a` and the
reads succeed, the loop of `Transaction` never leaves with `ErrInsufficientBalance`. -/
theorem WalletImpl.Transaction.loop_sufficient (env : Env) (req : TransactionReq) (a : Decimal)
    (transactionRecord : dbModels.TransactionRecordModel) (t : Tables)
    (w : dbModels.WalletModel) (hw : t.walletByID req.WalletID = some w)
    (hab : 0 ≤ w.Amount + a) (hread : ∀ n, env.fault walletScan n = none) :
    ∀ (fuel retryCount : Nat) (st : Database), st.pending = some t →
    ∀ exit st', WalletImpl.Transaction.loop env req a transactionRecord gorm.DB.began fuel
        retryCount st = some (exit, st') →
      exit ≠ WalletImpl.LoopExit.returned Error.ErrInsufficientBalance := by
  intro fuel
  induction fuel with
  | zero => intro rc st _ exit st' h; simp [WalletImpl.Transaction.loop] at h
  | succ fuel ih =>
    intro rc st hp exit st' h
    simp only [WalletImpl.Transaction.loop] at h
    by_cases hrc : rc > 10
    · rw [if_pos hrc] at h
      simp only [Option.some.injEq, Prod.mk.injEq] at h
      rw [← h.1]; simp
    · rw [if_neg hrc,
        walletDao_Get_ok env gorm.DB.began req.WalletID st t (by simp [gorm.view, hp])
          (hread _)] at h
      simp only [hw, Option.getD_some] at h
      rw [if_neg (not_lt.mpr hab)] at h
      have hm := walletDao_Modify_began env w ⟨w.Amount + a⟩
        { st with trace := walletScan :: st.trace }
      rcases hmod : walletDao.Modify env gorm.DB.began w ⟨w.Amount + a⟩
        { st with trace := walletScan :: st.trace } with ⟨err, st2⟩
      rw [hmod] at hm h
      simp only at hm
      obtain ⟨-, -, -, -, hm5⟩ := hm
      rcases err with _ | e
      · simp only [Option.some.injEq, Prod.mk.injEq] at h
        rw [← h.1]; simp
      · cases e with
        | ErrRecordNotFound =>
          simp only [] at h
          exact ih (rc + 1) st2 (by rw [hm5 (by simp)]; exact hp) exit st' h
        | ErrTxDone =>
          simp only [Option.some.injEq, Prod.mk.injEq] at h
          rw [← h.1]; simp
        | other code =>
          simp only [Option.some.injEq, Prod.mk.injEq] at h
          rw [← h.1]; simp

/-- `Transaction` when the balance would become negative: it returns after the first read
inside the transaction, with the transaction still open and the journal row still Pending. -/
theorem WalletImpl.Transaction_eval_insufficient (env : Env) (req : TransactionReq)
    (st : Database) (w : dbModels.WalletModel) (a : Decimal)
    (hparse : env.NewFromString req.Amount = some a)
    (hw : st.committed.walletByID req.WalletID = some w)
    (hread : ∀ n, env.fault walletScan n = none)
    (hnew : ∀ n, env.fault recordCreate n = none)
    (hab : w.Amount + a < 0) :
    WalletImpl.Transaction env req st =
      some (Outcome.err Error.ErrInsufficientBalance,
        { committed := { st.committed with transaction_record :=
              st.committed.transaction_record ++
              [transactionRecordDao.created (WalletImpl.Transaction.pendingRecord req a w)
                st.now st.committed.transaction_record] },
          pending := some { st.committed with transaction_record :=
              st.committed.transaction_record ++
              [transactionRecordDao.created (WalletImpl.Transaction.pendingRecord req a w)
                st.now st.committed.transaction_record] },
          now := st.now,
          trace := walletScan :: recordCreate :: walletScan :: st.trace }) := by
  simp only [WalletImpl.Transaction, hparse]
  rw [walletDao_Get_ok env gorm.DB.pool req.WalletID st st.committed (by simp [gorm.view])
    (hread _)]
  simp only [hw, Option.getD_some]
  rw [transactionRecordDao_New_ok env gorm.DB.pool _ _ st.committed (by simp [gorm.view])
    (hnew _) rfl rfl rfl]
  simp only [gorm.Begin, gorm.flush, WalletImpl.Transaction.loop]
  rw [if_neg (by omega), walletDao_Get_ok env gorm.DB.began req.WalletID _
    { st.committed with transaction_record := st.committed.transaction_record ++
        [transactionRecordDao.created (WalletImpl.Transaction.pendingRecord req a w)
          st.now st.committed.transaction_record] } (by simp [gorm.view]) (hread _)]
  have hw2 : Tables.walletByID { st.committed with transaction_record :=
      st.committed.transaction_record ++
        [transactionRecordDao.created (WalletImpl.Transaction.pendingRecord req a w)
          st.now st.committed.transaction_record] } req.WalletID = some w := by
    simpa [Tables.walletByID] using hw
  simp only [hw2, Option.getD_some]
  rw [if_pos hab]

/-- `Transaction` does not answer `ErrInsufficientBalance` when the wallet holds `b` with
`0 ≤ b + a` and its reads succeed. -/
theorem WalletImpl.Transaction_sufficient (env : Env) (req : TransactionReq)
    (st : Database) (w : dbModels.WalletModel) (a : Decimal)
    (hparse : env.NewFromString req.Amount = some a)
    (hw : st.committed.walletByID req.WalletID = some w)
    (hread : ∀ n, env.fault walletScan n = none)
    (hnew : ∀ n, env.fault recordCreate n = none)
    (hab : 0 ≤ w.Amount + a) :
    (WalletImpl.Transaction env req st).map Prod.fst ≠
      some (Outcome.err Error.ErrInsufficientBalance) := by
  simp only [WalletImpl.Transaction, hparse]
  rw [walletDao_Get_ok env gorm.DB.pool req.WalletID st st.committed (by simp [gorm.view])
    (hread _)]
  simp only [hw, Option.getD_some]
  rw [transactionRecordDao_New_ok env gorm.DB.pool _ _ st.committed (by simp [gorm.view])
    (hnew _) rfl rfl rfl]
  simp only [gorm.Begin, gorm.flush]
  rcases hloop : WalletImpl.Transaction.loop env req a
      (transactionRecordDao.created (WalletImpl.Transaction.pendingRecord req a w) st.now
        st.committed.transaction_record) gorm.DB.began 12 0
      { committed := { st.committed with transaction_record :=
            st.committed.transaction_record ++
            [transactionRecordDao.created (WalletImpl.Transaction.pendingRecord req a w) st.now
              st.committed.transaction_record] },
        pending := some { st.committed with transaction_record :=
            st.committed.transaction_record ++
            [transactionRecordDao.created (WalletImpl.Transaction.pendingRecord req a w) st.now
              st.committed.transaction_record] },
        now := st.now,
        trace := recordCreate :: walletScan :: st.trace } with _ | ⟨exit, st3⟩
  · simp
  · have hne := WalletImpl.Transaction.loop_sufficient env req a _
      { st.committed with transaction_record := st.committed.transaction_record ++
          [transactionRecordDao.created (WalletImpl.Transaction.pendingRecord req a w) st.now
            st.committed.transaction_record] }
      w (by simpa [Tables.walletByID] using hw) hab hread 12 0 _ rfl exit st3 hloop
    rcases exit with e | ⟨b, c⟩
    · simp only [Option.map_some', ne_eq, Option.some.injEq, Outcome.err.injEq]
      intro h
      exact hne (by rw [h])
    · simp only []
      split
      · simp
      · split <;> simp

/-- `RollbackTransaction` when the read of the journal row succeeds and the record it yields
(the row with the id, or the zero-valued record when there is none) is not in status Success:
`ErrTransactionNotSuccess`, and nothing but the call log has changed. -/
theorem WalletImpl.RollbackTransaction_eval_rejected (env : Env)
    (req : RollbackTransactionReq) (st : Database)
    (hread : env.fault recordScan st.trace.length = none)
    (hstatus : ((st.committed.recordByID req.Id).getD default).Status ≠
      dbModels.TransactionStatus_Success) :
    WalletImpl.RollbackTransaction env req st =
      some (Outcome.err Error.ErrTransactionNotSuccess,
        { st with trace := recordScan :: st.trace }) := by
  simp only [WalletImpl.RollbackTransaction]
  rw [transactionRecordDao_Get_ok env gorm.DB.pool req.Id st st.committed
    (by simp [gorm.view]) hread]
  simp only []
  rw [if_pos hstatus]

/-- `RollbackTransaction` when the read of the journal row answers `ErrRecordNotFound`:
`ErrNoSuchTransactionRecord`, and nothing but the call log has changed. -/
theorem WalletImpl.RollbackTransaction_eval_not_found (env : Env)
    (req : RollbackTransactionReq) (st : Database)
    (hread : env.fault recordScan st.trace.length = some StoreFault.ErrRecordNotFound) :
    WalletImpl.RollbackTransaction env req st =
      some (Outcome.err Error.ErrNoSuchTransactionRecord,
        { st with trace := recordScan :: st.trace }) := by
  simp only [WalletImpl.RollbackTransaction]
  rw [transactionRecordDao_Get_fault env gorm.DB.pool _ st st.committed
    StoreFault.ErrRecordNotFound (by simp [gorm.view]) hread]
  simp

theorem walletDao_modified_none (model : dbModels.WalletModel) (amount : Decimal)
    (now : Time) (l : List dbModels.WalletModel)
    (h : l.find? (fun r => decide (r.ID = model.ID)) = none) :
    walletDao.modified model amount now l = l := by
  simp only [List.find?_eq_none, decide_eq_true_eq] at h
  simp only [walletDao.modified]
  conv_rhs => rw [← List.map_id l]
  apply List.map_congr_left
  intro r hr
  simp [h r hr]

/-! ## The claims -/

/-- C1. For a live wallet whose stored amount is `b` and a request amount `a` with
`0 ≤ b + a`, when no store call fails or conflicts, `Transaction` returns status Success with
`BeforeAmount = b` and `AfterAmount = b + a`, the wallet's stored amount becomes `b + a`, and
the journal row it appended is stamped Success with `before_amount = b` and
`after_amount = b + a` (so `after_amount = before_amount + amount`). -/
theorem C1_transaction_success (env : Env) (req : TransactionReq) (st : Database)
    (w : dbModels.WalletModel) (a : Decimal)
    (hparse : env.NewFromString req.Amount = some a)
    (hfault : ∀ c n, env.fault c n = none)
    (hw : st.committed.walletByID req.WalletID = some w)
    (hlive : w.DeletedAt = none)
    (hab : 0 ≤ w.Amount + a) :
    ∃ res st', WalletImpl.Transaction env req st = some (Outcome.ok res, st') ∧
      res.Status = dbModels.TransactionStatus_Success ∧
      res.BeforeAmount = env.DecimalString w.Amount ∧
      res.AfterAmount = env.DecimalString (w.Amount + a) ∧
      (st'.committed.walletByID req.WalletID).map (fun x => x.Amount) = some (w.Amount + a) ∧
      ∃ row, st'.committed.transaction_record = st.committed.transaction_record ++ [row] ∧
        row.ID = res.Id ∧ row.WalletID = req.WalletID ∧ row.Amount = a ∧
        row.Status = dbModels.TransactionStatus_Success ∧
        row.BeforeAmount = some w.Amount ∧ row.AfterAmount = some (w.Amount + a) := by
  refine ⟨_, _, WalletImpl.Transaction_eval_success env req st w a hparse hfault
    (by rw [hw]; rfl) hab, rfl, rfl, rfl, ?_, _, rfl, rfl, rfl, rfl, rfl, rfl, rfl⟩
  have := walletDao_find_modified req.WalletID w (w.Amount + a) st.now st.committed.wallet hw
    hlive
  simp only [Tables.walletByID, this, Option.map_some']

/-- C1, at the deposit of 25 into the wallet that holds 50. -/
theorem C1_transaction_success_witness :
    ∃ res st', WalletImpl.Transaction Scenario.env Scenario.deposit Scenario.st =
        some (Outcome.ok res, st') ∧
      res.Status = dbModels.TransactionStatus_Success ∧
      res.BeforeAmount = "50" ∧ res.AfterAmount = "75" ∧
      (st'.committed.walletByID 1).map (fun x => x.Amount) = some 75 ∧
      ∃ row, st'.committed.transaction_record = [row] ∧
        row.ID = res.Id ∧ row.WalletID = 1 ∧ row.Amount = 25 ∧
        row.Status = dbModels.TransactionStatus_Success ∧
        row.BeforeAmount = some 50 ∧ row.AfterAmount = some 75 :=
  C1_transaction_success Scenario.env Scenario.deposit Scenario.st Scenario.wallet 25
    (by decide) (fun _ _ => rfl) (by decide) (by decide) (by decide)

/-- C2 (what the code does). `walletDao.Modify` returns the `.Error` of `Updates` and never
looks at `RowsAffected`: when the store runs the UPDATE and no live row has both the id and
the amount the caller observed, zero rows are affected, the tables are left as they were,
and `Modify` still returns nil, the answer it gives when the row was updated; no conflict is
reported for the callers to retry on. -/
theorem C2_modify_reports_no_conflict (env : Env) (db : gorm.DB)
    (model : dbModels.WalletModel) (update : walletDao.UpdateModel) (st : Database)
    (t : Tables) (hv : gorm.view db st = some t)
    (hf : env.fault walletUpdates st.trace.length = none)
    (hstale : ∀ w ∈ t.wallet,
      ¬ (w.ID = model.ID ∧ w.Amount = model.Amount ∧ w.DeletedAt = none)) :
    (walletDao.modifyUpdates env db model update st).1.RowsAffected = 0 ∧
    (walletDao.modifyUpdates env db model update st).1.Error = none ∧
    (walletDao.Modify env db model update st).1 = none ∧
    gorm.view db (walletDao.Modify env db model update st).2 = some t := by
  have hrows : walletDao.modified model update.Amount st.now t.wallet = t.wallet := by
    simp only [walletDao.modified]
    conv_rhs => rw [← List.map_id t.wallet]
    apply List.map_congr_left
    intro r hr
    simp [hstale r hr]
  have hs := gorm.Updates_ok env db walletTable (walletDao.modifyStatement model)
    (fun now w => { w with Amount := update.Amount, UpdatedAt := some now }) st t hv hf
  refine ⟨?_, ?_, ?_, ?_⟩
  · simp only [walletDao.modifyUpdates, hs, List.length_eq_zero, List.filter_eq_nil_iff]
    intro w hw
    have := hstale w hw
    simpa [walletTable, walletDao.modifyStatement, gorm.Statement.table, and_assoc] using this
  · simp only [walletDao.modifyUpdates, hs]
  · rw [walletDao_Modify_ok env db model update st t hv hf]
  · rw [walletDao_Modify_ok env db model update st t hv hf, hrows]
    cases db <;> simp [gorm.flush, gorm.view]

/-- C2, at wallet 1 holding 50 while the caller observed 40. -/
theorem C2_modify_reports_no_conflict_witness :
    (walletDao.modifyUpdates Scenario.env gorm.DB.pool Scenario.staleWallet ⟨65⟩
        Scenario.st).1.RowsAffected = 0 ∧
    (walletDao.modifyUpdates Scenario.env gorm.DB.pool Scenario.staleWallet ⟨65⟩
        Scenario.st).1.Error = none ∧
    (walletDao.Modify Scenario.env gorm.DB.pool Scenario.staleWallet ⟨65⟩ Scenario.st).1 = none ∧
    gorm.view gorm.DB.pool
        (walletDao.Modify Scenario.env gorm.DB.pool Scenario.staleWallet ⟨65⟩ Scenario.st).2 =
      some ⟨[Scenario.wallet], []⟩ :=
  C2_modify_reports_no_conflict Scenario.env gorm.DB.pool Scenario.staleWallet ⟨65⟩ Scenario.st
    ⟨[Scenario.wallet], []⟩ rfl rfl (by decide)

/-- C3 (as stated, refuted). On a store that answers every conditional update with
`ErrRecordNotFound`, the deposit makes eleven attempts, not ten, before it returns
`ErrUpdateWalletInterrupted`: eleven conditional updates, each after its own read (the
twelfth read is the one before the loop). -/
theorem C3_eleven_attempts_not_ten :
    (WalletImpl.Transaction Scenario.conflictEnv Scenario.deposit Scenario.st).map
        (fun r => (r.1, r.2.trace.count walletUpdates, r.2.trace.count walletScan,
          decide (r.2.trace.count walletUpdates ≤ 10))) =
      some (Outcome.err Error.ErrUpdateWalletInterrupted, 11, 12, false) := by
  decide

/-- C3 (amended). For every sequence of store responses, one `Transaction` request returns
after at most 11 attempts (at most 11 conditional updates, at most 11 reads inside the loop
beside the read up front); when every attempt ends in a CAS conflict signalled by the store,
exactly 11 attempts are made before `ErrUpdateWalletInterrupted` is returned. -/
theorem C3_at_most_eleven_attempts (env : Env) (req : TransactionReq) (st : Database) :
    (∃ out st', WalletImpl.Transaction env req st = some (out, st') ∧
      st'.trace.count walletUpdates ≤ st.trace.count walletUpdates + 11 ∧
      st'.trace.count walletScan ≤ st.trace.count walletScan + 1 + 11) ∧
    (∀ (w : dbModels.WalletModel) (a : Decimal),
      env.NewFromString req.Amount = some a →
      st.committed.walletByID req.WalletID = some w →
      0 ≤ w.Amount + a →
      (∀ n, env.fault walletScan n = none) →
      (∀ n, env.fault recordCreate n = none) →
      (∀ n, env.fault walletUpdates n = some StoreFault.ErrRecordNotFound) →
      ∃ st', WalletImpl.Transaction env req st =
          some (Outcome.err Error.ErrUpdateWalletInterrupted, st') ∧
        st'.trace.count walletUpdates = st.trace.count walletUpdates + 11 ∧
        st'.trace.count walletScan = st.trace.count walletScan + 1 + 11) := by
  refine ⟨WalletImpl.Transaction_frame env req st, ?_⟩
  intro w a hparse hw hab hread hnew hcas
  obtain ⟨st', h1, -, -, h4, h5⟩ :=
    WalletImpl.Transaction_eval_conflicts env req st w a hparse hw hab hread hnew hcas
  exact ⟨st', h1, h4, h5⟩

/-- C3 (amended), at the deposit into a wallet whose every update conflicts. -/
theorem C3_at_most_eleven_attempts_witness :
    ∃ st', WalletImpl.Transaction Scenario.conflictEnv Scenario.deposit Scenario.st =
        some (Outcome.err Error.ErrUpdateWalletInterrupted, st') ∧
      st'.trace.count walletUpdates = 11 ∧ st'.trace.count walletScan = 12 :=
  (C3_at_most_eleven_attempts Scenario.conflictEnv Scenario.deposit Scenario.st).2
    Scenario.wallet 25 (by decide) (by decide) (by decide) (fun _ => rfl) (fun _ => rfl)
    (fun _ => rfl)

/-- C4. For every wallet and every request amount whose result would be non-negative, if
every conditional update of a `Transaction` is answered with a CAS conflict (the reads of the
wallet and the append of the journal row succeeding), then `Transaction` returns
`ErrUpdateWalletInterrupted` and the table `wallet`, hence the wallet's stored amount, is the
same as at the start of the request. -/
theorem C4_conflicts_leave_wallet_unchanged (env : Env) (req : TransactionReq) (st : Database)
    (w : dbModels.WalletModel) (a : Decimal)
    (hparse : env.NewFromString req.Amount = some a)
    (hw : st.committed.walletByID req.WalletID = some w)
    (hab : 0 ≤ w.Amount + a)
    (hread : ∀ n, env.fault walletScan n = none)
    (hnew : ∀ n, env.fault recordCreate n = none)
    (hcas : ∀ n, env.fault walletUpdates n = some StoreFault.ErrRecordNotFound) :
    ∃ st', WalletImpl.Transaction env req st =
        some (Outcome.err Error.ErrUpdateWalletInterrupted, st') ∧
      st'.committed.wallet = st.committed.wallet ∧
      (st'.committed.walletByID req.WalletID).map (fun x => x.Amount) = some w.Amount ∧
      st'.pending = none := by
  obtain ⟨st', h1, h2, h3, -, -⟩ :=
    WalletImpl.Transaction_eval_conflicts env req st w a hparse hw hab hread hnew hcas
  refine ⟨st', h1, h2, ?_, h3⟩
  have h : st'.committed.walletByID req.WalletID = some w := by
    simpa only [Tables.walletByID, h2] using hw
  rw [h]; rfl

/-- C4, at the deposit into a wallet whose every update conflicts. -/
theorem C4_conflicts_leave_wallet_unchanged_witness :
    ∃ st', WalletImpl.Transaction Scenario.conflictEnv Scenario.deposit Scenario.st =
        some (Outcome.err Error.ErrUpdateWalletInterrupted, st') ∧
      st'.committed.wallet = [Scenario.wallet] ∧
      (st'.committed.walletByID 1).map (fun x => x.Amount) = some 50 ∧
      st'.pending = none :=
  C4_conflicts_leave_wallet_unchanged Scenario.conflictEnv Scenario.deposit Scenario.st
    Scenario.wallet 25 (by decide) (by decide) (by decide) (fun _ => rfl) (fun _ => rfl)
    (fun _ => rfl)

/-- C5. For every wallet with stored amount `b` and every request amount `a`, when the reads
of the wallet (and the append of the journal row) succeed, `Transaction` returns
`ErrInsufficientBalance` if and only if `b + a < 0`; in that case the store has been called
three times only (the read up front, the append, the read of the first attempt), so the
conditional update is not called and the attempt is not retried, and the table `wallet`,
hence the wallet's stored amount `b`, is unchanged. -/
theorem C5_insufficient_balance_iff (env : Env) (req : TransactionReq) (st : Database)
    (w : dbModels.WalletModel) (a : Decimal)
    (hparse : env.NewFromString req.Amount = some a)
    (hw : st.committed.walletByID req.WalletID = some w)
    (hread : ∀ n, env.fault walletScan n = none)
    (hnew : ∀ n, env.fault recordCreate n = none) :
    ((WalletImpl.Transaction env req st).map Prod.fst =
        some (Outcome.err Error.ErrInsufficientBalance) ↔ w.Amount + a < 0) ∧
    (w.Amount + a < 0 →
      ∃ st', WalletImpl.Transaction env req st =
          some (Outcome.err Error.ErrInsufficientBalance, st') ∧
        st'.trace = walletScan :: recordCreate :: walletScan :: st.trace ∧
        st'.trace.count walletUpdates = st.trace.count walletUpdates ∧
        st'.committed.wallet = st.committed.wallet ∧
        (st'.committed.walletByID req.WalletID).map (fun x => x.Amount) = some w.Amount) := by
  have hneg : w.Amount + a < 0 →
      ∃ st', WalletImpl.Transaction env req st =
          some (Outcome.err Error.ErrInsufficientBalance, st') ∧
        st'.trace = walletScan :: recordCreate :: walletScan :: st.trace ∧
        st'.trace.count walletUpdates = st.trace.count walletUpdates ∧
        st'.committed.wallet = st.committed.wallet ∧
        (st'.committed.walletByID req.WalletID).map (fun x => x.Amount) = some w.Amount := by
    intro hab
    refine ⟨_, WalletImpl.Transaction_eval_insufficient env req st w a hparse hw hread hnew hab,
      rfl, ?_, rfl, ?_⟩
    · simp [List.count_cons, walletScan, walletUpdates, recordCreate]
    · have h : Tables.walletByID { st.committed with transaction_record :=
          st.committed.transaction_record ++
            [transactionRecordDao.created (WalletImpl.Transaction.pendingRecord req a w)
              st.now st.committed.transaction_record] } req.WalletID = some w := by
        simpa [Tables.walletByID] using hw
      rw [h]; rfl
  refine ⟨⟨?_, ?_⟩, hneg⟩
  · intro h
    by_contra hab
    exact WalletImpl.Transaction_sufficient env req st w a hparse hw hread hnew
      (not_lt.mp hab) h
  · intro hab
    obtain ⟨st', h1, -⟩ := hneg hab
    rw [h1]; rfl

/-- C5, at the withdrawal of 75 from the wallet that holds 50. -/
theorem C5_insufficient_balance_iff_witness :
    ((WalletImpl.Transaction Scenario.env Scenario.withdraw Scenario.st).map Prod.fst =
        some (Outcome.err Error.ErrInsufficientBalance) ↔ (50 : Decimal) + (-75) < 0) ∧
    ((50 : Decimal) + (-75) < 0 →
      ∃ st', WalletImpl.Transaction Scenario.env Scenario.withdraw Scenario.st =
          some (Outcome.err Error.ErrInsufficientBalance, st') ∧
        st'.trace = walletScan :: recordCreate :: walletScan :: [] ∧
        st'.trace.count walletUpdates = 0 ∧
        st'.committed.wallet = [Scenario.wallet] ∧
        (st'.committed.walletByID 1).map (fun x => x.Amount) = some 50) :=
  C5_insufficient_balance_iff Scenario.env Scenario.withdraw Scenario.st Scenario.wallet (-75)
    (by decide) (by decide) (fun _ => rfl) (fun _ => rfl)

/-- C6 (what the code does). Whenever the balance would become negative (`b + a < 0`, the
reads and the append succeeding), `Transaction` returns `ErrInsufficientBalance` straight
from the loop (line 202): the transaction is still open (not rolled back), no update of the
journal has been issued, and the journal row appended for the request still has status
Pending, not Failed. -/
theorem C6_insufficient_balance_skips_failure_path (env : Env) (req : TransactionReq)
    (st : Database) (w : dbModels.WalletModel) (a : Decimal)
    (hparse : env.NewFromString req.Amount = some a)
    (hw : st.committed.walletByID req.WalletID = some w)
    (hread : ∀ n, env.fault walletScan n = none)
    (hnew : ∀ n, env.fault recordCreate n = none)
    (hab : w.Amount + a < 0) :
    ∃ st' row, WalletImpl.Transaction env req st =
        some (Outcome.err Error.ErrInsufficientBalance, st') ∧
      st'.pending ≠ none ∧
      st'.trace = walletScan :: recordCreate :: walletScan :: st.trace ∧
      st'.trace.count recordUpdates = st.trace.count recordUpdates ∧
      st'.committed.transaction_record = st.committed.transaction_record ++ [row] ∧
      row.WalletID = req.WalletID ∧ row.Amount = a ∧
      row.Status = dbModels.TransactionStatus_Pending := by
  refine ⟨_, _, WalletImpl.Transaction_eval_insufficient env req st w a hparse hw hread hnew hab,
    by simp, rfl, ?_, rfl, rfl, rfl, rfl⟩
  simp [List.count_cons, walletScan, recordUpdates, recordCreate]

/-- C6, at the withdrawal of 75 from the wallet that holds 50. -/
theorem C6_insufficient_balance_skips_failure_path_witness :
    ∃ st' row, WalletImpl.Transaction Scenario.env Scenario.withdraw Scenario.st =
        some (Outcome.err Error.ErrInsufficientBalance, st') ∧
      st'.pending ≠ none ∧
      st'.trace = walletScan :: recordCreate :: walletScan :: [] ∧
      st'.trace.count recordUpdates = 0 ∧
      st'.committed.transaction_record = [row] ∧
      row.WalletID = 1 ∧ row.Amount = -75 ∧
      row.Status = dbModels.TransactionStatus_Pending :=
  C6_insufficient_balance_skips_failure_path Scenario.env Scenario.withdraw Scenario.st
    Scenario.wallet (-75) (by decide) (by decide) (fun _ => rfl) (fun _ => rfl) (by decide)

/-- C7 (what the code does). Let `wallet_id` resolve to no wallet row (and, ids being
AUTO_INCREMENT values, let no row have id 0).  When no store call fails, `walletDao.Get`
finds no row, gorm's `Scan` sets no error, and `Get` hands back a zero-valued wallet: for
`0 ≤ a`, `Transaction` appends a journal row for member 0, its conditional update matches no
row yet reports no error, and it stamps the row Success and returns Success with before 0
and after `a`; no wallet row changes.  When instead the read up front answers
`ErrRecordNotFound`, `Get` returns nil and line 123 dereferences it.  In neither case is
`ErrNoSuchWallet` returned. -/
theorem C7_missing_wallet_not_reported (env : Env) (req : TransactionReq) (st : Database)
    (a : Decimal)
    (hparse : env.NewFromString req.Amount = some a)
    (hmissing : st.committed.walletByID req.WalletID = none)
    (hzero : st.committed.walletByID 0 = none) :
    ((∀ c n, env.fault c n = none) → 0 ≤ a →
      ∃ res st' row, WalletImpl.Transaction env req st = some (Outcome.ok res, st') ∧
        res.Status = dbModels.TransactionStatus_Success ∧
        res.BeforeAmount = env.DecimalString 0 ∧ res.AfterAmount = env.DecimalString a ∧
        st'.committed.wallet = st.committed.wallet ∧
        st'.committed.transaction_record = st.committed.transaction_record ++ [row] ∧
        row.ID = res.Id ∧ row.MemberID = 0 ∧ row.WalletID = req.WalletID ∧
        row.Status = dbModels.TransactionStatus_Success ∧
        row.BeforeAmount = some 0 ∧ row.AfterAmount = some a) ∧
    (env.fault walletScan st.trace.length = some StoreFault.ErrRecordNotFound →
      WalletImpl.Transaction env req st =
        some (Outcome.panic, { st with trace := walletScan :: st.trace })) := by
  constructor
  · intro hfault hab
    have h0 : (default : dbModels.WalletModel).Amount + a = a := by
      show (0 : Int) + a = a
      omega
    have heval := WalletImpl.Transaction_eval_success env req st default a hparse hfault
      (by rw [hmissing]; rfl) (by rw [h0]; exact hab)
    rw [h0] at heval
    refine ⟨_, _, _, heval, rfl, rfl, rfl, ?_, rfl, rfl, rfl, rfl, rfl, rfl, ?_⟩
    · exact walletDao_modified_none default a st.now st.committed.wallet hzero
    · show some ((0 : Int) + a) = some a
      rw [Int.zero_add]
  · intro hnf
    simp only [WalletImpl.Transaction, hparse]
    rw [walletDao_Get_fault env gorm.DB.pool _ st st.committed StoreFault.ErrRecordNotFound
      (by simp [gorm.view]) hnf]
    simp

/-- C7, at the deposit of 25 into wallet 2, which does not exist. -/
theorem C7_missing_wallet_not_reported_witness :
    (∃ res st' row, WalletImpl.Transaction Scenario.env Scenario.depositNowhere Scenario.st =
        some (Outcome.ok res, st') ∧
        res.Status = dbModels.TransactionStatus_Success ∧
        res.BeforeAmount = "0" ∧ res.AfterAmount = "25" ∧
        st'.committed.wallet = [Scenario.wallet] ∧
        st'.committed.transaction_record = [row] ∧
        row.ID = res.Id ∧ row.MemberID = 0 ∧ row.WalletID = 2 ∧
        row.Status = dbModels.TransactionStatus_Success ∧
        row.BeforeAmount = some 0 ∧ row.AfterAmount = some 25) ∧
    WalletImpl.Transaction Scenario.notFoundEnv Scenario.depositNowhere Scenario.st =
      some (Outcome.panic, { Scenario.st with trace := [walletScan] }) :=
  ⟨(C7_missing_wallet_not_reported Scenario.env Scenario.depositNowhere Scenario.st 25
      (by decide) (by decide) (by decide)).1 (fun _ _ => rfl) (by decide),
    (C7_missing_wallet_not_reported Scenario.notFoundEnv Scenario.depositNowhere Scenario.st 25
      (by decide) (by decide) (by decide)).2 (by decide)⟩

/-- C8 (as stated, refuted). A deposit of 25 EUR into the USD wallet that holds 50 is not
rejected: it returns Success and the wallet's stored amount becomes 75. -/
theorem C8_currency_mismatch_accepted :
    Scenario.depositEUR.Currency ≠ Scenario.wallet.Currency ∧
    (WalletImpl.Transaction Scenario.env Scenario.depositEUR Scenario.st).map
        (fun r => (r.1, r.2.committed.wallet.map (fun x => (x.Currency, x.Amount)))) =
      some (Outcome.ok ⟨1, "50", "75", "EUR", dbModels.TransactionStatus_Success, 1700000000,
          1700000000⟩, [("USD", 75)]) := by
  decide

/-- C8 (amended). `Transaction` does not compare the request's currency with the wallet's:
for a request whose currency differs from the currency of the live wallet it names, when no
store call fails and `0 ≤ b + a`, it returns Success carrying the request's currency, the
journal row it appended carries the request's currency, and the wallet's stored amount
becomes `b + a`. -/
theorem C8_currency_not_compared (env : Env) (req : TransactionReq) (st : Database)
    (w : dbModels.WalletModel) (a : Decimal)
    (hparse : env.NewFromString req.Amount = some a)
    (hfault : ∀ c n, env.fault c n = none)
    (hw : st.committed.walletByID req.WalletID = some w)
    (hlive : w.DeletedAt = none)
    (_hcur : req.Currency ≠ w.Currency)
    (hab : 0 ≤ w.Amount + a) :
    ∃ res st', WalletImpl.Transaction env req st = some (Outcome.ok res, st') ∧
      res.Status = dbModels.TransactionStatus_Success ∧
      res.Currency = req.Currency ∧
      (st'.committed.walletByID req.WalletID).map (fun x => (x.Currency, x.Amount)) =
        some (w.Currency, w.Amount + a) ∧
      ∃ row, st'.committed.transaction_record = st.committed.transaction_record ++ [row] ∧
        row.ID = res.Id ∧ row.Currency = req.Currency ∧
        row.Status = dbModels.TransactionStatus_Success := by
  refine ⟨_, _, WalletImpl.Transaction_eval_success env req st w a hparse hfault
    (by rw [hw]; rfl) hab, rfl, rfl, ?_, _, rfl, rfl, rfl, rfl⟩
  have := walletDao_find_modified req.WalletID w (w.Amount + a) st.now st.committed.wallet hw
    hlive
  simp only [Tables.walletByID, this, Option.map_some']

/-- C8 (amended), at the deposit of 25 EUR into the USD wallet. -/
theorem C8_currency_not_compared_witness :
    ∃ res st', WalletImpl.Transaction Scenario.env Scenario.depositEUR Scenario.st =
        some (Outcome.ok res, st') ∧
      res.Status = dbModels.TransactionStatus_Success ∧
      res.Currency = "EUR" ∧
      (st'.committed.walletByID 1).map (fun x => (x.Currency, x.Amount)) = some ("USD", 75) ∧
      ∃ row, st'.committed.transaction_record = [row] ∧
        row.ID = res.Id ∧ row.Currency = "EUR" ∧
        row.Status = dbModels.TransactionStatus_Success :=
  C8_currency_not_compared Scenario.env Scenario.depositEUR Scenario.st Scenario.wallet 25
    (by decide) (fun _ _ => rfl) (by decide) (by decide) (by decide) (by decide)

/-- C9 (as stated, refuted). For the amount string "1O0", which is no decimal, `Transaction`
returns the parse error and the journal, empty before, is still empty: it holds no row for
the request, Failed or otherwise. -/
theorem C9_unparsed_amount_leaves_no_row :
    Scenario.env.NewFromString Scenario.depositGarbage.Amount = none ∧
    (WalletImpl.Transaction Scenario.env Scenario.depositGarbage Scenario.st).map
        (fun r => (r.1, r.2.committed.transaction_record)) =
      some (Outcome.err (Error.decimalSyntax "1O0"), []) := by
  decide

/-- C9 (amended). For every request whose amount string does not parse as a decimal,
`Transaction` returns the parse error before it touches the store: no store call is made, no
wallet row changes and no journal row is appended. -/
theorem C9_unparsed_amount_rejected_up_front (env : Env) (req : TransactionReq)
    (st : Database) (hparse : env.NewFromString req.Amount = none) :
    WalletImpl.Transaction env req st =
      some (Outcome.err (Error.decimalSyntax req.Amount), st) := by
  simp only [WalletImpl.Transaction, hparse]

/-- C9 (amended), at the amount string "1O0". -/
theorem C9_unparsed_amount_rejected_up_front_witness :
    WalletImpl.Transaction Scenario.env Scenario.depositGarbage Scenario.st =
      some (Outcome.err (Error.decimalSyntax "1O0"), Scenario.st) :=
  C9_unparsed_amount_rejected_up_front Scenario.env Scenario.depositGarbage Scenario.st
    (by decide)

/-- C10 (what the code does). When the read of the journal succeeds: if no journal row has
the given id, `transactionRecordDao.Get` hands back a zero-valued record (gorm's `Scan` sets
no error when it finds no row), whose status is not Success, and `RollbackTransaction`
returns `ErrTransactionNotSuccess`, not `ErrNoSuchTransactionRecord`; if the row exists with
a status other than Success it returns `ErrTransactionNotSuccess` as well.  In both cases
nothing but the call log changes: no wallet row and no journal row is written. -/
theorem C10_missing_record_reported_as_not_success (env : Env) (req : RollbackTransactionReq)
    (st : Database) (hread : env.fault recordScan st.trace.length = none) :
    (st.committed.recordByID req.Id = none →
      WalletImpl.RollbackTransaction env req st =
        some (Outcome.err Error.ErrTransactionNotSuccess,
          { st with trace := recordScan :: st.trace })) ∧
    (∀ r, st.committed.recordByID req.Id = some r →
      r.Status ≠ dbModels.TransactionStatus_Success →
      WalletImpl.RollbackTransaction env req st =
        some (Outcome.err Error.ErrTransactionNotSuccess,
          { st with trace := recordScan :: st.trace })) := by
  constructor
  · intro h
    exact WalletImpl.RollbackTransaction_eval_rejected env req st hread
      (by rw [h]; decide)
  · intro r h hs
    exact WalletImpl.RollbackTransaction_eval_rejected env req st hread
      (by rw [h]; exact hs)

/-- C10, at id 5 on a journal that has no row, and at the Failed row 1. -/
theorem C10_missing_record_reported_as_not_success_witness :
    Scenario.st.committed.recordByID 5 = none ∧
    WalletImpl.RollbackTransaction Scenario.env ⟨5, 3, none⟩ Scenario.st =
      some (Outcome.err Error.ErrTransactionNotSuccess,
        { Scenario.st with trace := [recordScan] }) ∧
    WalletImpl.RollbackTransaction Scenario.env ⟨1, 3, none⟩ Scenario.stFailed =
      some (Outcome.err Error.ErrTransactionNotSuccess,
        { Scenario.stFailed with trace := [recordScan] }) :=
  ⟨by decide,
    (C10_missing_record_reported_as_not_success Scenario.env ⟨5, 3, none⟩ Scenario.st rfl).1
      (by decide),
    (C10_missing_record_reported_as_not_success Scenario.env ⟨1, 3, none⟩ Scenario.stFailed
      rfl).2 Scenario.failedRow (by decide) (by decide)⟩

/-! ## Rollback on a known state -/

theorem WalletImpl.RollbackTransaction_loop_attempt_ok (env : Env)
    (record : dbModels.TransactionRecordModel) (fuel retryCount : Nat)
    (st : Database) (t : Tables) (w : dbModels.WalletModel)
    (hrc : retryCount ≤ 10) (hp : st.pending = some t)
    (hw : (t.walletByID record.WalletID).getD default = w)
    (hf1 : env.fault walletScan st.trace.length = none)
    (hf2 : env.fault walletUpdates (st.trace.length + 1) = none) :
    WalletImpl.RollbackTransaction.loop env record gorm.DB.began (fuel + 1) retryCount st =
      some (WalletImpl.LoopExit.success w.Amount (w.Amount + (- record.Amount)),
        { st with
          pending := some { t with
            wallet := walletDao.modified w (w.Amount + (- record.Amount)) st.now t.wallet },
          trace := walletUpdates :: walletScan :: st.trace }) := by
  have hv : gorm.view gorm.DB.began st = some t := by simp [gorm.view, hp]
  simp only [WalletImpl.RollbackTransaction.loop]
  rw [if_neg (show ¬ retryCount > 10 by omega),
    walletDao_Get_ok env gorm.DB.began record.WalletID st t hv hf1]
  simp only [hw]
  rw [walletDao_Modify_ok env gorm.DB.began w _ _ t (by simp [gorm.view, hp])
    (by simpa using hf2)]
  simp [gorm.flush]

/-- `RollbackTransaction` when its four store calls succeed and the record it reads is in
status Success. -/
theorem WalletImpl.RollbackTransaction_eval_success (env : Env)
    (req : RollbackTransactionReq) (st : Database)
    (r : dbModels.TransactionRecordModel) (w : dbModels.WalletModel)
    (hfault : ∀ c n, env.fault c n = none)
    (hr : (st.committed.recordByID req.Id).getD default = r)
    (hs : r.Status = dbModels.TransactionStatus_Success)
    (hw : (st.committed.walletByID r.WalletID).getD default = w) :
    WalletImpl.RollbackTransaction env req st =
      some (Outcome.ok ⟨⟩,
        { committed :=
            { wallet := walletDao.modified w (w.Amount + (- r.Amount)) st.now
                st.committed.wallet,
              transaction_record := transactionRecordDao.modified r
                (WalletImpl.RollbackTransaction.patch req w.Amount (w.Amount + (- r.Amount)))
                st.now st.committed.transaction_record },
          pending := none,
          now := st.now,
          trace := recordUpdates :: walletUpdates :: walletScan :: recordScan :: st.trace }) := by
  simp only [WalletImpl.RollbackTransaction]
  rw [transactionRecordDao_Get_ok env gorm.DB.pool req.Id st st.committed
    (by simp [gorm.view]) (hfault _ _)]
  simp only [hr]
  rw [if_neg (by rw [hs]; simp)]
  simp only [gorm.Begin]
  rw [WalletImpl.RollbackTransaction_loop_attempt_ok env r 11 0 _ st.committed w (by omega) rfl
    hw (hfault _ _) (hfault _ _)]
  simp only []
  rw [transactionRecordDao_Modify_ok env gorm.DB.began _ _ _ _ (by simp only [gorm.view]; rfl)
    (hfault _ _)]
  simp only [gorm.flush, gorm.Commit, WalletImpl.RollbackTransaction.patch]

theorem transactionRecordDao_attrs_frame (u : transactionRecordDao.UpdateModel)
    (r : dbModels.TransactionRecordModel) :
    (transactionRecordDao.attrs u r).ID = r.ID ∧
    (transactionRecordDao.attrs u r).WalletID = r.WalletID ∧
    (transactionRecordDao.attrs u r).MemberID = r.MemberID ∧
    (transactionRecordDao.attrs u r).Amount = r.Amount ∧
    (transactionRecordDao.attrs u r).Action = r.Action ∧
    (transactionRecordDao.attrs u r).Currency = r.Currency := by
  obtain ⟨b, a, s, m, rb, ra, ri⟩ := u
  cases b <;> cases a <;> cases s <;> cases m <;> cases rb <;> cases ra <;> cases ri <;>
    simp [transactionRecordDao.attrs]

theorem transactionRecordDao_find_modified (id : Nat) (r : dbModels.TransactionRecordModel)
    (u : transactionRecordDao.UpdateModel) (now : Time)
    (l : List dbModels.TransactionRecordModel)
    (hr : l.find? (fun x => decide (x.ID = id)) = some r) :
    (transactionRecordDao.modified r u now l).find? (fun x => decide (x.ID = id)) =
      some { transactionRecordDao.attrs u r with UpdatedAt := now } := by
  have hid : r.ID = id := by
    have := List.find?_some hr
    simpa using this
  induction l with
  | nil => simp at hr
  | cons x l ih =>
    simp only [transactionRecordDao.modified, List.map_cons]
    by_cases hx : x.ID = id
    · simp only [List.find?_cons, hx, decide_True] at hr
      have hxr : x = r := by simpa using hr
      subst hxr
      simp [(transactionRecordDao_attrs_frame u x).1, hx]
    · simp only [List.find?_cons, hx, decide_False] at hr
      have hne : ¬ (x.ID = r.ID) := by rw [hid]; exact hx
      simp only [hne, false_and, if_false, List.find?_cons, hx, decide_False]
      exact ih hr

theorem toUint64_toInt64 (x : Nat) (hx : x < 2 ^ 64) : toUint64 (toInt64 x) = x := by
  unfold toUint64 toInt64
  have h64 : (2 : Nat) ^ 64 = 18446744073709551616 := by norm_num
  have h63 : (2 : Nat) ^ 63 = 9223372036854775808 := by norm_num
  have h64i : (2 : Int) ^ 64 = 18446744073709551616 := by norm_num
  rw [h64] at hx
  simp only [h64, h63, h64i]
  split <;> omega

/-- The wallet and journal facts of a successful rollback, read off the state it leaves. -/
theorem WalletImpl.RollbackTransaction_success_facts (env : Env)
    (req : RollbackTransactionReq) (st : Database)
    (r : dbModels.TransactionRecordModel) (w : dbModels.WalletModel)
    (hfault : ∀ c n, env.fault c n = none)
    (hr : st.committed.recordByID req.Id = some r)
    (hs : r.Status = dbModels.TransactionStatus_Success)
    (hw : st.committed.walletByID r.WalletID = some w)
    (hlive : w.DeletedAt = none) :
    ∃ st' row, WalletImpl.RollbackTransaction env req st = some (Outcome.ok ⟨⟩, st') ∧
      (st'.committed.walletByID r.WalletID).map (fun x => x.Amount) =
        some (w.Amount - r.Amount) ∧
      st'.committed.recordByID req.Id = some row ∧
      row.Status = dbModels.TransactionStatus_Rollback ∧
      row.RollbackBeforeAmount = some w.Amount ∧
      row.RollbackAfterAmount = some (w.Amount - r.Amount) ∧
      row.RollbackerID = some (toInt64 req.RollbackerID) ∧
      row.BeforeAmount = r.BeforeAmount ∧ row.AfterAmount = r.AfterAmount ∧
      row.ID = r.ID ∧ row.WalletID = r.WalletID ∧ row.Amount = r.Amount := by
  have heval := WalletImpl.RollbackTransaction_eval_success env req st r w hfault
    (by rw [hr]; rfl) hs (by rw [hw]; rfl)
  have hwf := walletDao_find_modified r.WalletID w (w.Amount + (- r.Amount)) st.now
    st.committed.wallet hw hlive
  have hrf := transactionRecordDao_find_modified req.Id r
    (WalletImpl.RollbackTransaction.patch req w.Amount (w.Amount + (- r.Amount))) st.now
    st.committed.transaction_record hr
  refine ⟨_, _, heval, ?_, hrf, ?_⟩
  · simp only [Tables.walletByID, hwf, Option.map_some', Int.sub_eq_add_neg]
  · cases hrem : req.Remark <;>
      simp [transactionRecordDao.attrs, WalletImpl.RollbackTransaction.patch, hrem,
        Int.sub_eq_add_neg]

/-- C11. For every Success journal row with amount `a` and every live wallet whose stored
amount is `b`, when no store call fails or conflicts, `RollbackTransaction` sets the wallet's
amount to `b - a` and changes the row to status Rollback with `rollback_before_amount = b`,
`rollback_after_amount = b - a` and `rollbacker_id` the request's rollbacker (stored as
`int64`, read back as the same `uint64`), leaving `before_amount` and `after_amount` as they
were. -/
theorem C11_rollback_success (env : Env) (req : RollbackTransactionReq) (st : Database)
    (r : dbModels.TransactionRecordModel) (w : dbModels.WalletModel)
    (hfault : ∀ c n, env.fault c n = none)
    (hr : st.committed.recordByID req.Id = some r)
    (hs : r.Status = dbModels.TransactionStatus_Success)
    (hw : st.committed.walletByID r.WalletID = some w)
    (hlive : w.DeletedAt = none)
    (hid : req.RollbackerID < 2 ^ 64) :
    ∃ st' row, WalletImpl.RollbackTransaction env req st = some (Outcome.ok ⟨⟩, st') ∧
      (st'.committed.walletByID r.WalletID).map (fun x => x.Amount) =
        some (w.Amount - r.Amount) ∧
      st'.committed.recordByID req.Id = some row ∧
      row.Status = dbModels.TransactionStatus_Rollback ∧
      row.RollbackBeforeAmount = some w.Amount ∧
      row.RollbackAfterAmount = some (w.Amount - r.Amount) ∧
      row.RollbackerID.map toUint64 = some req.RollbackerID ∧
      row.BeforeAmount = r.BeforeAmount ∧ row.AfterAmount = r.AfterAmount := by
  obtain ⟨st', row, h1, h2, h3, h4, h5, h6, h7, h8, h9, -⟩ :=
    WalletImpl.RollbackTransaction_success_facts env req st r w hfault hr hs hw hlive
  refine ⟨st', row, h1, h2, h3, h4, h5, h6, ?_, h8, h9⟩
  rw [h7, Option.map_some', toUint64_toInt64 _ hid]

/-- C11, at the rollback of the deposit of 25 with the wallet at 50. -/
theorem C11_rollback_success_witness :
    ∃ st' row, WalletImpl.RollbackTransaction Scenario.env Scenario.rollbackFirst
        Scenario.stDeposited = some (Outcome.ok ⟨⟩, st') ∧
      (st'.committed.walletByID 1).map (fun x => x.Amount) = some (50 - 25) ∧
      st'.committed.recordByID 1 = some row ∧
      row.Status = dbModels.TransactionStatus_Rollback ∧
      row.RollbackBeforeAmount = some 50 ∧
      row.RollbackAfterAmount = some (50 - 25) ∧
      row.RollbackerID.map toUint64 = some 3 ∧
      row.BeforeAmount = some 25 ∧ row.AfterAmount = some 50 :=
  C11_rollback_success Scenario.env Scenario.rollbackFirst Scenario.stDeposited
    Scenario.depositedRow Scenario.wallet (fun _ _ => rfl) (by decide) (by decide) (by decide)
    (by decide) (by decide)

/-- C12. `RollbackTransaction` does not check the sign of the new balance: for every Success
journal row with amount `a` and live wallet with amount `b` such that `b - a < 0`, when no
store call fails, the rollback succeeds, the wallet's amount becomes the negative `b - a`,
and the row ends in status Rollback. -/
theorem C12_rollback_may_go_negative (env : Env) (req : RollbackTransactionReq)
    (st : Database) (r : dbModels.TransactionRecordModel) (w : dbModels.WalletModel)
    (hfault : ∀ c n, env.fault c n = none)
    (hr : st.committed.recordByID req.Id = some r)
    (hs : r.Status = dbModels.TransactionStatus_Success)
    (hw : st.committed.walletByID r.WalletID = some w)
    (hlive : w.DeletedAt = none)
    (hneg : w.Amount - r.Amount < 0) :
    ∃ st' row amount, WalletImpl.RollbackTransaction env req st = some (Outcome.ok ⟨⟩, st') ∧
      (st'.committed.walletByID r.WalletID).map (fun x => x.Amount) = some amount ∧
      amount = w.Amount - r.Amount ∧ amount < 0 ∧
      st'.committed.recordByID req.Id = some row ∧
      row.Status = dbModels.TransactionStatus_Rollback := by
  obtain ⟨st', row, h1, h2, h3, h4, -⟩ :=
    WalletImpl.RollbackTransaction_success_facts env req st r w hfault hr hs hw hlive
  exact ⟨st', row, w.Amount - r.Amount, h1, h2, rfl, hneg, h3, h4⟩

/-- C12, at the rollback of the deposit of 100 with the wallet at 0: the wallet ends at
-100. -/
theorem C12_rollback_may_go_negative_witness :
    ∃ st' row amount, WalletImpl.RollbackTransaction Scenario.env Scenario.rollbackFirst
        Scenario.stDrained = some (Outcome.ok ⟨⟩, st') ∧
      (st'.committed.walletByID 1).map (fun x => x.Amount) = some amount ∧
      amount = 0 - 100 ∧ amount < 0 ∧
      st'.committed.recordByID 1 = some row ∧
      row.Status = dbModels.TransactionStatus_Rollback :=
  C12_rollback_may_go_negative Scenario.env Scenario.rollbackFirst Scenario.stDrained
    Scenario.hundredRow Scenario.drainedWallet (fun _ _ => rfl) (by decide) (by decide)
    (by decide) (by decide) (by decide)

/-! ## The engine under an arbitrary store -/

/-- However the store behaves, the loop of `Transaction` leaves the committed tables alone;
it leaves with success only after one conditional update ran, on the amount `b` the open
transaction holds for the wallet and with `0 ≤ b + a`; it leaves with an error with the
transaction rolled back, except for `ErrInsufficientBalance`, which leaves it open. -/
theorem WalletImpl.Transaction.loop_inv (env : Env) (req : TransactionReq) (a : Decimal)
    (transactionRecord : dbModels.TransactionRecordModel) (t : Tables)
    (w : dbModels.WalletModel) (hw : (t.walletByID req.WalletID).getD default = w) :
    ∀ (fuel retryCount : Nat) (st : Database), st.pending = some t →
    ∀ exit st', WalletImpl.Transaction.loop env req a transactionRecord gorm.DB.began fuel
        retryCount st = some (exit, st') →
      st'.committed = st.committed ∧ st'.now = st.now ∧
      (∀ b c, exit = WalletImpl.LoopExit.success b c →
        b = w.Amount ∧ c = w.Amount + a ∧ 0 ≤ w.Amount + a ∧
        st'.pending = some { t with
          wallet := walletDao.modified w (w.Amount + a) st.now t.wallet }) ∧
      (∀ e, exit = WalletImpl.LoopExit.returned e →
        st'.pending = none ∨ (e = Error.ErrInsufficientBalance ∧ st'.pending = some t)) := by
  intro fuel
  induction fuel with
  | zero => intro rc st _ exit st' h; simp [WalletImpl.Transaction.loop] at h
  | succ fuel ih =>
    intro rc st hp exit st' h
    have hv : gorm.view gorm.DB.began st = some t := by simp [gorm.view, hp]
    simp only [WalletImpl.Transaction.loop] at h
    by_cases hrc : rc > 10
    · rw [if_pos hrc, WalletImpl.Transaction.fail_eq] at h
      simp only [Option.some.injEq, Prod.mk.injEq] at h
      obtain ⟨h1, h2⟩ := h
      subst h1 h2
      exact ⟨rfl, rfl, fun b c hbc => (by cases hbc), fun e _ => Or.inl rfl⟩
    · rw [if_neg hrc] at h
      rcases hf1 : env.fault walletScan st.trace.length with _ | e1
      · rw [walletDao_Get_ok env gorm.DB.began req.WalletID st t hv hf1] at h
        simp only [hw] at h
        by_cases hlt : w.Amount + a < 0
        · rw [if_pos hlt] at h
          simp only [Option.some.injEq, Prod.mk.injEq] at h
          obtain ⟨h1, h2⟩ := h
          subst h1 h2
          exact ⟨rfl, rfl, fun b c hbc => (by cases hbc),
            fun e he => (by cases he; exact Or.inr ⟨rfl, hp⟩)⟩
        · rw [if_neg hlt] at h
          rcases hf2 : env.fault walletUpdates (st.trace.length + 1) with _ | e2
          · rw [walletDao_Modify_ok env gorm.DB.began w _ _ t (by simp [gorm.view, hp])
              (by simpa using hf2)] at h
            simp only [gorm.flush, Option.some.injEq, Prod.mk.injEq] at h
            obtain ⟨h1, h2⟩ := h
            subst h1 h2
            refine ⟨rfl, rfl, ?_, fun e he => (by cases he)⟩
            intro b c hbc
            cases hbc
            exact ⟨rfl, rfl, not_lt.mp hlt, rfl⟩
          · rw [walletDao_Modify_fault env gorm.DB.began w _ _ t e2 (by simp [gorm.view, hp])
              (by simpa using hf2)] at h
            cases e2 with
            | ErrRecordNotFound =>
              simp only [] at h
              exact ih (rc + 1)
                { st with trace := walletUpdates :: walletScan :: st.trace } hp exit st' h
            | ErrTxDone =>
              simp only [WalletImpl.Transaction.fail_eq, Option.some.injEq, Prod.mk.injEq] at h
              obtain ⟨h1, h2⟩ := h
              subst h1 h2
              exact ⟨rfl, rfl, fun b c hbc => (by cases hbc), fun e _ => Or.inl rfl⟩
            | other code =>
              simp only [WalletImpl.Transaction.fail_eq, Option.some.injEq, Prod.mk.injEq] at h
              obtain ⟨h1, h2⟩ := h
              subst h1 h2
              exact ⟨rfl, rfl, fun b c hbc => (by cases hbc), fun e _ => Or.inl rfl⟩
      · rw [walletDao_Get_fault env gorm.DB.began _ st t e1 hv hf1] at h
        by_cases he1 : e1 = StoreFault.ErrRecordNotFound
        · rw [if_pos he1] at h
          simp only [WalletImpl.Transaction.fail_eq, Option.some.injEq, Prod.mk.injEq] at h
          obtain ⟨h1, h2⟩ := h
          subst h1 h2
          exact ⟨rfl, rfl, fun b c hbc => (by cases hbc), fun e _ => Or.inl rfl⟩
        · rw [if_neg he1] at h
          simp only [WalletImpl.Transaction.fail_eq, Option.some.injEq, Prod.mk.injEq] at h
          obtain ⟨h1, h2⟩ := h
          subst h1 h2
          exact ⟨rfl, rfl, fun b c hbc => (by cases hbc), fun e _ => Or.inl rfl⟩

/-- However the store behaves, a `Transaction` that returns has left the committed tables in
one of three shapes: untouched; with the Pending row of the request appended and nothing
else; or, after its commit, with the wallet moved by the amount and the row appended in
status Success.  Only the last shape goes with a Success response. -/
theorem WalletImpl.Transaction_cases (env : Env) (req : TransactionReq) (st : Database)
    (w : dbModels.WalletModel)
    (hw : (st.committed.walletByID req.WalletID).getD default = w)
    (out : Outcome TransactionRes) (st' : Database)
    (h : WalletImpl.Transaction env req st = some (out, st')) :
    st'.now = st.now ∧
    ((st'.committed = st.committed ∧ ∀ res, out ≠ Outcome.ok res) ∨
     (∃ a, env.NewFromString req.Amount = some a ∧
        st'.committed = { st.committed with transaction_record :=
          st.committed.transaction_record ++
            [transactionRecordDao.created (WalletImpl.Transaction.pendingRecord req a w) st.now
              st.committed.transaction_record] } ∧
        ∀ res, out ≠ Outcome.ok res) ∨
     (∃ a, env.NewFromString req.Amount = some a ∧ 0 ≤ w.Amount + a ∧
        st'.committed =
          { wallet := walletDao.modified w (w.Amount + a) st.now st.committed.wallet,
            transaction_record := st.committed.transaction_record ++
              [WalletImpl.Transaction.successRow req a w st.now
                st.committed.transaction_record] } ∧
        st'.pending = none ∧
        ∀ res, out = Outcome.ok res →
          res.BeforeAmount = env.DecimalString w.Amount ∧
          res.AfterAmount = env.DecimalString (w.Amount + a) ∧
          res.Status = dbModels.TransactionStatus_Success ∧
          res.Currency = req.Currency)) := by
  simp only [WalletImpl.Transaction] at h
  rcases hparse : env.NewFromString req.Amount with _ | a
  · simp only [hparse, Option.some.injEq, Prod.mk.injEq] at h
    obtain ⟨h1, h2⟩ := h
    subst h1 h2
    exact ⟨rfl, Or.inl ⟨rfl, fun res hres => (by cases hres)⟩⟩
  · simp only [hparse] at h
    rcases hf0 : env.fault walletScan st.trace.length with _ | e0
    · rw [walletDao_Get_ok env gorm.DB.pool req.WalletID st st.committed (by simp [gorm.view])
        hf0] at h
      simp only [hw] at h
      rcases hf1 : env.fault recordCreate (st.trace.length + 1) with _ | e1
      · rw [transactionRecordDao_New_ok env gorm.DB.pool _ _ st.committed (by simp [gorm.view])
          (by simpa using hf1) rfl rfl rfl] at h
        simp only [gorm.Begin, gorm.flush] at h
        rcases hloop : WalletImpl.Transaction.loop env req a
            (transactionRecordDao.created (WalletImpl.Transaction.pendingRecord req a w) st.now
              st.committed.transaction_record) gorm.DB.began 12 0
            { committed := { st.committed with transaction_record :=
                  st.committed.transaction_record ++
                  [transactionRecordDao.created (WalletImpl.Transaction.pendingRecord req a w)
                    st.now st.committed.transaction_record] },
              pending := some { st.committed with transaction_record :=
                  st.committed.transaction_record ++
                  [transactionRecordDao.created (WalletImpl.Transaction.pendingRecord req a w)
                    st.now st.committed.transaction_record] },
              now := st.now,
              trace := recordCreate :: walletScan :: st.trace } with _ | ⟨exit, st3⟩
        · rw [hloop] at h
          simp at h
        · rw [hloop] at h
          obtain ⟨i1, i2, i3, i4⟩ := WalletImpl.Transaction.loop_inv env req a _
            { st.committed with transaction_record := st.committed.transaction_record ++
                [transactionRecordDao.created (WalletImpl.Transaction.pendingRecord req a w)
                  st.now st.committed.transaction_record] }
            w (by simpa only [Tables.walletByID] using hw) 12 0 _ rfl exit st3 hloop
          simp only at i1 i2
          rcases exit with e | ⟨b, c⟩
          · simp only [Option.some.injEq, Prod.mk.injEq] at h
            obtain ⟨h1, h2⟩ := h
            subst h1 h2
            exact ⟨i2, Or.inr (Or.inl ⟨a, rfl, i1, fun res hres => (by cases hres)⟩)⟩
          · obtain ⟨j1, j2, j3, j4⟩ := i3 b c rfl
            subst j1 j2
            simp only [] at h
            rcases hf3 : env.fault recordUpdates st3.trace.length with _ | e3
            · rw [transactionRecordDao_Modify_ok env gorm.DB.began _ _ st3 _
                (by simp only [gorm.view]; exact j4) hf3] at h
              simp only [gorm.flush, gorm.Commit, WalletImpl.Transaction.stamp_success,
                i2] at h
              have hg := transactionRecordDao_Get_snd env gorm.DB.pool
                (transactionRecordDao.QueryModel.byID
                  (transactionRecordDao.created (WalletImpl.Transaction.pendingRecord req a w)
                    st.now st.committed.transaction_record).ID)
                { committed :=
                    { wallet := walletDao.modified w (w.Amount + a) st.now st.committed.wallet,
                      transaction_record := st.committed.transaction_record ++
                        [WalletImpl.Transaction.successRow req a w st.now
                          st.committed.transaction_record] },
                  pending := none,
                  now := st.now,
                  trace := recordUpdates :: st3.trace }
              rcases hget : transactionRecordDao.Get env gorm.DB.pool
                (transactionRecordDao.QueryModel.byID
                  (transactionRecordDao.created (WalletImpl.Transaction.pendingRecord req a w)
                    st.now st.committed.transaction_record).ID)
                { committed :=
                    { wallet := walletDao.modified w (w.Amount + a) st.now st.committed.wallet,
                      transaction_record := st.committed.transaction_record ++
                        [WalletImpl.Transaction.successRow req a w st.now
                          st.committed.transaction_record] },
                  pending := none,
                  now := st.now,
                  trace := recordUpdates :: st3.trace } with ⟨r5, st5⟩
              rw [hget] at hg h
              simp only at hg
              subst hg
              rcases r5 with e | _ | stored
              · simp only [Option.some.injEq, Prod.mk.injEq] at h
                obtain ⟨h1, h2⟩ := h
                subst h1 h2
                exact ⟨rfl, Or.inr (Or.inr ⟨a, rfl, j3, rfl, rfl,
                  fun res hres => (by cases hres)⟩)⟩
              · simp only [Option.some.injEq, Prod.mk.injEq] at h
                obtain ⟨h1, h2⟩ := h
                subst h1 h2
                exact ⟨rfl, Or.inr (Or.inr ⟨a, rfl, j3, rfl, rfl,
                  fun res hres => (by cases hres)⟩)⟩
              · simp only [Option.some.injEq, Prod.mk.injEq] at h
                obtain ⟨h1, h2⟩ := h
                subst h1 h2
                refine ⟨rfl, Or.inr (Or.inr ⟨a, rfl, j3, rfl, rfl, ?_⟩)⟩
                intro res hres
                cases hres
                exact ⟨rfl, rfl, rfl, rfl⟩
            · rw [transactionRecordDao_Modify_fault env gorm.DB.began _ _ st3 _ e3
                (by simp only [gorm.view]; exact j4) hf3] at h
              simp only [gorm.Rollback, Option.some.injEq, Prod.mk.injEq] at h
              obtain ⟨h1, h2⟩ := h
              subst h1 h2
              exact ⟨i2, Or.inr (Or.inl ⟨a, rfl, i1, fun res hres => (by cases hres)⟩)⟩
      · rw [transactionRecordDao_New_fault env gorm.DB.pool _ _ st.committed e1
          (by simp [gorm.view]) (by simpa using hf1)] at h
        simp only [Option.some.injEq, Prod.mk.injEq] at h
        obtain ⟨h1, h2⟩ := h
        subst h1 h2
        exact ⟨rfl, Or.inl ⟨rfl, fun res hres => (by cases hres)⟩⟩
    · rw [walletDao_Get_fault env gorm.DB.pool _ st st.committed e0 (by simp [gorm.view])
        hf0] at h
      by_cases he0 : e0 = StoreFault.ErrRecordNotFound
      · rw [if_pos he0] at h
        simp only [Option.some.injEq, Prod.mk.injEq] at h
        obtain ⟨h1, h2⟩ := h
        subst h1 h2
        exact ⟨rfl, Or.inl ⟨rfl, fun res hres => (by cases hres)⟩⟩
      · rw [if_neg he0] at h
        simp only [Option.some.injEq, Prod.mk.injEq] at h
        obtain ⟨h1, h2⟩ := h
        subst h1 h2
        exact ⟨rfl, Or.inl ⟨rfl, fun res hres => (by cases hres)⟩⟩

/-- However the store behaves, the loop of `RollbackTransaction` leaves the committed tables
alone, and it leaves with success only after one conditional update ran, on the amount the
open transaction holds for the wallet. -/
theorem WalletImpl.RollbackTransaction_loop_inv (env : Env)
    (record : dbModels.TransactionRecordModel) (t : Tables)
    (w : dbModels.WalletModel) (hw : (t.walletByID record.WalletID).getD default = w) :
    ∀ (fuel retryCount : Nat) (st : Database), st.pending = some t →
    ∀ exit st', WalletImpl.RollbackTransaction.loop env record gorm.DB.began fuel
        retryCount st = some (exit, st') →
      st'.committed = st.committed ∧ st'.now = st.now ∧
      (∀ b c, exit = WalletImpl.LoopExit.success b c →
        b = w.Amount ∧ c = w.Amount + (- record.Amount) ∧
        st'.pending = some { t with
          wallet := walletDao.modified w (w.Amount + (- record.Amount)) st.now t.wallet }) := by
  intro fuel
  induction fuel with
  | zero => intro rc st _ exit st' h; simp [WalletImpl.RollbackTransaction.loop] at h
  | succ fuel ih =>
    intro rc st hp exit st' h
    have hv : gorm.view gorm.DB.began st = some t := by simp [gorm.view, hp]
    simp only [WalletImpl.RollbackTransaction.loop] at h
    by_cases hrc : rc > 10
    · rw [if_pos hrc] at h
      simp only [Option.some.injEq, Prod.mk.injEq] at h
      obtain ⟨h1, h2⟩ := h
      subst h1 h2
      exact ⟨rfl, rfl, fun b c hbc => (by cases hbc)⟩
    · rw [if_neg hrc] at h
      rcases hf1 : env.fault walletScan st.trace.length with _ | e1
      · rw [walletDao_Get_ok env gorm.DB.began record.WalletID st t hv hf1] at h
        simp only [hw] at h
        rcases hf2 : env.fault walletUpdates (st.trace.length + 1) with _ | e2
        · rw [walletDao_Modify_ok env gorm.DB.began w _ _ t (by simp [gorm.view, hp])
            (by simpa using hf2)] at h
          simp only [gorm.flush, Option.some.injEq, Prod.mk.injEq] at h
          obtain ⟨h1, h2⟩ := h
          subst h1 h2
          refine ⟨rfl, rfl, ?_⟩
          intro b c hbc
          cases hbc
          exact ⟨rfl, rfl, rfl⟩
        · rw [walletDao_Modify_fault env gorm.DB.began w _ _ t e2 (by simp [gorm.view, hp])
            (by simpa using hf2)] at h
          cases e2 with
          | ErrRecordNotFound =>
            simp only [] at h
            exact ih (rc + 1)
              { st with trace := walletUpdates :: walletScan :: st.trace } hp exit st' h
          | ErrTxDone =>
            simp only [gorm.Rollback, Option.some.injEq, Prod.mk.injEq] at h
            obtain ⟨h1, h2⟩ := h
            subst h1 h2
            exact ⟨rfl, rfl, fun b c hbc => (by cases hbc)⟩
          | other code =>
            simp only [gorm.Rollback, Option.some.injEq, Prod.mk.injEq] at h
            obtain ⟨h1, h2⟩ := h
            subst h1 h2
            exact ⟨rfl, rfl, fun b c hbc => (by cases hbc)⟩
      · rw [walletDao_Get_fault env gorm.DB.began _ st t e1 hv hf1] at h
        by_cases he1 : e1 = StoreFault.ErrRecordNotFound
        · rw [if_pos he1] at h
          simp only [gorm.Rollback, Option.some.injEq, Prod.mk.injEq] at h
          obtain ⟨h1, h2⟩ := h
          subst h1 h2
          exact ⟨rfl, rfl, fun b c hbc => (by cases hbc)⟩
        · rw [if_neg he1] at h
          simp only [gorm.Rollback, Option.some.injEq, Prod.mk.injEq] at h
          obtain ⟨h1, h2⟩ := h
          subst h1 h2
          exact ⟨rfl, rfl, fun b c hbc => (by cases hbc)⟩

/-- However the store behaves, a `RollbackTransaction` that returns has either left the
committed tables untouched and returned an error, or found its record in status Success,
committed the compensating update of the wallet together with the Rollback stamp of the
record, and returned without error. -/
theorem WalletImpl.RollbackTransaction_cases (env : Env) (req : RollbackTransactionReq)
    (st : Database) (r : dbModels.TransactionRecordModel) (w : dbModels.WalletModel)
    (hr : (st.committed.recordByID req.Id).getD default = r)
    (hw : (st.committed.walletByID r.WalletID).getD default = w)
    (out : Outcome RollbackTransactionRes) (st' : Database)
    (h : WalletImpl.RollbackTransaction env req st = some (out, st')) :
    st'.now = st.now ∧
    ((st'.committed = st.committed ∧ ∀ res, out ≠ Outcome.ok res) ∨
     (r.Status = dbModels.TransactionStatus_Success ∧ out = Outcome.ok ⟨⟩ ∧
        st'.committed =
          { wallet := walletDao.modified w (w.Amount + (- r.Amount)) st.now
              st.committed.wallet,
            transaction_record := transactionRecordDao.modified r
              (WalletImpl.RollbackTransaction.patch req w.Amount (w.Amount + (- r.Amount)))
              st.now st.committed.transaction_record } ∧
        st'.pending = none)) := by
  simp only [WalletImpl.RollbackTransaction] at h
  rcases hf0 : env.fault recordScan st.trace.length with _ | e0
  · rw [transactionRecordDao_Get_ok env gorm.DB.pool req.Id st st.committed
      (by simp [gorm.view]) hf0] at h
    simp only [hr] at h
    by_cases hs : r.Status = dbModels.TransactionStatus_Success
    · rw [if_neg (by rw [hs]; simp)] at h
      simp only [gorm.Begin] at h
      rcases hloop : WalletImpl.RollbackTransaction.loop env r gorm.DB.began 12 0
          { committed := st.committed, pending := some st.committed, now := st.now,
            trace := recordScan :: st.trace } with _ | ⟨exit, st2⟩
      · rw [hloop] at h
        simp at h
      · rw [hloop] at h
        obtain ⟨i1, i2, i3⟩ := WalletImpl.RollbackTransaction_loop_inv env r st.committed w hw
          12 0 _ rfl exit st2 hloop
        simp only at i1 i2
        rcases exit with e | ⟨b, c⟩
        · simp only [Option.some.injEq, Prod.mk.injEq] at h
          obtain ⟨h1, h2⟩ := h
          subst h1 h2
          exact ⟨i2, Or.inl ⟨i1, fun res hres => (by cases hres)⟩⟩
        · obtain ⟨j1, j2, j4⟩ := i3 b c rfl
          subst j1 j2
          simp only [] at h
          rcases hf3 : env.fault recordUpdates st2.trace.length with _ | e3
          · rw [transactionRecordDao_Modify_ok env gorm.DB.began _ _ st2 _
              (by simp only [gorm.view]; exact j4) hf3] at h
            simp only [gorm.flush, gorm.Commit, i2, Option.some.injEq, Prod.mk.injEq] at h
            obtain ⟨h1, h2⟩ := h
            subst h1 h2
            exact ⟨rfl, Or.inr ⟨hs, rfl, rfl, rfl⟩⟩
          · rw [transactionRecordDao_Modify_fault env gorm.DB.began _ _ st2 _ e3
              (by simp only [gorm.view]; exact j4) hf3] at h
            simp only [gorm.Rollback, Option.some.injEq, Prod.mk.injEq] at h
            obtain ⟨h1, h2⟩ := h
            subst h1 h2
            exact ⟨i2, Or.inl ⟨i1, fun res hres => (by cases hres)⟩⟩
    · rw [if_pos hs] at h
      simp only [Option.some.injEq, Prod.mk.injEq] at h
      obtain ⟨h1, h2⟩ := h
      subst h1 h2
      exact ⟨rfl, Or.inl ⟨rfl, fun res hres => (by cases hres)⟩⟩
  · rw [transactionRecordDao_Get_fault env gorm.DB.pool _ st st.committed e0
      (by simp [gorm.view]) hf0] at h
    by_cases he0 : e0 = StoreFault.ErrRecordNotFound
    · rw [if_pos he0] at h
      simp only [Option.some.injEq, Prod.mk.injEq] at h
      obtain ⟨h1, h2⟩ := h
      subst h1 h2
      exact ⟨rfl, Or.inl ⟨rfl, fun res hres => (by cases hres)⟩⟩
    · rw [if_neg he0] at h
      simp only [Option.some.injEq, Prod.mk.injEq] at h
      obtain ⟨h1, h2⟩ := h
      subst h1 h2
      exact ⟨rfl, Or.inl ⟨rfl, fun res hres => (by cases hres)⟩⟩

/-! ## Sequences of requests -/

theorem WalletImpl.CreateWallet_ok (env : Env) (req : CreateWalletReq) (st : Database)
    (hf : env.fault walletCreate st.trace.length = none) :
    WalletImpl.CreateWallet env req st =
      (Outcome.ok ⟨gorm.nextID (st.committed.wallet.map (fun w => w.ID))⟩,
        { st with
          committed := { st.committed with
            wallet := st.committed.wallet ++ [walletDao.created req st.now st.committed.wallet] },
          trace := walletCreate :: st.trace }) := by
  simp only [WalletImpl.CreateWallet, walletDao.New]
  rw [gorm.Create_ok env gorm.DB.pool walletTable _ _ _ st st.committed (by simp [gorm.view])
    hf]
  simp [gorm.flush, walletTable, walletDao.created, walletCreate]
  exact ⟨fun h => absurd rfl h, rfl, rfl⟩

theorem WalletImpl.CreateWallet_fault (env : Env) (req : CreateWalletReq) (st : Database)
    (e : StoreFault) (hf : env.fault walletCreate st.trace.length = some e) :
    WalletImpl.CreateWallet env req st =
      (Outcome.err (Error.store e), { st with trace := walletCreate :: st.trace }) := by
  simp only [WalletImpl.CreateWallet, walletDao.New]
  rw [gorm.Create_fault env gorm.DB.pool walletTable _ _ _ st st.committed e
    (by simp [gorm.view]) hf]
  simp [walletTable, walletCreate]

theorem walletDao_modified_mem (model : dbModels.WalletModel) (amount : Decimal) (now : Time)
    (l : List dbModels.WalletModel) (x : dbModels.WalletModel)
    (hx : x ∈ walletDao.modified model amount now l) :
    x ∈ l ∨ (x.Amount = amount ∧ ∃ y ∈ l, x.ID = y.ID ∧ x.DeletedAt = y.DeletedAt ∧
      y.ID = model.ID ∧ y.Amount = model.Amount) := by
  simp only [walletDao.modified, List.mem_map] at hx
  obtain ⟨y, hy, hxy⟩ := hx
  by_cases hc : y.ID = model.ID ∧ y.Amount = model.Amount ∧ y.DeletedAt = none
  · rw [if_pos hc] at hxy
    subst hxy
    exact Or.inr ⟨rfl, y, hy, rfl, rfl, hc.1, hc.2.1⟩
  · rw [if_neg hc] at hxy
    subst hxy
    exact Or.inl hy

theorem find_map_isSome {α : Type} (key : α → Nat) (f : α → α)
    (hf : ∀ x, key (f x) = key x) (id : Nat) (l : List α) :
    ((l.map f).find? (fun r => decide (key r = id))).isSome =
      (l.find? (fun r => decide (key r = id))).isSome := by
  induction l with
  | nil => rfl
  | cons x l ih =>
    by_cases hx : key x = id
    · simp [List.find?_cons, hf, hx]
    · simp only [List.map_cons, List.find?_cons, hf, hx, decide_False]
      exact ih

theorem walletDao_modified_isSome (model : dbModels.WalletModel) (amount : Decimal)
    (now : Time) (l : List dbModels.WalletModel) (id : Nat) :
    ((walletDao.modified model amount now l).find? (fun r => decide (r.ID = id))).isSome =
      (l.find? (fun r => decide (r.ID = id))).isSome := by
  apply find_map_isSome (fun w : dbModels.WalletModel => w.ID)
  intro x
  by_cases hc : x.ID = model.ID ∧ x.Amount = model.Amount ∧ x.DeletedAt = none
  · simp only [if_pos hc]
  · simp only [if_neg hc]

/-- However the store behaves, a `Transaction` keeps every amount stored under a wallet id
non-negative, and keeps the id resolving to a row. -/
theorem WalletImpl.Transaction_keeps_nonnegative (env : Env) (req : TransactionReq)
    (st : Database) (wid : Nat)
    (hsome : (st.committed.walletByID wid).isSome = true)
    (hP : ∀ x ∈ st.committed.wallet, x.ID = wid → 0 ≤ x.Amount)
    (out : Outcome TransactionRes) (st' : Database)
    (h : WalletImpl.Transaction env req st = some (out, st')) :
    (st'.committed.walletByID wid).isSome = true ∧
    ∀ x ∈ st'.committed.wallet, x.ID = wid → 0 ≤ x.Amount := by
  obtain ⟨-, hc | ⟨a, -, hc, -⟩ | ⟨a, -, hab, hc, -, -⟩⟩ :=
    WalletImpl.Transaction_cases env req st _ rfl out st' h
  · rw [hc.1]; exact ⟨hsome, hP⟩
  · rw [hc]; exact ⟨hsome, hP⟩
  · rw [hc]
    constructor
    · simp only [Tables.walletByID] at hsome ⊢
      rw [walletDao_modified_isSome]; exact hsome
    · intro x hx hid
      rcases walletDao_modified_mem _ _ _ _ x hx with hx1 | ⟨hx1, -⟩
      · exact hP x hx1 hid
      · rw [hx1]; exact hab

/-- `Transaction` calls served one after another keep every amount stored under a wallet id
non-negative. -/
theorem WalletImpl.serve_transactions_nonnegative (env : Env) (wid : Nat) :
    ∀ (reqs : List TransactionReq) (st : Database),
    (st.committed.walletByID wid).isSome = true →
    (∀ x ∈ st.committed.wallet, x.ID = wid → 0 ≤ x.Amount) →
    ∃ st2, WalletImpl.serve env (reqs.map Request.transaction) st = some st2 ∧
      (st2.committed.walletByID wid).isSome = true ∧
      ∀ x ∈ st2.committed.wallet, x.ID = wid → 0 ≤ x.Amount := by
  intro reqs
  induction reqs with
  | nil => intro st hs hP; exact ⟨st, rfl, hs, hP⟩
  | cons req rest ih =>
    intro st hs hP
    obtain ⟨out, st1, h1, -⟩ := WalletImpl.Transaction_frame env req st
    obtain ⟨hs1, hP1⟩ := WalletImpl.Transaction_keeps_nonnegative env req st wid hs hP out st1 h1
    obtain ⟨st2, h2, hs2, hP2⟩ := ih st1 hs1 hP1
    refine ⟨st2, ?_, hs2, hP2⟩
    simp only [List.map_cons, WalletImpl.serve, h1]
    exact h2

theorem walletDao_created_fresh (req : CreateWalletReq) (now : Time)
    (l : List dbModels.WalletModel) :
    ∀ x ∈ l, x.ID ≠ (walletDao.created req now l).ID := by
  intro x hx
  have := gorm.lt_nextID (l.map (fun w => w.ID)) x.ID (List.mem_map_of_mem _ hx)
  simp only [walletDao.created]
  omega

theorem Tables.walletByID_append (l : List dbModels.WalletModel)
    (rs : List dbModels.TransactionRecordModel) (row : dbModels.WalletModel)
    (hl : ∀ x ∈ l, x.ID ≠ row.ID) :
    Tables.walletByID ⟨l ++ [row], rs⟩ row.ID = some row := by
  have : List.find? (fun r => decide (r.ID = row.ID)) l = none := by
    simp only [List.find?_eq_none, decide_eq_true_eq]
    exact hl
  simp [Tables.walletByID, List.find?_append, this]

/-- What a successful `CreateWallet` leaves: the returned id resolves to the row it appended,
a live row with amount 0, and no other row has that id. -/
theorem WalletImpl.CreateWallet_creates (env : Env) (req : CreateWalletReq)
    (st0 st1 : Database) (wid : Nat)
    (h : WalletImpl.CreateWallet env req st0 = (Outcome.ok ⟨wid⟩, st1)) :
    st1.committed.wallet =
      st0.committed.wallet ++ [walletDao.created req st0.now st0.committed.wallet] ∧
    st1.committed.transaction_record = st0.committed.transaction_record ∧
    st1.now = st0.now ∧
    (walletDao.created req st0.now st0.committed.wallet).ID = wid ∧
    st1.committed.walletByID wid = some (walletDao.created req st0.now st0.committed.wallet) ∧
    ∀ x ∈ st1.committed.wallet, x.ID = wid →
      x = walletDao.created req st0.now st0.committed.wallet := by
  rcases hf : env.fault walletCreate st0.trace.length with _ | e
  · rw [WalletImpl.CreateWallet_ok env req st0 hf] at h
    simp only [Prod.mk.injEq, Outcome.ok.injEq, CreateWalletRes.mk.injEq] at h
    obtain ⟨h1, h2⟩ := h
    subst h2
    have hid : (walletDao.created req st0.now st0.committed.wallet).ID = wid := by
      rw [← h1]; rfl
    refine ⟨rfl, rfl, rfl, hid, ?_, ?_⟩
    · rw [← hid]
      exact Tables.walletByID_append _ _ _ (walletDao_created_fresh req st0.now _)
    · intro x hx hxid
      simp only [List.mem_append, List.mem_singleton] at hx
      rcases hx with hx | hx
      · exact absurd (hxid.trans hid.symm) (walletDao_created_fresh req st0.now _ x hx)
      · exact hx
  · rw [WalletImpl.CreateWallet_fault env req st0 e hf] at h
    simp at h

/-- C13 (as stated, refuted). A wallet is created, 100 is deposited, 75 is withdrawn, and the
deposit is rolled back: every call succeeds and the wallet's committed amount ends at -75. -/
theorem C13_rollback_breaks_nonnegativity :
    (WalletImpl.serve Scenario.env
        [Request.transaction Scenario.deposit100, Request.transaction Scenario.withdraw,
          Request.rollback Scenario.rollbackFirst]
        (WalletImpl.CreateWallet Scenario.env Scenario.createUSD Scenario.empty).2).map
      (fun st => st.committed.wallet.map (fun w => (w.ID, w.Amount, decide (0 ≤ w.Amount)))) =
      some [(1, -75, false)] := by
  decide

/-- C13 (amended). Starting from a wallet created by `CreateWallet`, after every finite
sequence of `Transaction` calls (whatever the store answers to each), the wallet's committed
amount is `≥ 0`.  (`RollbackTransaction` is not bound by this: it applies the compensating
amount without a sign check.) -/
theorem C13_transactions_keep_amount_nonnegative (env : Env) (cw : CreateWalletReq)
    (st0 st1 : Database) (wid : Nat)
    (hcreate : WalletImpl.CreateWallet env cw st0 = (Outcome.ok ⟨wid⟩, st1))
    (reqs : List TransactionReq) :
    ∃ st2 x, WalletImpl.serve env (reqs.map Request.transaction) st1 = some st2 ∧
      st2.committed.walletByID wid = some x ∧ 0 ≤ x.Amount := by
  obtain ⟨-, -, -, -, h5, h6⟩ := WalletImpl.CreateWallet_creates env cw st0 st1 wid hcreate
  have hP : ∀ x ∈ st1.committed.wallet, x.ID = wid → 0 ≤ x.Amount := by
    intro x hx hid
    rw [h6 x hx hid]
    exact le_refl _
  obtain ⟨st2, h2, hs2, hP2⟩ :=
    WalletImpl.serve_transactions_nonnegative env wid reqs st1 (by rw [h5]; rfl) hP
  rcases hx : st2.committed.walletByID wid with _ | x
  · rw [hx] at hs2; cases hs2
  · refine ⟨st2, x, h2, hx, ?_⟩
    have hx2 := hx
    simp only [Tables.walletByID] at hx2
    have hmem := List.mem_of_find?_eq_some hx2
    have hid : x.ID = wid := by
      have := List.find?_some hx2
      simpa using this
    exact hP2 x hmem hid

/-- C13 (amended), at a fresh wallet that receives 100 and then gives 75. -/
theorem C13_transactions_keep_amount_nonnegative_witness :
    ∃ st2 x, WalletImpl.serve Scenario.env
        ([Scenario.deposit100, Scenario.withdraw].map Request.transaction)
        (WalletImpl.CreateWallet Scenario.env Scenario.createUSD Scenario.empty).2 = some st2 ∧
      st2.committed.walletByID 1 = some x ∧ 0 ≤ x.Amount :=
  C13_transactions_keep_amount_nonnegative Scenario.env Scenario.createUSD Scenario.empty
    (WalletImpl.CreateWallet Scenario.env Scenario.createUSD Scenario.empty).2 1 (by decide)
    [Scenario.deposit100, Scenario.withdraw]

/-! ## The guard of the journal -/

theorem transactionRecordDao_attrs_status (u : transactionRecordDao.UpdateModel)
    (r : dbModels.TransactionRecordModel) :
    (transactionRecordDao.attrs u r).Status = u.Status.getD r.Status := by
  obtain ⟨b, a, s, rm, rb, ra, ri⟩ := u
  cases b <;> cases a <;> cases s <;> cases rm <;> cases rb <;> cases ra <;> cases ri <;> rfl

/-- C16 (as stated, refuted). The stored row 1 has status Failed; `Modify` is called with a
record reference that also says Failed and a patch that sets Success: the guard matches and
the terminal row becomes Success. -/
theorem C16_terminal_row_changed :
    Scenario.stFailed.committed.transaction_record.map (fun r => (r.ID, r.Status)) =
      [(1, dbModels.TransactionStatus_Failed)] ∧
    (transactionRecordDao.Modify Scenario.env gorm.DB.pool Scenario.failedRow
        (transactionRecordDao.UpdateModel.status dbModels.TransactionStatus_Success)
        Scenario.stFailed).2.committed.transaction_record.map (fun r => (r.ID, r.Status)) =
      [(1, dbModels.TransactionStatus_Success)] := by
  decide

/-- C16 (amended). The guard of `transactionRecordDao.Modify` compares the stored id and
status with those of the record reference the caller holds.  When the reference says Pending
and the patch sets Success or Failed, or the reference says Success and the patch sets
Rollback (the calls the service makes), a successful `Modify` changes only rows whose id and
stored status equal the reference's, changes a status only along Pending -> Success,
Pending -> Failed or Success -> Rollback, and changes no row whose stored status is Failed
or Rollback. -/
theorem C16_modify_guard_compares_reference (env : Env) (db : gorm.DB)
    (model : dbModels.TransactionRecordModel) (update : transactionRecordDao.UpdateModel)
    (st : Database) (t : Tables)
    (hv : gorm.view db st = some t)
    (hf : env.fault recordUpdates st.trace.length = none)
    (hlegal : (model.Status = dbModels.TransactionStatus_Pending ∧
        (update.Status = some dbModels.TransactionStatus_Success ∨
          update.Status = some dbModels.TransactionStatus_Failed)) ∨
      (model.Status = dbModels.TransactionStatus_Success ∧
        update.Status = some dbModels.TransactionStatus_Rollback)) :
    ∃ t', transactionRecordDao.Modify env db model update st =
        (none, gorm.flush db t' { st with trace := recordUpdates :: st.trace }) ∧
      t'.wallet = t.wallet ∧
      List.Forall₂
        (fun r r' =>
          (r' = r ∨ (r.ID = model.ID ∧ r.Status = model.Status ∧
            update.Status = some r'.Status)) ∧
          (r.Status = dbModels.TransactionStatus_Failed ∨
            r.Status = dbModels.TransactionStatus_Rollback → r' = r) ∧
          (r'.Status = r.Status ∨
            (r.Status = dbModels.TransactionStatus_Pending ∧
              r'.Status = dbModels.TransactionStatus_Success) ∨
            (r.Status = dbModels.TransactionStatus_Pending ∧
              r'.Status = dbModels.TransactionStatus_Failed) ∨
            (r.Status = dbModels.TransactionStatus_Success ∧
              r'.Status = dbModels.TransactionStatus_Rollback)))
        t.transaction_record t'.transaction_record := by
  rw [transactionRecordDao_Modify_ok env db model update st t hv hf]
  refine ⟨_, rfl, rfl, ?_⟩
  simp only [transactionRecordDao.modified]
  rw [List.forall₂_map_right_iff, List.forall₂_same]
  intro r _
  by_cases hg : r.ID = model.ID ∧ r.Status = model.Status
  · rw [if_pos hg]
    have hst : ({ transactionRecordDao.attrs update r with UpdatedAt := st.now } :
        dbModels.TransactionRecordModel).Status = update.Status.getD r.Status :=
      transactionRecordDao_attrs_status update r
    rcases hlegal with ⟨hm, hu | hu⟩ | ⟨hm, hu⟩
    · rw [hu] at hst
      refine ⟨Or.inr ⟨hg.1, hg.2, by rw [hu, hst]; rfl⟩, ?_, ?_⟩
      · intro h
        rw [hg.2, hm] at h
        exfalso
        revert h; decide
      · exact Or.inr (Or.inl ⟨by rw [hg.2, hm], hst⟩)
    · rw [hu] at hst
      refine ⟨Or.inr ⟨hg.1, hg.2, by rw [hu, hst]; rfl⟩, ?_, ?_⟩
      · intro h
        rw [hg.2, hm] at h
        exfalso
        revert h; decide
      · exact Or.inr (Or.inr (Or.inl ⟨by rw [hg.2, hm], hst⟩))
    · rw [hu] at hst
      refine ⟨Or.inr ⟨hg.1, hg.2, by rw [hu, hst]; rfl⟩, ?_, ?_⟩
      · intro h
        rw [hg.2, hm] at h
        exfalso
        revert h; decide
      · exact Or.inr (Or.inr (Or.inr ⟨by rw [hg.2, hm], hst⟩))
  · rw [if_neg hg]
    exact ⟨Or.inl rfl, fun _ => rfl, Or.inl rfl⟩

/-- C16 (amended), at the Success stamp of a Pending reference over a journal whose row 1 is
Failed: the row stays as it is. -/
theorem C16_modify_guard_compares_reference_witness :
    ∃ t', transactionRecordDao.Modify Scenario.env gorm.DB.pool
        { Scenario.failedRow with Status := dbModels.TransactionStatus_Pending }
        (transactionRecordDao.UpdateModel.status dbModels.TransactionStatus_Success)
        Scenario.stFailed =
        (none, gorm.flush gorm.DB.pool t'
          { Scenario.stFailed with trace := recordUpdates :: Scenario.stFailed.trace }) ∧
      t'.wallet = Scenario.stFailed.committed.wallet ∧
      List.Forall₂
        (fun r r' =>
          (r' = r ∨ (r.ID = 1 ∧ r.Status = dbModels.TransactionStatus_Pending ∧
            some dbModels.TransactionStatus_Success = some r'.Status)) ∧
          (r.Status = dbModels.TransactionStatus_Failed ∨
            r.Status = dbModels.TransactionStatus_Rollback → r' = r) ∧
          (r'.Status = r.Status ∨
            (r.Status = dbModels.TransactionStatus_Pending ∧
              r'.Status = dbModels.TransactionStatus_Success) ∨
            (r.Status = dbModels.TransactionStatus_Pending ∧
              r'.Status = dbModels.TransactionStatus_Failed) ∨
            (r.Status = dbModels.TransactionStatus_Success ∧
              r'.Status = dbModels.TransactionStatus_Rollback)))
        Scenario.stFailed.committed.transaction_record t'.transaction_record :=
  C16_modify_guard_compares_reference Scenario.env gorm.DB.pool
    { Scenario.failedRow with Status := dbModels.TransactionStatus_Pending }
    (transactionRecordDao.UpdateModel.status dbModels.TransactionStatus_Success)
    Scenario.stFailed Scenario.stFailed.committed rfl rfl (Or.inl ⟨rfl, Or.inl rfl⟩)

/-- C19. The one write by which `Transaction` stamps a journal row Failed is the `Modify` of
its failure block, with the patch `{Status: Failed}`.  That patch assigns the status and
nothing else: whenever the write is carried out, every row keeps every column but `status`
and `updated_at`, in particular `before_amount` and `after_amount`; and the row `Transaction`
appended has both unset, so stamped Failed it still has both unset. -/
theorem C19_failed_stamp_sets_only_status (env : Env) (db : gorm.DB) (req : TransactionReq)
    (a : Decimal) (w : dbModels.WalletModel) (now : Time)
    (l : List dbModels.TransactionRecordModel) (st : Database) (t : Tables)
    (hv : gorm.view db st = some t)
    (hf : env.fault recordUpdates st.trace.length = none)
    (hrow : t.recordByID
        (transactionRecordDao.created (WalletImpl.Transaction.pendingRecord req a w) now l).ID =
      some (transactionRecordDao.created (WalletImpl.Transaction.pendingRecord req a w) now l)) :
    (∀ handle record st0, WalletImpl.Transaction.fail env handle record st0 =
      (transactionRecordDao.Modify env (gorm.Rollback handle st0).1 record
        (transactionRecordDao.UpdateModel.status dbModels.TransactionStatus_Failed)
        (gorm.Rollback handle st0).2).2) ∧
    (∀ r, transactionRecordDao.attrs
        (transactionRecordDao.UpdateModel.status dbModels.TransactionStatus_Failed) r =
      { r with Status := dbModels.TransactionStatus_Failed }) ∧
    ∃ t' row, transactionRecordDao.Modify env db
        (transactionRecordDao.created (WalletImpl.Transaction.pendingRecord req a w) now l)
        (transactionRecordDao.UpdateModel.status dbModels.TransactionStatus_Failed) st =
        (none, gorm.flush db t' { st with trace := recordUpdates :: st.trace }) ∧
      t'.wallet = t.wallet ∧
      List.Forall₂
        (fun r r' => r' = { r with Status := r'.Status, UpdatedAt := r'.UpdatedAt })
        t.transaction_record t'.transaction_record ∧
      t'.recordByID
        (transactionRecordDao.created (WalletImpl.Transaction.pendingRecord req a w) now l).ID =
        some row ∧
      row.Status = dbModels.TransactionStatus_Failed ∧
      row.BeforeAmount = none ∧ row.AfterAmount = none := by
  refine ⟨fun _ _ _ => rfl, fun _ => rfl, ?_⟩
  rw [transactionRecordDao_Modify_ok env db _ _ st t hv hf]
  refine ⟨_, { transactionRecordDao.attrs
      (transactionRecordDao.UpdateModel.status dbModels.TransactionStatus_Failed)
      (transactionRecordDao.created (WalletImpl.Transaction.pendingRecord req a w) now l) with
      UpdatedAt := st.now }, rfl, rfl, ?_, ?_, ?_, ?_, ?_⟩
  · simp only [transactionRecordDao.modified]
    rw [List.forall₂_map_right_iff, List.forall₂_same]
    intro r _
    by_cases hg : r.ID = (transactionRecordDao.created
        (WalletImpl.Transaction.pendingRecord req a w) now l).ID ∧
        r.Status = (transactionRecordDao.created
          (WalletImpl.Transaction.pendingRecord req a w) now l).Status
    · rw [if_pos hg]; rfl
    · rw [if_neg hg]
  · simp only [Tables.recordByID] at hrow ⊢
    exact transactionRecordDao_find_modified _ _ _ _ _ hrow
  · rfl
  · rfl
  · rfl

/-- C19, at the Failed stamp of the row a withdrawal of 75 appended to an empty journal. -/
theorem C19_failed_stamp_sets_only_status_witness :
    ∃ t' row, transactionRecordDao.Modify Scenario.env gorm.DB.pool
        (transactionRecordDao.created
          (WalletImpl.Transaction.pendingRecord Scenario.withdraw (-75) Scenario.wallet)
          Scenario.st.now [])
        (transactionRecordDao.UpdateModel.status dbModels.TransactionStatus_Failed)
        { Scenario.st with committed := ⟨[Scenario.wallet],
          [transactionRecordDao.created
            (WalletImpl.Transaction.pendingRecord Scenario.withdraw (-75) Scenario.wallet)
            Scenario.st.now []]⟩ } =
        (none, gorm.flush gorm.DB.pool t'
          { Scenario.st with
            committed := ⟨[Scenario.wallet],
              [transactionRecordDao.created
                (WalletImpl.Transaction.pendingRecord Scenario.withdraw (-75) Scenario.wallet)
                Scenario.st.now []]⟩,
            trace := [recordUpdates] }) ∧
      t'.wallet = [Scenario.wallet] ∧
      List.Forall₂
        (fun r r' => r' = { r with Status := r'.Status, UpdatedAt := r'.UpdatedAt })
        [transactionRecordDao.created
          (WalletImpl.Transaction.pendingRecord Scenario.withdraw (-75) Scenario.wallet)
          Scenario.st.now []] t'.transaction_record ∧
      t'.recordByID 1 = some row ∧
      row.Status = dbModels.TransactionStatus_Failed ∧
      row.BeforeAmount = none ∧ row.AfterAmount = none :=
  (C19_failed_stamp_sets_only_status Scenario.env gorm.DB.pool Scenario.withdraw (-75)
    Scenario.wallet Scenario.st.now []
    { Scenario.st with committed := ⟨[Scenario.wallet],
      [transactionRecordDao.created
        (WalletImpl.Transaction.pendingRecord Scenario.withdraw (-75) Scenario.wallet)
        Scenario.st.now []]⟩ }
    ⟨[Scenario.wallet],
      [transactionRecordDao.created
        (WalletImpl.Transaction.pendingRecord Scenario.withdraw (-75) Scenario.wallet)
        Scenario.st.now []]⟩ rfl rfl (by decide)).2.2

/-- C18 (what the code does). However the store behaves, when a `Transaction` call that
appended its journal row returns, the stored status of that row is Success or Pending, never
Failed.  It is Pending, with both amounts unset and no wallet row changed, on every return
that did not get to commit the Success stamp: `ErrInsufficientBalance` is returned straight
from the loop without any stamp, and the Failed stamp of the other failure paths is issued on
the handle that was just rolled back. -/
theorem C18_unfinished_call_leaves_row_pending (env : Env) (req : TransactionReq)
    (st : Database) (out : Outcome TransactionRes) (st' : Database)
    (h : WalletImpl.Transaction env req st = some (out, st'))
    (happended : st'.committed.transaction_record ≠ st.committed.transaction_record) :
    ∃ row, st'.committed.transaction_record = st.committed.transaction_record ++ [row] ∧
      row.Status ≠ dbModels.TransactionStatus_Failed ∧
      ((row.Status = dbModels.TransactionStatus_Pending ∧
          row.BeforeAmount = none ∧ row.AfterAmount = none ∧
          st'.committed.wallet = st.committed.wallet ∧ ∀ res, out ≠ Outcome.ok res) ∨
        (row.Status = dbModels.TransactionStatus_Success ∧ st'.pending = none)) := by
  obtain ⟨-, h1 | ⟨a, -, h2, h3⟩ | ⟨a, -, -, h2, h3, -⟩⟩ :=
    WalletImpl.Transaction_cases env req st _ rfl out st' h
  · exact absurd (by rw [h1.1]) happended
  · rw [h2]
    exact ⟨_, rfl,
      (show dbModels.TransactionStatus_Pending ≠ dbModels.TransactionStatus_Failed by decide),
      Or.inl ⟨rfl, rfl, rfl, rfl, h3⟩⟩
  · rw [h2]
    exact ⟨_, rfl,
      (show dbModels.TransactionStatus_Success ≠ dbModels.TransactionStatus_Failed by decide),
      Or.inr ⟨rfl, h3⟩⟩

/-- C18, at the withdrawal of 75 from the wallet that holds 50: the call returns
`ErrInsufficientBalance` and the row it appended is stored with status Pending. -/
theorem C18_unfinished_call_leaves_row_pending_witness :
    ∃ st', WalletImpl.Transaction Scenario.env Scenario.withdraw Scenario.st =
        some (Outcome.err Error.ErrInsufficientBalance, st') ∧
      st'.committed.transaction_record.map (fun r => (r.ID, r.Status)) =
        [(1, dbModels.TransactionStatus_Pending)] ∧
      ∃ row, st'.committed.transaction_record =
          Scenario.st.committed.transaction_record ++ [row] ∧
        row.Status ≠ dbModels.TransactionStatus_Failed ∧
        ((row.Status = dbModels.TransactionStatus_Pending ∧
            row.BeforeAmount = none ∧ row.AfterAmount = none ∧
            st'.committed.wallet = Scenario.st.committed.wallet ∧
            ∀ res : TransactionRes,
              Outcome.err Error.ErrInsufficientBalance ≠ Outcome.ok res) ∨
          (row.Status = dbModels.TransactionStatus_Success ∧ st'.pending = none)) :=
  ⟨_, WalletImpl.Transaction_eval_insufficient Scenario.env Scenario.withdraw Scenario.st
      Scenario.wallet (-75) (by decide) (by decide) (fun _ => rfl) (fun _ => rfl) (by decide),
    by decide,
    C18_unfinished_call_leaves_row_pending Scenario.env Scenario.withdraw Scenario.st _ _
      (WalletImpl.Transaction_eval_insufficient Scenario.env Scenario.withdraw Scenario.st
        Scenario.wallet (-75) (by decide) (by decide) (fun _ => rfl) (fun _ => rfl)
        (by decide))
      (by decide)⟩

/-! ## Store errors inside the loop -/

/-- After `k` attempts that each met a conflict, an attempt whose read or whose conditional
update is answered by a store error `e` other than `ErrRecordNotFound` makes the loop of
`Transaction` return `e`, whatever the store answers to the Failed stamp. -/
theorem WalletImpl.Transaction.loop_store_error (env : Env) (req : TransactionReq)
    (a : Decimal) (transactionRecord : dbModels.TransactionRecordModel) (t : Tables)
    (w : dbModels.WalletModel) (hw : (t.walletByID req.WalletID).getD default = w)
    (e : StoreFault) (he : e ≠ StoreFault.ErrRecordNotFound) :
    ∀ (k fuel retryCount : Nat) (st : Database), retryCount + k ≤ 10 → k < fuel →
    st.pending = some t →
    (k ≠ 0 → 0 ≤ w.Amount + a) →
    (∀ j, j < k → env.fault walletScan (st.trace.length + 2 * j) = none ∧
      env.fault walletUpdates (st.trace.length + 2 * j + 1) =
        some StoreFault.ErrRecordNotFound) →
    (env.fault walletScan (st.trace.length + 2 * k) = some e ∨
      (env.fault walletScan (st.trace.length + 2 * k) = none ∧ 0 ≤ w.Amount + a ∧
        env.fault walletUpdates (st.trace.length + 2 * k + 1) = some e)) →
    ∃ st', WalletImpl.Transaction.loop env req a transactionRecord gorm.DB.began fuel
        retryCount st = some (WalletImpl.LoopExit.returned (Error.store e), st') ∧
      st'.committed = st.committed ∧ st'.pending = none ∧ st'.now = st.now ∧
      st'.trace.head? = some recordUpdates := by
  intro k
  induction k with
  | zero =>
    intro fuel rc st hrc hfuel hp _ _ hfail
    obtain ⟨fuel, rfl⟩ : ∃ f, fuel = f + 1 := ⟨fuel - 1, by omega⟩
    have hv : gorm.view gorm.DB.began st = some t := by simp [gorm.view, hp]
    simp only [WalletImpl.Transaction.loop]
    rw [if_neg (show ¬ rc > 10 by omega)]
    rcases hfail with hf | ⟨hf1, hab, hf2⟩
    · rw [walletDao_Get_fault env gorm.DB.began _ st t e hv (by simpa using hf), if_neg he]
      simp only [WalletImpl.Transaction.fail_eq]
      exact ⟨_, rfl, rfl, rfl, rfl, rfl⟩
    · rw [walletDao_Get_ok env gorm.DB.began req.WalletID st t hv (by simpa using hf1)]
      simp only [hw]
      rw [if_neg (not_lt.mpr hab),
        walletDao_Modify_fault env gorm.DB.began w _ _ t e (by simp [gorm.view, hp])
          (by simpa using hf2)]
      cases e with
      | ErrRecordNotFound => exact absurd rfl he
      | ErrTxDone =>
        simp only [WalletImpl.Transaction.fail_eq]
        exact ⟨_, rfl, rfl, rfl, rfl, rfl⟩
      | other code =>
        simp only [WalletImpl.Transaction.fail_eq]
        exact ⟨_, rfl, rfl, rfl, rfl, rfl⟩
  | succ k ih =>
    intro fuel rc st hrc hfuel hp hab hconf hfail
    obtain ⟨fuel, rfl⟩ : ∃ f, fuel = f + 1 := ⟨fuel - 1, by omega⟩
    have hv : gorm.view gorm.DB.began st = some t := by simp [gorm.view, hp]
    have hab0 : 0 ≤ w.Amount + a := hab (Nat.succ_ne_zero k)
    obtain ⟨hc1, hc2⟩ := hconf 0 (Nat.succ_pos k)
    simp only [WalletImpl.Transaction.loop]
    rw [if_neg (show ¬ rc > 10 by omega),
      walletDao_Get_ok env gorm.DB.began req.WalletID st t hv (by simpa using hc1)]
    simp only [hw]
    rw [if_neg (not_lt.mpr hab0),
      walletDao_Modify_fault env gorm.DB.began w _ _ t StoreFault.ErrRecordNotFound
        (by simp [gorm.view, hp]) (by simpa using hc2)]
    simp only []
    have hlen : ({ st with trace := walletUpdates :: walletScan :: st.trace } :
        Database).trace.length = st.trace.length + 2 := by simp
    obtain ⟨st', h1, h2, h3, h4, h5⟩ := ih fuel (rc + 1)
      { st with trace := walletUpdates :: walletScan :: st.trace } (by omega) (by omega) hp
      (fun _ => hab0)
      (by
        intro j hj
        obtain ⟨g1, g2⟩ := hconf (j + 1) (by omega)
        rw [hlen]
        constructor
        · rw [← g1]; congr 1; omega
        · rw [← g2]; congr 1; omega)
      (by
        rw [hlen]
        rcases hfail with hf | ⟨hf1, hab1, hf2⟩
        · left; rw [← hf]; congr 1; omega
        · right
          refine ⟨?_, hab1, ?_⟩
          · rw [← hf1]; congr 1; omega
          · rw [← hf2]; congr 1; omega)
    exact ⟨st', h1, h2, h3, h4, h5⟩

/-- C20. Let the read up front and the append of the journal row succeed, let the first `k`
attempts of the loop (`k ≤ 10`) each end in a conflict, and let attempt `k + 1` meet a store
error `e` other than `ErrRecordNotFound`, returned by its read of the wallet or by its
conditional update.  Then `Transaction` returns exactly `e`, whatever the store answers to
the write that stamps the journal row Failed (the answers to updates of `transaction_record`
are left arbitrary); that write has been issued, and no wallet row has changed. -/
theorem C20_loop_store_error_returned (env : Env) (req : TransactionReq) (st : Database)
    (w : dbModels.WalletModel) (a : Decimal) (e : StoreFault) (k : Nat)
    (hparse : env.NewFromString req.Amount = some a)
    (hw : (st.committed.walletByID req.WalletID).getD default = w)
    (hread : env.fault walletScan st.trace.length = none)
    (hnew : env.fault recordCreate (st.trace.length + 1) = none)
    (hk : k ≤ 10)
    (he : e ≠ StoreFault.ErrRecordNotFound)
    (hab : k ≠ 0 → 0 ≤ w.Amount + a)
    (hconf : ∀ j, j < k → env.fault walletScan (st.trace.length + 2 + 2 * j) = none ∧
      env.fault walletUpdates (st.trace.length + 2 + 2 * j + 1) =
        some StoreFault.ErrRecordNotFound)
    (hfail : env.fault walletScan (st.trace.length + 2 + 2 * k) = some e ∨
      (env.fault walletScan (st.trace.length + 2 + 2 * k) = none ∧ 0 ≤ w.Amount + a ∧
        env.fault walletUpdates (st.trace.length + 2 + 2 * k + 1) = some e)) :
    ∃ st', WalletImpl.Transaction env req st = some (Outcome.err (Error.store e), st') ∧
      st'.trace.head? = some recordUpdates ∧
      st'.committed.wallet = st.committed.wallet := by
  simp only [WalletImpl.Transaction, hparse]
  rw [walletDao_Get_ok env gorm.DB.pool req.WalletID st st.committed (by simp [gorm.view])
    hread]
  simp only [hw]
  rw [transactionRecordDao_New_ok env gorm.DB.pool _ _ st.committed (by simp [gorm.view])
    (by simpa using hnew) rfl rfl rfl]
  simp only [gorm.Begin, gorm.flush]
  obtain ⟨st', h1, h2, -, -, h5⟩ :=
    WalletImpl.Transaction.loop_store_error env req a
      (transactionRecordDao.created (WalletImpl.Transaction.pendingRecord req a w) st.now
        st.committed.transaction_record)
      { st.committed with transaction_record := st.committed.transaction_record ++
          [transactionRecordDao.created (WalletImpl.Transaction.pendingRecord req a w) st.now
            st.committed.transaction_record] }
      w (by simpa only [Tables.walletByID] using hw) e he k 12 0
      { committed := { st.committed with transaction_record :=
          st.committed.transaction_record ++
            [transactionRecordDao.created (WalletImpl.Transaction.pendingRecord req a w) st.now
              st.committed.transaction_record] },
        pending := some { st.committed with transaction_record :=
          st.committed.transaction_record ++
            [transactionRecordDao.created (WalletImpl.Transaction.pendingRecord req a w) st.now
              st.committed.transaction_record] },
        now := st.now,
        trace := recordCreate :: walletScan :: st.trace }
      (by omega) (by omega) rfl hab
      (by simpa using hconf) (by simpa using hfail)
  rw [h1]
  exact ⟨st', rfl, h5, by rw [h2]⟩

/-- C20, at a deposit of 25 whose first attempt meets a conflict and whose second read of the
wallet is answered by error 7, on a store that refuses every update of the journal. -/
theorem C20_loop_store_error_returned_witness :
    ∃ st', WalletImpl.Transaction Scenario.brokenReadEnv Scenario.deposit Scenario.st =
        some (Outcome.err (Error.store (StoreFault.other 7)), st') ∧
      st'.trace.head? = some recordUpdates ∧
      st'.committed.wallet = Scenario.st.committed.wallet :=
  C20_loop_store_error_returned Scenario.brokenReadEnv Scenario.deposit Scenario.st
    Scenario.wallet 25 (StoreFault.other 7) 1 (by decide) (by decide) (by decide) (by decide)
    (by decide) (by decide) (fun _ => by decide) (by decide) (by decide)

/-! ## A rollback is final -/

theorem WalletImpl.RollbackTransaction_loop_total (env : Env)
    (record : dbModels.TransactionRecordModel) (db : gorm.DB) :
    ∀ (fuel retryCount : Nat) (st : Database), 0 < fuel → 12 ≤ fuel + retryCount →
    ∃ exit st', WalletImpl.RollbackTransaction.loop env record db fuel retryCount st =
      some (exit, st') := by
  intro fuel
  induction fuel with
  | zero => intro rc st h; omega
  | succ fuel ih =>
    intro rc st _ hfuel
    simp only [WalletImpl.RollbackTransaction.loop]
    by_cases hrc : rc > 10
    · rw [if_pos hrc]; exact ⟨_, _, rfl⟩
    · rw [if_neg hrc]
      rcases walletDao.Get env db ⟨[record.WalletID], [], none, none⟩ st with ⟨r, st1⟩
      rcases r with e | _ | w
      · exact ⟨_, _, rfl⟩
      · exact ⟨_, _, rfl⟩
      · simp only []
        rcases walletDao.Modify env db w ⟨w.Amount + (- record.Amount)⟩ st1 with ⟨m, st2⟩
        rcases m with _ | e
        · exact ⟨_, _, rfl⟩
        · cases e with
          | ErrRecordNotFound => exact ih (rc + 1) st2 (by omega) (by omega)
          | ErrTxDone => exact ⟨_, _, rfl⟩
          | other code => exact ⟨_, _, rfl⟩

/-- Whatever the store answers, `RollbackTransaction` returns. -/
theorem WalletImpl.RollbackTransaction_total (env : Env) (req : RollbackTransactionReq)
    (st : Database) :
    ∃ out st', WalletImpl.RollbackTransaction env req st = some (out, st') := by
  simp only [WalletImpl.RollbackTransaction]
  rcases transactionRecordDao.Get env gorm.DB.pool
    (transactionRecordDao.QueryModel.byID req.Id) st with ⟨r, st1⟩
  rcases r with e | _ | record
  · exact ⟨_, _, rfl⟩
  · exact ⟨_, _, rfl⟩
  · simp only []
    by_cases hs : record.Status ≠ dbModels.TransactionStatus_Success
    · rw [if_pos hs]; exact ⟨_, _, rfl⟩
    · rw [if_neg hs]
      obtain ⟨exit, st2, hl⟩ := WalletImpl.RollbackTransaction_loop_total env record
        (gorm.Begin st1).1 12 0 (gorm.Begin st1).2 (by omega) (by omega)
      rw [hl]
      cases exit with
      | returned e => exact ⟨_, _, rfl⟩
      | success b c =>
        simp only []
        rcases transactionRecordDao.Modify env (gorm.Begin st1).1 record _ st2 with ⟨m, st3⟩
        rcases m with _ | e
        · exact ⟨_, _, rfl⟩
        · exact ⟨_, _, rfl⟩

theorem find_map_key {α : Type} (key : α → Nat) (f : α → α)
    (hf : ∀ x, key (f x) = key x) (id : Nat) (l : List α) :
    (l.map f).find? (fun r => decide (key r = id)) =
      (l.find? (fun r => decide (key r = id))).map f := by
  induction l with
  | nil => rfl
  | cons x l ih =>
    by_cases hx : key x = id
    · simp [List.find?_cons, hf, hx]
    · simp only [List.map_cons, List.find?_cons, hf, hx, decide_False]
      exact ih

theorem transactionRecordDao_modified_keeps (r : dbModels.TransactionRecordModel)
    (u : transactionRecordDao.UpdateModel) (now : Time)
    (l : List dbModels.TransactionRecordModel) (id : Nat)
    (row : dbModels.TransactionRecordModel)
    (hrow : l.find? (fun x => decide (x.ID = id)) = some row)
    (hne : row.Status ≠ r.Status) :
    (transactionRecordDao.modified r u now l).find? (fun x => decide (x.ID = id)) =
      some row := by
  simp only [transactionRecordDao.modified]
  rw [find_map_key (fun x : dbModels.TransactionRecordModel => x.ID) _ _ id l, hrow]
  · simp [hne]
  · intro x
    by_cases hg : x.ID = r.ID ∧ x.Status = r.Status
    · rw [if_pos hg]; exact (transactionRecordDao_attrs_frame u x).1
    · rw [if_neg hg]

/-- However the store behaves, a `Transaction` leaves every journal row that was stored
before it as it was. -/
theorem WalletImpl.Transaction_keeps_record (env : Env) (req : TransactionReq)
    (st : Database) (id : Nat) (row : dbModels.TransactionRecordModel)
    (hrow : st.committed.recordByID id = some row)
    (out : Outcome TransactionRes) (st' : Database)
    (h : WalletImpl.Transaction env req st = some (out, st')) :
    st'.committed.recordByID id = some row := by
  simp only [Tables.recordByID] at hrow ⊢
  obtain ⟨-, h1 | ⟨a, -, h2, -⟩ | ⟨a, -, -, h2, -, -⟩⟩ :=
    WalletImpl.Transaction_cases env req st _ rfl out st' h
  · rw [h1.1]; exact hrow
  · rw [h2]; simp only [List.find?_append, hrow]; rfl
  · rw [h2]; simp only [List.find?_append, hrow]; rfl

/-- However the store behaves, a `RollbackTransaction` leaves every journal row whose
status is not Success as it was. -/
theorem WalletImpl.RollbackTransaction_keeps_record (env : Env)
    (req : RollbackTransactionReq) (st : Database) (id : Nat)
    (row : dbModels.TransactionRecordModel)
    (hrow : st.committed.recordByID id = some row)
    (hs : row.Status ≠ dbModels.TransactionStatus_Success)
    (out : Outcome RollbackTransactionRes) (st' : Database)
    (h : WalletImpl.RollbackTransaction env req st = some (out, st')) :
    st'.committed.recordByID id = some row := by
  simp only [Tables.recordByID] at hrow ⊢
  obtain ⟨-, h1 | ⟨h2, -, h3, -⟩⟩ :=
    WalletImpl.RollbackTransaction_cases env req st _ _ rfl rfl out st' h
  · rw [h1.1]; exact hrow
  · rw [h3]
    exact transactionRecordDao_modified_keeps _ _ _ _ id row hrow (by rw [h2]; exact hs)

/-- However the store behaves, the engine serves every list of requests, and a journal row
whose status is not Success is the same afterwards. -/
theorem WalletImpl.serve_keeps_record (env : Env) (id : Nat)
    (row : dbModels.TransactionRecordModel)
    (hs : row.Status ≠ dbModels.TransactionStatus_Success) :
    ∀ (reqs : List Request) (st : Database), st.committed.recordByID id = some row →
    ∃ st2, WalletImpl.serve env reqs st = some st2 ∧
      st2.committed.recordByID id = some row := by
  intro reqs
  induction reqs with
  | nil => intro st h; exact ⟨st, rfl, h⟩
  | cons r rest ih =>
    intro st hrow
    cases r with
    | transaction req =>
      obtain ⟨out, st1, h1, -, -⟩ := WalletImpl.Transaction_frame env req st
      simp only [WalletImpl.serve, h1]
      exact ih st1 (WalletImpl.Transaction_keeps_record env req st id row hrow out st1 h1)
    | rollback req =>
      obtain ⟨out, st1, h1⟩ := WalletImpl.RollbackTransaction_total env req st
      simp only [WalletImpl.serve, h1]
      exact ih st1
        (WalletImpl.RollbackTransaction_keeps_record env req st id row hrow hs out st1 h1)

/-- C17. After `RollbackTransaction` has succeeded for a journal id, and after any further
requests the engine has served since (whatever the store answered to them), every
`RollbackTransaction` for the same id returns without a result and leaves the committed
tables, the wallet's amount among them, as they are; it returns `ErrTransactionNotSuccess`
unless the store fails its read of the journal row. -/
theorem C17_rollback_at_most_once (env : Env) (req : RollbackTransactionReq)
    (st0 st1 : Database) (reqs : List Request) (again : RollbackTransactionReq)
    (hdone : WalletImpl.RollbackTransaction env req st0 = some (Outcome.ok ⟨⟩, st1))
    (hid : again.Id = req.Id) :
    ∃ st2, WalletImpl.serve env reqs st1 = some st2 ∧
      ∃ out st3, WalletImpl.RollbackTransaction env again st2 = some (out, st3) ∧
        st3.committed = st2.committed ∧
        (∀ res, out ≠ Outcome.ok res) ∧
        (out = Outcome.err Error.ErrTransactionNotSuccess ∨
          env.fault recordScan st2.trace.length ≠ none) := by
  obtain ⟨-, h1 | ⟨hs, -, hc, -⟩⟩ :=
    WalletImpl.RollbackTransaction_cases env req st0 _ _ rfl rfl _ st1 hdone
  · exact absurd rfl (h1.2 ⟨⟩)
  · rcases hr : st0.committed.recordByID req.Id with _ | r
    · rw [hr] at hs
      exact absurd hs (by decide)
    · rw [hr] at hs hc
      simp only [Option.getD_some] at hs hc
      have hrow : st1.committed.recordByID req.Id = some
          { transactionRecordDao.attrs
              (WalletImpl.RollbackTransaction.patch req
                ((st0.committed.walletByID r.WalletID).getD default).Amount
                (((st0.committed.walletByID r.WalletID).getD default).Amount + (- r.Amount)))
              r with UpdatedAt := st0.now } := by
        rw [hc]
        simp only [Tables.recordByID] at hr ⊢
        exact transactionRecordDao_find_modified _ _ _ _ _ hr
      have hst : ({ transactionRecordDao.attrs
              (WalletImpl.RollbackTransaction.patch req
                ((st0.committed.walletByID r.WalletID).getD default).Amount
                (((st0.committed.walletByID r.WalletID).getD default).Amount + (- r.Amount)))
              r with UpdatedAt := st0.now } : dbModels.TransactionRecordModel).Status =
          dbModels.TransactionStatus_Rollback :=
        transactionRecordDao_attrs_status _ r
      have hns : ({ transactionRecordDao.attrs
              (WalletImpl.RollbackTransaction.patch req
                ((st0.committed.walletByID r.WalletID).getD default).Amount
                (((st0.committed.walletByID r.WalletID).getD default).Amount + (- r.Amount)))
              r with UpdatedAt := st0.now } : dbModels.TransactionRecordModel).Status ≠
          dbModels.TransactionStatus_Success := by
        rw [hst]; decide
      obtain ⟨st2, h2, hrow2⟩ :=
        WalletImpl.serve_keeps_record env req.Id _ hns reqs st1 hrow
      refine ⟨st2, h2, ?_⟩
      obtain ⟨out, st3, h3⟩ := WalletImpl.RollbackTransaction_total env again st2
      have hstatus : ((st2.committed.recordByID again.Id).getD default).Status ≠
          dbModels.TransactionStatus_Success := by
        rw [hid, hrow2]; exact hns
      obtain ⟨-, h4 | ⟨h5, -⟩⟩ :=
        WalletImpl.RollbackTransaction_cases env again st2 _ _ rfl rfl out st3 h3
      · refine ⟨out, st3, h3, h4.1, h4.2, ?_⟩
        rcases hf : env.fault recordScan st2.trace.length with _ | e
        · left
          rw [WalletImpl.RollbackTransaction_eval_rejected env again st2 hf hstatus] at h3
          simp only [Option.some.injEq, Prod.mk.injEq] at h3
          exact h3.1.symm
        · right; simp
      · exact absurd h5 hstatus

/-- C17, at the rollback of the deposit of 25 with the wallet at 50, followed by a new
deposit of 25 and a second rollback of row 1, and then by a third one: the amount goes
50, 25, 50 and stays at 50. -/
theorem C17_rollback_at_most_once_witness :
    (∃ st1, WalletImpl.RollbackTransaction Scenario.env Scenario.rollbackFirst
        Scenario.stDeposited = some (Outcome.ok ⟨⟩, st1) ∧
      ∃ st2, WalletImpl.serve Scenario.env
          [Request.transaction Scenario.deposit, Request.rollback Scenario.rollbackFirst]
          st1 = some st2 ∧
        ∃ out st3, WalletImpl.RollbackTransaction Scenario.env ⟨1, 5, none⟩ st2 =
            some (out, st3) ∧
          st3.committed = st2.committed ∧
          (∀ res, out ≠ Outcome.ok res) ∧
          (out = Outcome.err Error.ErrTransactionNotSuccess ∨
            Scenario.env.fault recordScan st2.trace.length ≠ none)) ∧
    (WalletImpl.serve Scenario.env
        [Request.rollback Scenario.rollbackFirst, Request.transaction Scenario.deposit,
          Request.rollback Scenario.rollbackFirst, Request.rollback ⟨1, 5, none⟩]
        Scenario.stDeposited).map (fun st => st.committed.wallet.map (fun w => w.Amount)) =
      some [50] :=
  ⟨⟨_, WalletImpl.RollbackTransaction_eval_success Scenario.env Scenario.rollbackFirst
      Scenario.stDeposited Scenario.depositedRow Scenario.wallet (fun _ _ => rfl)
      (by decide) (by decide) (by decide),
    C17_rollback_at_most_once Scenario.env Scenario.rollbackFirst Scenario.stDeposited _
      [Request.transaction Scenario.deposit, Request.rollback Scenario.rollbackFirst]
      ⟨1, 5, none⟩
      (WalletImpl.RollbackTransaction_eval_success Scenario.env Scenario.rollbackFirst
        Scenario.stDeposited Scenario.depositedRow Scenario.wallet (fun _ _ => rfl)
        (by decide) (by decide) (by decide))
      rfl⟩, by decide⟩

/-! ## Applies one after another -/

/-- However the store behaves, a `Transaction` that returns a result has added the amount of
the request to the stored amount of the (live) wallet, and returns the amount before and
after. -/
theorem WalletImpl.Transaction_ok_facts (env : Env) (req : TransactionReq) (st : Database)
    (w : dbModels.WalletModel)
    (hw : st.committed.walletByID req.WalletID = some w) (hlive : w.DeletedAt = none)
    (res : TransactionRes) (st' : Database)
    (h : WalletImpl.Transaction env req st = some (Outcome.ok res, st')) :
    ∃ a, env.NewFromString req.Amount = some a ∧ 0 ≤ w.Amount + a ∧
      st'.committed.walletByID req.WalletID =
        some { w with Amount := w.Amount + a, UpdatedAt := some st.now } ∧
      res.BeforeAmount = env.DecimalString w.Amount ∧
      res.AfterAmount = env.DecimalString (w.Amount + a) := by
  obtain ⟨-, h1 | ⟨a, -, -, h3⟩ | ⟨a, hp, hab, hc, -, hres⟩⟩ :=
    WalletImpl.Transaction_cases env req st w (by rw [hw]; rfl) _ st' h
  · exact absurd rfl (h1.2 res)
  · exact absurd rfl (h3 res)
  · obtain ⟨hb, ha, -, -⟩ := hres res rfl
    refine ⟨a, hp, hab, ?_, hb, ha⟩
    rw [hc]
    simp only [Tables.walletByID] at hw ⊢
    exact walletDao_find_modified req.WalletID w _ _ _ hw hlive

/-- However the store behaves, `Transaction` calls made one after another on the same live
wallet, all returning a result, take its stored amount through the ledger of their amounts:
each call returns the balance it found and the balance it left, none of them negative, and
the stored amount ends at the start plus the sum. -/
theorem WalletImpl.transactions_ledger (env : Env) (wid : Nat) :
    ∀ (reqs : List TransactionReq) (st : Database) (w : dbModels.WalletModel)
      (outs : List (Outcome TransactionRes)) (st2 : Database),
    st.committed.walletByID wid = some w → w.DeletedAt = none →
    (∀ r ∈ reqs, r.WalletID = wid) →
    WalletImpl.transactions env reqs st = some (outs, st2) →
    (∀ o ∈ outs, o.isOk = true) →
    ∃ amounts w2, reqs.map (fun r => env.NewFromString r.Amount) = amounts.map some ∧
      st2.committed.walletByID wid = some w2 ∧ w2.Amount = w.Amount + amounts.sum ∧
      w2.DeletedAt = none ∧
      outs.map Outcome.amounts = (ledger w.Amount amounts).map
        (fun p => some (env.DecimalString p.1, env.DecimalString p.2)) ∧
      ∀ p ∈ ledger w.Amount amounts, 0 ≤ p.2 := by
  intro reqs
  induction reqs with
  | nil =>
    intro st w outs st2 hw hlive _ hrun _
    simp only [WalletImpl.transactions, Option.some.injEq, Prod.mk.injEq] at hrun
    obtain ⟨h1, h2⟩ := hrun
    subst h1 h2
    exact ⟨[], w, rfl, hw, by simp, hlive, rfl, by simp [ledger]⟩
  | cons r rest ih =>
    intro st w outs st2 hw hlive hreqs hrun hok
    simp only [WalletImpl.transactions] at hrun
    rcases hT : WalletImpl.Transaction env r st with _ | ⟨o, st1⟩
    · rw [hT] at hrun; cases hrun
    · rw [hT] at hrun
      simp only [] at hrun
      rcases hrest : WalletImpl.transactions env rest st1 with _ | ⟨os, st2'⟩
      · rw [hrest] at hrun; cases hrun
      · rw [hrest] at hrun
        simp only [Option.some.injEq, Prod.mk.injEq] at hrun
        obtain ⟨h1, h2⟩ := hrun
        subst h1 h2
        obtain ⟨res, ho⟩ : ∃ res, o = Outcome.ok res := by
          have := hok o (List.mem_cons_self _ _)
          cases o with
          | ok res => exact ⟨res, rfl⟩
          | err e => cases this
          | panic => cases this
        subst ho
        have hrw : r.WalletID = wid := hreqs r (List.mem_cons_self _ _)
        obtain ⟨a, hp, hab, hw1, hb, ha⟩ :=
          WalletImpl.Transaction_ok_facts env r st w (by rw [hrw]; exact hw) hlive res st1 hT
        rw [hrw] at hw1
        obtain ⟨amounts, w2, g1, g2, g3, g4, g5, g6⟩ :=
          ih st1 { w with Amount := w.Amount + a, UpdatedAt := some st.now } os st2' hw1 hlive
            (fun x hx => hreqs x (List.mem_cons_of_mem _ hx)) hrest
            (fun x hx => hok x (List.mem_cons_of_mem _ hx))
        refine ⟨a :: amounts, w2, ?_, g2, ?_, g4, ?_, ?_⟩
        · simp only [List.map_cons, hp, g1]
        · rw [g3, List.sum_cons]
          exact add_assoc _ _ _
        · simp only [List.map_cons, ledger, Outcome.amounts, hb, ha]
          exact congrArg _ g5
        · intro p hp2
          simp only [ledger, List.mem_cons] at hp2
          rcases hp2 with hp2 | hp2
          · rw [hp2]; exact hab
          · exact g6 p hp2

/-- However the store behaves, `Transaction` calls made one after another leave every
journal row that was stored before them as it was. -/
theorem WalletImpl.transactions_keep_record (env : Env) (id : Nat)
    (row : dbModels.TransactionRecordModel) :
    ∀ (reqs : List TransactionReq) (st : Database)
      (outs : List (Outcome TransactionRes)) (st2 : Database),
    st.committed.recordByID id = some row →
    WalletImpl.transactions env reqs st = some (outs, st2) →
    st2.committed.recordByID id = some row := by
  intro reqs
  induction reqs with
  | nil =>
    intro st outs st2 hrow hrun
    simp only [WalletImpl.transactions, Option.some.injEq, Prod.mk.injEq] at hrun
    rw [← hrun.2]; exact hrow
  | cons r rest ih =>
    intro st outs st2 hrow hrun
    simp only [WalletImpl.transactions] at hrun
    rcases hT : WalletImpl.Transaction env r st with _ | ⟨o, st1⟩
    · rw [hT] at hrun; cases hrun
    · rw [hT] at hrun
      simp only [] at hrun
      rcases hrest : WalletImpl.transactions env rest st1 with _ | ⟨os, st2'⟩
      · rw [hrest] at hrun; cases hrun
      · rw [hrest] at hrun
        simp only [Option.some.injEq, Prod.mk.injEq] at hrun
        rw [← hrun.2]
        exact ih st1 os st2'
          (WalletImpl.Transaction_keeps_record env r st id row hrow o st1 hT) hrest

theorem ledger_chain : ∀ (amounts : List Decimal) (start : Decimal),
    List.Chain' (fun p q : Decimal × Decimal => q.1 = p.2) (ledger start amounts) ∧
    ∀ p, (ledger start amounts).head? = some p → p.1 = start := by
  intro amounts
  induction amounts with
  | nil => intro start; simp [ledger]
  | cons a rest ih =>
    intro start
    obtain ⟨h1, h2⟩ := ih (start + a)
    refine ⟨?_, ?_⟩
    · simp only [ledger]
      rw [List.chain'_cons']
      exact ⟨fun y hy => h2 y (by simpa using hy), h1⟩
    · intro p hp
      simp only [ledger, List.head?_cons, Option.some.injEq] at hp
      rw [← hp]

/-- C15. For every sequence of `Transaction` calls run one after another against a wallet
freshly created by `CreateWallet`, all returning a result (status Success): the amounts of
the requests parse, the wallet's final amount equals their sum, and the calls return the
ledger of these amounts from 0: every returned AfterAmount is `≥ 0`, the first BeforeAmount
is 0, and each later call's BeforeAmount is the previous call's AfterAmount. -/
theorem C15_fresh_wallet_ledger (env : Env) (cw : CreateWalletReq) (st0 st1 : Database)
    (wid : Nat) (reqs : List TransactionReq) (outs : List (Outcome TransactionRes))
    (st2 : Database)
    (hcreate : WalletImpl.CreateWallet env cw st0 = (Outcome.ok ⟨wid⟩, st1))
    (hreqs : ∀ r ∈ reqs, r.WalletID = wid)
    (hrun : WalletImpl.transactions env reqs st1 = some (outs, st2))
    (hok : ∀ o ∈ outs, o.isOk = true) :
    ∃ amounts, reqs.map (fun r => env.NewFromString r.Amount) = amounts.map some ∧
      (st2.committed.walletByID wid).map (fun x => x.Amount) = some amounts.sum ∧
      outs.map Outcome.amounts = (ledger 0 amounts).map
        (fun p => some (env.DecimalString p.1, env.DecimalString p.2)) ∧
      (∀ p ∈ ledger 0 amounts, 0 ≤ p.2) ∧
      (∀ p, (ledger 0 amounts).head? = some p → p.1 = 0) ∧
      List.Chain' (fun p q : Decimal × Decimal => q.1 = p.2) (ledger 0 amounts) := by
  obtain ⟨-, -, -, -, h5, -⟩ := WalletImpl.CreateWallet_creates env cw st0 st1 wid hcreate
  obtain ⟨amounts, w2, g1, g2, g3, -, g5, g6⟩ :=
    WalletImpl.transactions_ledger env wid reqs st1 _ outs st2 h5 rfl hreqs hrun hok
  have h0 : (walletDao.created cw st0.now st0.committed.wallet).Amount = 0 := rfl
  rw [h0] at g3 g5 g6
  refine ⟨amounts, g1, ?_, g5, g6, (ledger_chain amounts 0).2, (ledger_chain amounts 0).1⟩
  rw [g2, Option.map_some', g3, zero_add]

/-- C15, at a fresh wallet that receives 100 and then gives 75: the calls return (0, 100)
and (100, 25), and the wallet ends at 25. -/
theorem C15_fresh_wallet_ledger_witness :
    (∃ outs st2, WalletImpl.transactions Scenario.env [Scenario.deposit100, Scenario.withdraw]
        (WalletImpl.CreateWallet Scenario.env Scenario.createUSD Scenario.empty).2 =
        some (outs, st2) ∧
      ∃ amounts, [Scenario.deposit100, Scenario.withdraw].map
          (fun r => Scenario.env.NewFromString r.Amount) = amounts.map some ∧
        (st2.committed.walletByID 1).map (fun x => x.Amount) = some amounts.sum ∧
        outs.map Outcome.amounts = (ledger 0 amounts).map
          (fun p => some (Scenario.env.DecimalString p.1, Scenario.env.DecimalString p.2)) ∧
        (∀ p ∈ ledger 0 amounts, 0 ≤ p.2) ∧
        (∀ p, (ledger 0 amounts).head? = some p → p.1 = 0) ∧
        List.Chain' (fun p q : Decimal × Decimal => q.1 = p.2) (ledger 0 amounts)) ∧
    (WalletImpl.transactions Scenario.env [Scenario.deposit100, Scenario.withdraw]
        (WalletImpl.CreateWallet Scenario.env Scenario.createUSD Scenario.empty).2).map
      (fun p => (p.1.map Outcome.amounts, p.2.committed.wallet.map (fun w => w.Amount))) =
      some ([some ("0", "100"), some ("100", "25")], [25]) := by
  have hs : (WalletImpl.transactions Scenario.env [Scenario.deposit100, Scenario.withdraw]
      (WalletImpl.CreateWallet Scenario.env Scenario.createUSD
        Scenario.empty).2).isSome = true := by decide
  exact ⟨⟨_, _, (Option.some_get hs).symm,
    C15_fresh_wallet_ledger Scenario.env Scenario.createUSD Scenario.empty
      (WalletImpl.CreateWallet Scenario.env Scenario.createUSD Scenario.empty).2 1
      [Scenario.deposit100, Scenario.withdraw] _ _ (by decide) (by decide)
      (Option.some_get hs).symm (by decide)⟩, by decide⟩

/-- C14. On a store that fails no call, let a `Transaction` of amount `a` succeed on a live
wallet that holds `b` (so `0 ≤ b + a`), let further `Transaction` calls on the same wallet
succeed after it, with amounts of total `s` (none at all: `s = 0`), and let the journal row
of the first call then be rolled back: `RollbackTransaction` succeeds and the wallet's
amount, which was `b + a` after the first call and `b + a + s` before the rollback, is
`b + s`; with nothing in between it is `b` again. -/
theorem C14_apply_then_rollback (env : Env) (req : TransactionReq) (st : Database)
    (w : dbModels.WalletModel) (a : Decimal) (res : TransactionRes) (st1 : Database)
    (more : List TransactionReq) (outs : List (Outcome TransactionRes)) (st2 : Database)
    (rollbacker : Nat) (remark : Option String)
    (hfault : ∀ c n, env.fault c n = none)
    (hparse : env.NewFromString req.Amount = some a)
    (hw : st.committed.walletByID req.WalletID = some w) (hlive : w.DeletedAt = none)
    (happly : WalletImpl.Transaction env req st = some (Outcome.ok res, st1))
    (hmore : ∀ r ∈ more, r.WalletID = req.WalletID)
    (hrun : WalletImpl.transactions env more st1 = some (outs, st2))
    (hok : ∀ o ∈ outs, o.isOk = true) :
    ∃ (amounts : List Decimal) (st3 : Database),
      more.map (fun r => env.NewFromString r.Amount) = amounts.map some ∧
      0 ≤ w.Amount + a ∧
      (st1.committed.walletByID req.WalletID).map (fun x => x.Amount) = some (w.Amount + a) ∧
      (st2.committed.walletByID req.WalletID).map (fun x => x.Amount) =
        some (w.Amount + a + amounts.sum) ∧
      WalletImpl.RollbackTransaction env ⟨res.Id, rollbacker, remark⟩ st2 =
        some (Outcome.ok ⟨⟩, st3) ∧
      (st3.committed.walletByID req.WalletID).map (fun x => x.Amount) =
        some (w.Amount + amounts.sum) ∧
      (more = [] → (st3.committed.walletByID req.WalletID).map (fun x => x.Amount) =
        some w.Amount) := by
  obtain ⟨a', hp', hab, hw1, -, -⟩ :=
    WalletImpl.Transaction_ok_facts env req st w hw hlive res st1 happly
  rw [hparse, Option.some.injEq] at hp'
  subst hp'
  have hE := WalletImpl.Transaction_eval_success env req st w a hparse hfault
    (by rw [hw]; rfl) hab
  rw [hE, Option.some.injEq, Prod.mk.injEq, Outcome.ok.injEq] at happly
  obtain ⟨hres, hst1⟩ := happly
  have hid : res.Id =
      (WalletImpl.Transaction.successRow req a w st.now st.committed.transaction_record).ID := by
    rw [← hres]; rfl
  have hrow1 : st1.committed.recordByID res.Id =
      some (WalletImpl.Transaction.successRow req a w st.now
        st.committed.transaction_record) := by
    rw [hid, ← hst1]
    exact Tables.recordByID_append _ _ _ (WalletImpl.Transaction.successRow_fresh _ _ _ _ _)
  obtain ⟨amounts, w2, g1, g2, g3, g4, -, -⟩ :=
    WalletImpl.transactions_ledger env req.WalletID more st1 _ outs st2 hw1 hlive hmore hrun
      hok
  have hrow2 := WalletImpl.transactions_keep_record env res.Id _ more st1 outs st2 hrow1 hrun
  obtain ⟨st3, row, hR, hamt, -⟩ :=
    WalletImpl.RollbackTransaction_success_facts env ⟨res.Id, rollbacker, remark⟩ st2
      (WalletImpl.Transaction.successRow req a w st.now st.committed.transaction_record) w2
      hfault hrow2 rfl g2 g4
  have hsum : w2.Amount - a = w.Amount + amounts.sum := by
    rw [g3]
    show w.Amount + a + amounts.sum - a = w.Amount + amounts.sum
    ring
  have hfinal : (st3.committed.walletByID req.WalletID).map (fun x => x.Amount) =
      some (w.Amount + amounts.sum) := by
    rw [← hsum]; exact hamt
  refine ⟨amounts, st3, g1, hab, by rw [hw1]; rfl, by rw [g2, Option.map_some', g3],
    hR, hfinal, ?_⟩
  intro hnil
  subst hnil
  have hnone : amounts = [] := by
    cases amounts with
    | nil => rfl
    | cons x xs => simp at g1
  rw [hfinal, hnone, List.sum_nil, add_zero]

/-- C14, at the wallet that holds 50: a deposit of 25, one more deposit of 25, then the
rollback of the first one leaves 75; the pair with nothing in between leaves 50. -/
theorem C14_apply_then_rollback_witness :
    (∃ (amounts : List Decimal) (st3 : Database),
      [Scenario.deposit].map (fun r => Scenario.env.NewFromString r.Amount) =
        amounts.map some ∧
      0 ≤ Scenario.wallet.Amount + 25 ∧
      (Scenario.afterDeposit.committed.walletByID 1).map (fun x => x.Amount) =
        some (Scenario.wallet.Amount + 25) ∧
      (Scenario.afterDeposits.committed.walletByID 1).map (fun x => x.Amount) =
        some (Scenario.wallet.Amount + 25 + amounts.sum) ∧
      WalletImpl.RollbackTransaction Scenario.env ⟨1, 3, none⟩ Scenario.afterDeposits =
        some (Outcome.ok ⟨⟩, st3) ∧
      (st3.committed.walletByID 1).map (fun x => x.Amount) =
        some (Scenario.wallet.Amount + amounts.sum) ∧
      ([Scenario.deposit] = [] → (st3.committed.walletByID 1).map (fun x => x.Amount) =
        some Scenario.wallet.Amount)) ∧
    (WalletImpl.serve Scenario.env
        [Request.transaction Scenario.deposit, Request.transaction Scenario.deposit,
          Request.rollback Scenario.rollbackFirst]
        Scenario.st).map (fun st => st.committed.wallet.map (fun w => w.Amount)) =
      some [75] ∧
    (WalletImpl.serve Scenario.env
        [Request.transaction Scenario.deposit, Request.rollback Scenario.rollbackFirst]
        Scenario.st).map (fun st => st.committed.wallet.map (fun w => w.Amount)) =
      some [50] :=
  ⟨C14_apply_then_rollback Scenario.env Scenario.deposit Scenario.st Scenario.wallet 25
      ⟨1, "50", "75", "USD", dbModels.TransactionStatus_Success, 1700000000, 1700000000⟩
      Scenario.afterDeposit [Scenario.deposit]
      [Outcome.ok
        ⟨2, "75", "100", "USD", dbModels.TransactionStatus_Success, 1700000000, 1700000000⟩]
      Scenario.afterDeposits 3 none (fun _ _ => rfl) (by decide) (by decide) (by decide)
      (by decide) (by decide) (by decide) (by decide),
    by decide, by decide⟩

/-! ## The read side -/

theorem gorm.ScanAll_ok {α : Type} (env : Env) (db : gorm.DB) (table : gorm.TableRef α)
    (s : gorm.Statement α) (st : Database) (t : Tables)
    (hv : gorm.view db st = some t)
    (hf : env.fault ⟨Verb.Scan, table.name⟩ st.trace.length = none) :
    gorm.ScanAll env db table s st =
      (⟨none, (s.rows (table.get t)).length, s.rows (table.get t)⟩,
        { st with trace := ⟨Verb.Scan, table.name⟩ :: st.trace }) := by
  simp [gorm.ScanAll, gorm.connect, hv, hf]

theorem gorm.ScanAll_fault {α : Type} (env : Env) (db : gorm.DB) (table : gorm.TableRef α)
    (s : gorm.Statement α) (st : Database) (t : Tables) (e : StoreFault)
    (hv : gorm.view db st = some t)
    (hf : env.fault ⟨Verb.Scan, table.name⟩ st.trace.length = some e) :
    gorm.ScanAll env db table s st =
      (⟨some e, 0, []⟩, { st with trace := ⟨Verb.Scan, table.name⟩ :: st.trace }) := by
  simp [gorm.ScanAll, gorm.connect, hv, hf]

/-- The rows a statement selects are rows of the table, and each meets every condition of
the statement. -/
theorem gorm.Statement.mem_rows {α : Type} (s : gorm.Statement α) (table : List α) (r : α)
    (h : r ∈ s.rows table) : r ∈ table ∧ ∀ c ∈ s.Where, c r = true := by
  have hfilter : r ∈ table.filter (fun r => s.Where.all (fun c => c r)) := by
    simp only [gorm.Statement.rows] at h
    rcases hl : s.Limit with _ | n <;> rcases ho : s.Offset with _ | m <;>
      simp only [hl, ho] at h
    · exact h
    · exact List.mem_of_mem_drop h
    · exact List.mem_of_mem_take h
    · exact List.mem_of_mem_drop (List.mem_of_mem_take h)
  rw [List.mem_filter] at hfilter
  exact ⟨hfilter.1, fun c hc => (List.all_eq_true.mp hfilter.2) c hc⟩

/-- C26 (what the code does). `queryChain` of `walletDao` applies `idInScope` and
`memberIDInScope` only: `currencyEqualScope` is defined but never called, so the `Currency`
of a `QueryModel` never reaches the statement, and `GetWallets` returns for a member id and
a currency what it returns for the member id alone. -/
theorem C26_currency_filter_not_applied (env : Env) (req : GetWalletsReq) (st : Database) :
    (∀ (q : walletDao.QueryModel) (db : gorm.Statement dbModels.WalletModel),
      walletDao.queryChain q db = walletDao.queryChain { q with Currency := none } db) ∧
    WalletImpl.GetWallets env req st =
      WalletImpl.GetWallets env { req with Currency := none } st := by
  refine ⟨fun _ _ => rfl, ?_⟩
  obtain ⟨w, c⟩ := req
  cases w <;> rfl

/-- C26, at the request for the USD wallets of member 7, who has one wallet in USD and
one in EUR: both are returned. -/
theorem C26_currency_filter_not_applied_witness :
    (WalletImpl.GetWallets Scenario.env Scenario.getUSDOfMember Scenario.stWallets).1 =
      Outcome.ok ⟨[⟨1, 7, "50", "USD", 1700000000, 1700000000⟩,
        ⟨2, 7, "30", "EUR", 1700000100, 1700000100⟩]⟩ ∧
    WalletImpl.GetWallets Scenario.env Scenario.getUSDOfMember Scenario.stWallets =
      WalletImpl.GetWallets Scenario.env
        { Scenario.getUSDOfMember with Currency := none } Scenario.stWallets :=
  ⟨by decide,
    (C26_currency_filter_not_applied Scenario.env Scenario.getUSDOfMember
      Scenario.stWallets).2⟩

theorem mapM_some_mem {α β : Type} (f : α → Option β) :
    ∀ (l : List α) (ws : List β), l.mapM f = some ws → ∀ w ∈ ws, ∃ m ∈ l, f m = some w := by
  intro l
  induction l with
  | nil =>
    intro ws h w hw
    rw [List.mapM_nil] at h
    cases h
    cases hw
  | cons a l ih =>
    intro ws h w hw
    rw [List.mapM_cons] at h
    rcases hfa : f a with _ | b
    · rw [hfa] at h; cases h
    · rcases hl : l.mapM f with _ | bs
      · rw [hfa, hl] at h; cases h
      · rw [hfa, hl] at h
        have hws : ws = b :: bs := by cases h; rfl
        subst hws
        rcases List.mem_cons.mp hw with hw | hw
        · subst hw
          exact ⟨a, List.mem_cons_self _ _, hfa⟩
        · obtain ⟨m, hm, hfm⟩ := ih bs hl w hw
          exact ⟨m, List.mem_cons_of_mem _ hm, hfm⟩

/-- The rows `walletDao.Gets` hands back on the process-wide handle are stored rows. -/
theorem walletDao_Gets_mem (env : Env) (q : walletDao.QueryModel) (st st1 : Database)
    (models : List dbModels.WalletModel)
    (h : walletDao.Gets env gorm.DB.pool q st = (Except.ok models, st1)) :
    ∀ m ∈ models, m ∈ st.committed.wallet := by
  simp only [walletDao.Gets] at h
  rcases hf : env.fault ⟨Verb.Scan, walletTable.name⟩ st.trace.length with _ | e
  · rw [gorm.ScanAll_ok env gorm.DB.pool walletTable _ st st.committed
      (by simp [gorm.view]) hf] at h
    simp only [Prod.mk.injEq, Except.ok.injEq] at h
    intro m hm
    rw [← h.1] at hm
    exact (gorm.Statement.mem_rows _ _ m hm).1
  · rw [gorm.ScanAll_fault env gorm.DB.pool walletTable _ st st.committed e
      (by simp [gorm.view]) hf] at h
    cases e with
    | ErrRecordNotFound =>
      simp only [Prod.mk.injEq, Except.ok.injEq] at h
      intro m hm
      rw [← h.1] at hm
      cases hm
    | ErrTxDone => simp at h
    | other code => simp at h

/-- C28 (what the code does). Every entry of a `GetWallets` response comes from a stored
wallet row and carries its id, member id and currency, its amount in string form and its
`created_at` in Unix seconds; `UpdatedAt` is filled from `m.CreatedAt.Unix()` as well, so it
is the row's `created_at`, not its `updated_at`. -/
theorem C28_updated_at_is_created_at (env : Env) (req : GetWalletsReq) (st st1 : Database)
    (res : GetWalletsRes)
    (h : WalletImpl.GetWallets env req st = (Outcome.ok res, st1)) :
    ∀ w ∈ res.Wallets, ∃ m ∈ st.committed.wallet, ∃ createdAt, m.CreatedAt = some createdAt ∧
      w.Id = m.ID ∧ w.MemberID = m.MemberID ∧ w.Currency = m.Currency ∧
      w.Amount = env.DecimalString m.Amount ∧
      w.CreatedAt = createdAt.Unix ∧ w.UpdatedAt = createdAt.Unix := by
  simp only [WalletImpl.GetWallets] at h
  rcases hg : walletDao.Gets env gorm.DB.pool (WalletImpl.GetWallets.query req) st with
    ⟨r, st2⟩
  rw [hg] at h
  rcases r with e | models
  · simp at h
  · simp only [] at h
    rcases hm : models.mapM (WalletImpl.GetWallets.entry env) with _ | ws
    · rw [hm] at h; simp at h
    · rw [hm] at h
      simp only [Prod.mk.injEq, Outcome.ok.injEq] at h
      intro w hw
      rw [← h.1] at hw
      obtain ⟨m, hmem, hentry⟩ := mapM_some_mem _ models ws hm w hw
      refine ⟨m, walletDao_Gets_mem env _ st st2 models hg m hmem, ?_⟩
      simp only [WalletImpl.GetWallets.entry] at hentry
      rcases hc : m.CreatedAt with _ | createdAt
      · rw [hc] at hentry; cases hentry
      · rw [hc] at hentry
        simp only [Option.some.injEq] at hentry
        subst hentry
        exact ⟨createdAt, rfl, rfl, rfl, rfl, rfl, rfl, rfl⟩

/-- C28, at the request for wallet 1, created at 1700000000 and last updated at
1700000600: the entry says 1700000000 for both. -/
theorem C28_updated_at_is_created_at_witness :
    (Scenario.stWallets.committed.wallet.map
      (fun m => (m.ID, m.CreatedAt.map Time.Unix, m.UpdatedAt.map Time.Unix))) =
      [(1, some 1700000000, some 1700000600), (2, some 1700000100, some 1700000100)] ∧
    (WalletImpl.GetWallets Scenario.env Scenario.getWalletOne Scenario.stWallets).1 =
      Outcome.ok ⟨[⟨1, 7, "50", "USD", 1700000000, 1700000000⟩]⟩ ∧
    ∀ w ∈ [(⟨1, 7, "50", "USD", 1700000000, 1700000000⟩ : Wallet)],
      ∃ m ∈ Scenario.stWallets.committed.wallet, ∃ createdAt, m.CreatedAt = some createdAt ∧
        w.Id = m.ID ∧ w.MemberID = m.MemberID ∧ w.Currency = m.Currency ∧
        w.Amount = Scenario.env.DecimalString m.Amount ∧
        w.CreatedAt = createdAt.Unix ∧ w.UpdatedAt = createdAt.Unix :=
  ⟨by decide, by decide,
    C28_updated_at_is_created_at Scenario.env Scenario.getWalletOne Scenario.stWallets
      (WalletImpl.GetWallets Scenario.env Scenario.getWalletOne Scenario.stWallets).2
      ⟨[⟨1, 7, "50", "USD", 1700000000, 1700000000⟩]⟩ (by decide)⟩

theorem gorm.Count_ok {α : Type} (env : Env) (db : gorm.DB) (table : gorm.TableRef α)
    (s : gorm.Statement α) (st : Database) (t : Tables)
    (hv : gorm.view db st = some t)
    (hf : env.fault ⟨Verb.Count, table.name⟩ st.trace.length = none) :
    gorm.Count env db table s st =
      (⟨none, 0, ((s.rows (table.get t)).length : Int)⟩,
        { st with trace := ⟨Verb.Count, table.name⟩ :: st.trace }) := by
  simp [gorm.Count, gorm.connect, hv, hf]

theorem gorm.Count_fault {α : Type} (env : Env) (db : gorm.DB) (table : gorm.TableRef α)
    (s : gorm.Statement α) (st : Database) (t : Tables) (e : StoreFault)
    (hv : gorm.view db st = some t)
    (hf : env.fault ⟨Verb.Count, table.name⟩ st.trace.length = some e) :
    gorm.Count env db table s st =
      (⟨some e, 0, 0⟩, { st with trace := ⟨Verb.Count, table.name⟩ :: st.trace }) := by
  simp [gorm.Count, gorm.connect, hv, hf]

/-- The rows `GetsWithPagination` hands back on the process-wide handle are stored rows
that meet every condition of the paginated statement. -/
theorem transactionRecordDao_GetsWithPagination_mem (env : Env)
    (G : Option general.Pagination → Int × Int) (q : transactionRecordDao.QueryModel)
    (paginate : Option general.Pagination) (st st1 : Database)
    (models : List dbModels.TransactionRecordModel) (info : general.PaginationInfo)
    (h : transactionRecordDao.GetsWithPagination env G gorm.DB.pool q paginate st =
      (some (Except.ok (models, info)), st1)) :
    ∀ m ∈ models, m ∈ st.committed.transaction_record ∧
      ∀ c ∈ (transactionRecordDao.paginateChain G paginate
        (transactionRecordDao.queryChain q
          (gorm.Statement.table dbModels.TransactionRecordModel))).Where, c m = true := by
  simp only [transactionRecordDao.GetsWithPagination] at h
  rcases paginate with _ | p
  · simp at h
  · rcases hc : env.fault ⟨Verb.Count, transactionRecordTable.name⟩ st.trace.length with _ | e
    · rw [gorm.Count_ok env gorm.DB.pool transactionRecordTable _ st st.committed
        (by simp [gorm.view]) hc] at h
      simp only [] at h
      rcases hs : env.fault ⟨Verb.Scan, transactionRecordTable.name⟩
          (st.trace.length + 1) with _ | e
      · rw [gorm.ScanAll_ok env gorm.DB.pool transactionRecordTable _ _ st.committed
          (by simp [gorm.view]) (by simpa using hs)] at h
        simp only [Prod.mk.injEq, Option.some.injEq, Except.ok.injEq] at h
        intro m hm
        rw [← h.1.1] at hm
        exact gorm.Statement.mem_rows _ _ m hm
      · rw [gorm.ScanAll_fault env gorm.DB.pool transactionRecordTable _ _ st.committed e
          (by simp [gorm.view]) (by simpa using hs)] at h
        cases e with
        | ErrRecordNotFound =>
          simp only [Prod.mk.injEq, Option.some.injEq, Except.ok.injEq] at h
          intro m hm
          rw [← h.1.1] at hm
          cases hm
        | ErrTxDone => simp at h
        | other code => simp at h
    · rw [gorm.Count_fault env gorm.DB.pool transactionRecordTable _ st st.committed e
        (by simp [gorm.view]) hc] at h
      cases e with
      | ErrRecordNotFound =>
        simp only [Prod.mk.injEq, Option.some.injEq, Except.ok.injEq] at h
        intro m hm
        rw [← h.1.1] at hm
        cases hm
      | ErrTxDone => simp at h
      | other code => simp at h

/-- The scopes that `queryChain` applies after `rollbackerIDEqualScope`, and those of
`paginateChain`, keep every condition the statement already holds. -/
theorem transactionRecordDao_later_scopes_keep (q : transactionRecordDao.QueryModel)
    (G : Option general.Pagination → Int × Int) (paginate : Option general.Pagination)
    (db : gorm.Statement dbModels.TransactionRecordModel)
    (c : dbModels.TransactionRecordModel → Bool) (hc : c ∈ db.Where) :
    c ∈ (transactionRecordDao.paginateChain G paginate
      (transactionRecordDao.orderByScope q.OrderBy
        (transactionRecordDao.createdBetweenScope q.CreatedFrom q.CreatedTo
          (transactionRecordDao.actionInScope q.Action
            (transactionRecordDao.statusInScope q.Status
              (transactionRecordDao.currencyInScope q.Currency db)))))).Where := by
  have h1 : c ∈ (transactionRecordDao.currencyInScope q.Currency db).Where := by
    unfold transactionRecordDao.currencyInScope
    split
    · exact List.mem_append_left _ hc
    · exact hc
  have h2 : c ∈ (transactionRecordDao.statusInScope q.Status
      (transactionRecordDao.currencyInScope q.Currency db)).Where := by
    unfold transactionRecordDao.statusInScope
    split
    · exact List.mem_append_left _ h1
    · exact h1
  have h3 : c ∈ (transactionRecordDao.actionInScope q.Action
      (transactionRecordDao.statusInScope q.Status
        (transactionRecordDao.currencyInScope q.Currency db))).Where := by
    unfold transactionRecordDao.actionInScope
    split
    · exact List.mem_append_left _ h2
    · exact h2
  have h4 : c ∈ (transactionRecordDao.createdBetweenScope q.CreatedFrom q.CreatedTo
      (transactionRecordDao.actionInScope q.Action
        (transactionRecordDao.statusInScope q.Status
          (transactionRecordDao.currencyInScope q.Currency db)))).Where := by
    unfold transactionRecordDao.createdBetweenScope
    split
    · exact List.mem_append_left _ h3
    · exact h3
  have h5 : c ∈ (transactionRecordDao.orderByScope q.OrderBy
      (transactionRecordDao.createdBetweenScope q.CreatedFrom q.CreatedTo
        (transactionRecordDao.actionInScope q.Action
          (transactionRecordDao.statusInScope q.Status
            (transactionRecordDao.currencyInScope q.Currency db))))).Where := h4
  unfold transactionRecordDao.paginateChain transactionRecordDao.limitScope
    transactionRecordDao.offsetScope
  split <;> split <;> exact h5

/-- C27 (what the code does). The condition `rollbackerIDEqualScope` builds is
`transaction_record.committer_id = ?`: it is the condition of `committerIDEqualScope`.  So
every record `GetTransactionRecords` returns for a rollbacker filter `r` is a stored row
whose committer id is `r`; its rollbacker id is not looked at. -/
theorem C27_rollbacker_filter_reads_committer (env : Env)
    (G : Option general.Pagination → Int × Int) (req : GetTransactionRecordsReq)
    (st st1 : Database) (res : GetTransactionRecordsRes) (r : Nat)
    (hr : req.RollbackerID = some r)
    (h : WalletImpl.GetTransactionRecords env G req st = (Outcome.ok res, st1)) :
    (∀ v db, transactionRecordDao.rollbackerIDEqualScope v db =
      transactionRecordDao.committerIDEqualScope v db) ∧
    ∀ record ∈ res.Records, ∃ m ∈ st.committed.transaction_record,
      record = WalletImpl.GetTransactionRecords.entry env m ∧ m.CommitterID = r := by
  refine ⟨fun _ _ => rfl, ?_⟩
  simp only [WalletImpl.GetTransactionRecords] at h
  rcases hg : transactionRecordDao.GetsWithPagination env G gorm.DB.pool
    (WalletImpl.GetTransactionRecords.query req) req.Pagination st with ⟨x, st2⟩
  rw [hg] at h
  rcases x with _ | (e | ⟨models, info⟩)
  · simp at h
  · simp at h
  · simp only [Prod.mk.injEq, Outcome.ok.injEq] at h
    intro record hrec
    rw [← h.1] at hrec
    simp only [List.mem_map] at hrec
    obtain ⟨m, hm, hmr⟩ := hrec
    obtain ⟨hmem, hcond⟩ :=
      transactionRecordDao_GetsWithPagination_mem env G _ _ st st2 models info hg m hm
    refine ⟨m, hmem, hmr.symm, ?_⟩
    have hc := hcond (fun x => decide (x.CommitterID = r))
      (by
        simp only [transactionRecordDao.queryChain]
        apply transactionRecordDao_later_scopes_keep
        simp [transactionRecordDao.rollbackerIDEqualScope, WalletImpl.GetTransactionRecords.query,
          hr])
    simpa using hc

/-- C27, at the request for the rows rolled back by 3 over a journal whose row 1 was
committed by 9 and rolled back by 3 and whose row 2 was committed by 3 and never rolled
back: row 2 is returned, row 1 is not. -/
theorem C27_rollbacker_filter_reads_committer_witness :
    (Scenario.stJournal.committed.transaction_record.map
      (fun m => (m.ID, m.CommitterID, m.RollbackerID))) = [(1, 9, some 3), (2, 3, none)] ∧
    (match (WalletImpl.GetTransactionRecords Scenario.env Scenario.GetOffsetAndLimit
        Scenario.rolledBackByThree Scenario.stJournal).1 with
      | Outcome.ok res => res.Records.map (fun x => (x.Id, x.CommitterID, x.RollbackerID))
      | _ => []) = [(2, 3, none)] ∧
    ((∀ v db, transactionRecordDao.rollbackerIDEqualScope v db =
      transactionRecordDao.committerIDEqualScope v db) ∧
    ∀ record ∈ [WalletImpl.GetTransactionRecords.entry Scenario.env
        Scenario.committedByThree],
      ∃ m ∈ Scenario.stJournal.committed.transaction_record,
        record = WalletImpl.GetTransactionRecords.entry Scenario.env m ∧ m.CommitterID = 3) :=
  ⟨by decide, by decide,
    C27_rollbacker_filter_reads_committer Scenario.env Scenario.GetOffsetAndLimit
      Scenario.rolledBackByThree Scenario.stJournal
      (WalletImpl.GetTransactionRecords Scenario.env Scenario.GetOffsetAndLimit
        Scenario.rolledBackByThree Scenario.stJournal).2
      ⟨[WalletImpl.GetTransactionRecords.entry Scenario.env Scenario.committedByThree],
        ⟨1, 10, 1, 0⟩⟩ 3 rfl (by decide)⟩

/-- C29 (what the code does). For `offset > 0` and `limit > 0`, `offsetScope` of either DAO
calls `db.Limit(offset)`: it sets the LIMIT of the query and leaves its OFFSET untouched.
`limitScope` then replaces that LIMIT, so `paginateChain` yields the query with
`LIMIT limit` and no new OFFSET: on a statement without its own it returns the first
`limit` rows selected and skips none. -/
theorem C29_offset_scope_sets_limit (G : Option general.Pagination → Int × Int)
    (paginate : Option general.Pagination) (offset limit : Int)
    (hG : G paginate = (offset, limit)) (hoffset : 0 < offset) (hlimit : 0 < limit) :
    (∀ db : gorm.Statement dbModels.TransactionRecordModel,
      transactionRecordDao.offsetScope offset db = { db with Limit := some offset }) ∧
    (∀ db : gorm.Statement dbModels.WalletModel,
      walletDao.offsetScope offset db = { db with Limit := some offset }) ∧
    (∀ db : gorm.Statement dbModels.TransactionRecordModel,
      transactionRecordDao.paginateChain G paginate db = { db with Limit := some limit }) ∧
    (∀ db : gorm.Statement dbModels.WalletModel,
      walletDao.paginateChain G paginate db = { db with Limit := some limit }) ∧
    (∀ (db : gorm.Statement dbModels.TransactionRecordModel) table, db.Limit = none →
      db.Offset = none → (transactionRecordDao.paginateChain G paginate db).rows table =
        (db.rows table).take limit.toNat) ∧
    (∀ (db : gorm.Statement dbModels.WalletModel) table, db.Limit = none →
      db.Offset = none → (walletDao.paginateChain G paginate db).rows table =
        (db.rows table).take limit.toNat) := by
  have h1 : ∀ db : gorm.Statement dbModels.TransactionRecordModel,
      transactionRecordDao.offsetScope offset db = { db with Limit := some offset } := by
    intro db
    simp only [transactionRecordDao.offsetScope]
    rw [if_pos hoffset]
  have h2 : ∀ db : gorm.Statement dbModels.WalletModel,
      walletDao.offsetScope offset db = { db with Limit := some offset } := by
    intro db
    simp only [walletDao.offsetScope]
    rw [if_pos hoffset]
  have h3 : ∀ db : gorm.Statement dbModels.TransactionRecordModel,
      transactionRecordDao.paginateChain G paginate db = { db with Limit := some limit } := by
    intro db
    simp only [transactionRecordDao.paginateChain, hG, h1, transactionRecordDao.limitScope]
    rw [if_pos hlimit]
  have h4 : ∀ db : gorm.Statement dbModels.WalletModel,
      walletDao.paginateChain G paginate db = { db with Limit := some limit } := by
    intro db
    simp only [walletDao.paginateChain, hG, h2, walletDao.limitScope]
    rw [if_pos hlimit]
  refine ⟨h1, h2, h3, h4, ?_, ?_⟩
  · intro db table hl ho
    rw [h3]
    simp only [gorm.Statement.rows, hl, ho]
  · intro db table hl ho
    rw [h4]
    simp only [gorm.Statement.rows, hl, ho]

/-- C29, at the second page of size one (offset 1, limit 1): the query has `LIMIT 1` and no
OFFSET, so over the two wallets it selects wallet 1, and `GetTransactionRecords` answers
with journal row 1, the row the page should have skipped. -/
theorem C29_offset_scope_sets_limit_witness :
    ((walletDao.paginateChain Scenario.GetOffsetAndLimit (some ⟨2, 1⟩)
        (gorm.Statement.table dbModels.WalletModel)).rows
      [Scenario.usdWallet, Scenario.eurWallet]).map (fun w => w.ID) = [1] ∧
    (match (WalletImpl.GetTransactionRecords Scenario.env Scenario.GetOffsetAndLimit
        Scenario.secondPage Scenario.stJournal).1 with
      | Outcome.ok res => res.Records.map (fun x => x.Id)
      | _ => []) = [1] ∧
    (walletDao.paginateChain Scenario.GetOffsetAndLimit (some ⟨2, 1⟩)
        (gorm.Statement.table dbModels.WalletModel)).Limit = some 1 ∧
    (walletDao.paginateChain Scenario.GetOffsetAndLimit (some ⟨2, 1⟩)
        (gorm.Statement.table dbModels.WalletModel)).Offset = none ∧
    ∀ (db : gorm.Statement dbModels.WalletModel) table, db.Limit = none →
      db.Offset = none →
      (walletDao.paginateChain Scenario.GetOffsetAndLimit (some ⟨2, 1⟩) db).rows table =
        (db.rows table).take (1 : Int).toNat :=
  ⟨by decide, by decide, by decide, by decide,
    (C29_offset_scope_sets_limit Scenario.GetOffsetAndLimit (some ⟨2, 1⟩) 1 1 (by decide)
      (by decide) (by decide)).2.2.2.2.2⟩

/-- C30. `createdBetweenScope` adds its condition only when both bounds are given: with
`CreatedFrom` alone or `CreatedTo` alone it returns the statement as it is, and
`GetTransactionRecords` answers as with neither bound.  With both bounds given in Unix
seconds `x` and `y`, the bounds the query holds and hands to `created_at BETWEEN ? AND ?`
are the instants `time.Unix(x, 10)` and `time.Unix(y, 10)`, 10 nanoseconds after the given
seconds.  The store compares to the microsecond, where these two instants are the seconds
`x` and `y` themselves: the rows selected are those created from `x` to `y`, both
included. -/
theorem C30_created_filter_needs_both_bounds (env : Env)
    (G : Option general.Pagination → Int × Int) (req : GetTransactionRecordsReq)
    (st : Database) (x y : Int) :
    WalletImpl.GetTransactionRecords env G
        { req with CreatedFrom := some x, CreatedTo := none } st =
      WalletImpl.GetTransactionRecords env G
        { req with CreatedFrom := none, CreatedTo := none } st ∧
    WalletImpl.GetTransactionRecords env G
        { req with CreatedFrom := none, CreatedTo := some y } st =
      WalletImpl.GetTransactionRecords env G
        { req with CreatedFrom := none, CreatedTo := none } st ∧
    (∀ a db, transactionRecordDao.createdBetweenScope (some a) none db = db) ∧
    (∀ b db, transactionRecordDao.createdBetweenScope none (some b) db = db) ∧
    (WalletImpl.GetTransactionRecords.query
      { req with CreatedFrom := some x, CreatedTo := some y }).CreatedFrom = some ⟨x, 10⟩ ∧
    (WalletImpl.GetTransactionRecords.query
      { req with CreatedFrom := some x, CreatedTo := some y }).CreatedTo = some ⟨y, 10⟩ ∧
    (∀ db, transactionRecordDao.createdBetweenScope (some ⟨x, 10⟩) (some ⟨y, 10⟩) db =
      { db with Where := db.Where ++
        [fun r => Time.le ⟨x, 10⟩ r.CreatedAt && Time.le r.CreatedAt ⟨y, 10⟩] }) ∧
    ∀ createdAt : Time,
      (Time.le ⟨x, 10⟩ createdAt && Time.le createdAt ⟨y, 10⟩) =
        (decide (x * 1000000 ≤ createdAt.micros) && decide (createdAt.micros ≤ y * 1000000)) := by
  refine ⟨rfl, rfl, fun _ _ => rfl, fun _ _ => rfl, rfl, rfl, fun _ => rfl, ?_⟩
  intro createdAt
  have hx : (⟨x, 10⟩ : Time).micros = x * 1000000 := by
    simp [Time.micros]
  have hy : (⟨y, 10⟩ : Time).micros = y * 1000000 := by
    simp [Time.micros]
  simp only [Time.le, hx, hy]

/-- C30, over the journal whose rows were created at 1700000000 and at 1700000100 (on the
second): a lower bound alone, or an upper bound alone, filters nothing; the bounds
1700000050 and 1700000200 select row 2; so do the bounds 1700000100 and 1700000200, row 2
being created on the second of the lower bound; the bounds 1700000101 and 1700000200 select
no row. -/
theorem C30_created_filter_needs_both_bounds_witness :
    (match (WalletImpl.GetTransactionRecords Scenario.env Scenario.GetOffsetAndLimit
        { Scenario.wholeJournal with CreatedFrom := some 1700000050 } Scenario.stJournal).1 with
      | Outcome.ok res => res.Records.map (fun r => r.Id)
      | _ => []) = [1, 2] ∧
    (match (WalletImpl.GetTransactionRecords Scenario.env Scenario.GetOffsetAndLimit
        { Scenario.wholeJournal with CreatedTo := some 1700000050 } Scenario.stJournal).1 with
      | Outcome.ok res => res.Records.map (fun r => r.Id)
      | _ => []) = [1, 2] ∧
    (match (WalletImpl.GetTransactionRecords Scenario.env Scenario.GetOffsetAndLimit
        { Scenario.wholeJournal with CreatedFrom := some 1700000050,
                                     CreatedTo := some 1700000200 }
        Scenario.stJournal).1 with
      | Outcome.ok res => res.Records.map (fun r => r.Id)
      | _ => []) = [2] ∧
    (match (WalletImpl.GetTransactionRecords Scenario.env Scenario.GetOffsetAndLimit
        { Scenario.wholeJournal with CreatedFrom := some 1700000100,
                                     CreatedTo := some 1700000200 }
        Scenario.stJournal).1 with
      | Outcome.ok res => res.Records.map (fun r => r.Id)
      | _ => []) = [2] ∧
    (match (WalletImpl.GetTransactionRecords Scenario.env Scenario.GetOffsetAndLimit
        { Scenario.wholeJournal with CreatedFrom := some 1700000000,
                                     CreatedTo := some 1700000100 }
        Scenario.stJournal).1 with
      | Outcome.ok res => res.Records.map (fun r => r.Id)
      | _ => []) = [1, 2] ∧
    (match (WalletImpl.GetTransactionRecords Scenario.env Scenario.GetOffsetAndLimit
        { Scenario.wholeJournal with CreatedFrom := some 1700000101,
                                     CreatedTo := some 1700000200 }
        Scenario.stJournal).1 with
      | Outcome.ok res => res.Records.map (fun r => r.Id)
      | _ => []) = [] ∧
    WalletImpl.GetTransactionRecords Scenario.env Scenario.GetOffsetAndLimit
        { Scenario.wholeJournal with CreatedFrom := some 1700000050, CreatedTo := none }
        Scenario.stJournal =
      WalletImpl.GetTransactionRecords Scenario.env Scenario.GetOffsetAndLimit
        { Scenario.wholeJournal with CreatedFrom := none, CreatedTo := none }
        Scenario.stJournal :=
  ⟨by decide, by decide, by decide, by decide, by decide, by decide,
    (C30_created_filter_needs_both_bounds Scenario.env Scenario.GetOffsetAndLimit
      Scenario.wholeJournal Scenario.stJournal 1700000050 0).1⟩

/-! ## Conflicts during a rollback -/

/-- When every conditional update is answered by `ErrRecordNotFound` and every read of the
wallet succeeds, the loop of `RollbackTransaction` makes the attempts that are left up to
the eleventh, then gives up with `ErrUpdateWalletInterrupted`; it has written nothing. -/
theorem WalletImpl.RollbackTransaction_loop_conflicts (env : Env)
    (record : dbModels.TransactionRecordModel) (t : Tables)
    (hread : ∀ n, env.fault walletScan n = none)
    (hcas : ∀ n, env.fault walletUpdates n = some StoreFault.ErrRecordNotFound) :
    ∀ (fuel retryCount : Nat) (st : Database), retryCount ≤ 11 → 12 ≤ fuel + retryCount →
    0 < fuel → st.pending = some t →
    ∃ st', WalletImpl.RollbackTransaction.loop env record gorm.DB.began fuel retryCount st =
        some (WalletImpl.LoopExit.returned Error.ErrUpdateWalletInterrupted, st') ∧
      st'.committed = st.committed ∧ st'.pending = some t ∧ st'.now = st.now ∧
      st'.trace.count walletUpdates = st.trace.count walletUpdates + (11 - retryCount) ∧
      st'.trace.count recordUpdates = st.trace.count recordUpdates := by
  obtain ⟨c1, c2, c3, c4, c5, c6⟩ := count_calls
  intro fuel
  induction fuel with
  | zero => intro rc st _ _ h; omega
  | succ fuel ih =>
    intro rc st h1 h2 _ hp
    simp only [WalletImpl.RollbackTransaction.loop]
    by_cases hrc : rc > 10
    · rw [if_pos hrc]
      exact ⟨_, rfl, rfl, hp, rfl, by omega, rfl⟩
    · rw [if_neg hrc,
        walletDao_Get_ok env gorm.DB.began record.WalletID st t (by simp [gorm.view, hp])
          (hread _)]
      simp only []
      rw [walletDao_Modify_fault env gorm.DB.began _ _ _ t StoreFault.ErrRecordNotFound
          (by simp [gorm.view, hp]) (hcas _)]
      simp only []
      obtain ⟨st', h3, h4, h5, h6, h7, h8⟩ := ih (rc + 1)
        { st with trace := walletUpdates :: walletScan :: st.trace } (by omega) (by omega)
        (by omega) hp
      refine ⟨st', h3, h4, h5, h6, ?_, ?_⟩
      · rw [h7]; simp only [c3, c1]; omega
      · rw [h8]
        simp [List.count_cons, walletScan, walletUpdates, recordUpdates]

/-- C22. When the read of the journal row succeeds and finds it in status Success, every
read of the wallet succeeds and every conditional update of a `RollbackTransaction` meets a
conflict (the store answers `ErrRecordNotFound`), the call makes eleven attempts and returns
`ErrUpdateWalletInterrupted`; it has issued no update of the journal, and the committed
tables are as before: the journal row is the same row (status Success, its `rollback_*`
fields and `rollbacker_id` as they were, unset for a row never rolled back) and the
wallet's amount is unchanged. -/
theorem C22_rollback_conflicts_exhausted (env : Env) (req : RollbackTransactionReq)
    (st : Database) (r : dbModels.TransactionRecordModel)
    (hrecord : env.fault recordScan st.trace.length = none)
    (hr : st.committed.recordByID req.Id = some r)
    (hs : r.Status = dbModels.TransactionStatus_Success)
    (hread : ∀ n, env.fault walletScan n = none)
    (hcas : ∀ n, env.fault walletUpdates n = some StoreFault.ErrRecordNotFound) :
    ∃ st', WalletImpl.RollbackTransaction env req st =
        some (Outcome.err Error.ErrUpdateWalletInterrupted, st') ∧
      st'.committed = st.committed ∧
      st'.committed.recordByID req.Id = some r ∧
      st'.committed.walletByID r.WalletID = st.committed.walletByID r.WalletID ∧
      st'.trace.count walletUpdates = st.trace.count walletUpdates + 11 ∧
      st'.trace.count recordUpdates = st.trace.count recordUpdates := by
  simp only [WalletImpl.RollbackTransaction]
  rw [transactionRecordDao_Get_ok env gorm.DB.pool req.Id st st.committed
    (by simp [gorm.view]) hrecord]
  simp only [hr, Option.getD_some]
  rw [if_neg (by rw [hs]; simp)]
  simp only [gorm.Begin]
  obtain ⟨st', h3, h4, -, -, h7, h8⟩ :=
    WalletImpl.RollbackTransaction_loop_conflicts env r st.committed hread hcas 12 0
      { committed := st.committed, pending := some st.committed, now := st.now,
        trace := recordScan :: st.trace } (by omega) (by omega) (by omega) rfl
  rw [h3]
  refine ⟨st', rfl, h4, by rw [h4]; exact hr, by rw [h4], ?_, ?_⟩
  · rw [h7]
    simp [List.count_cons, recordScan, walletUpdates]
  · rw [h8]
    simp [List.count_cons, recordScan, recordUpdates]

/-- C22, at the rollback of the deposit of 25 on a store whose conditional updates all meet
a conflict. -/
theorem C22_rollback_conflicts_exhausted_witness :
    ∃ st', WalletImpl.RollbackTransaction Scenario.conflictEnv Scenario.rollbackFirst
        Scenario.stDeposited = some (Outcome.err Error.ErrUpdateWalletInterrupted, st') ∧
      st'.committed = Scenario.stDeposited.committed ∧
      st'.committed.recordByID 1 = some Scenario.depositedRow ∧
      st'.committed.walletByID 1 = Scenario.stDeposited.committed.walletByID 1 ∧
      st'.trace.count walletUpdates = 0 + 11 ∧
      st'.trace.count recordUpdates = 0 :=
  C22_rollback_conflicts_exhausted Scenario.conflictEnv Scenario.rollbackFirst
    Scenario.stDeposited Scenario.depositedRow (by decide) (by decide) (by decide)
    (fun _ => rfl) (fun _ => rfl)

/-! ## The request context is not consulted -/

/-- C24 (as stated, refuted). The context is cancelled before the call begins.  On a store
whose conditional updates all meet a conflict, `Transaction` still makes its eleven attempts
and returns `ErrUpdateWalletInterrupted`; on a store that fails no call it makes its attempt,
commits, and returns a result, the wallet going from 50 to 75. -/
theorem C24_cancelled_context_not_observed :
    (Scenario.cancelled.Err 0 = some context.Reason.Canceled) ∧
    (WalletImpl.Transaction.withContext Scenario.cancelled Scenario.conflictEnv
        Scenario.deposit Scenario.st).map
      (fun p => (p.1, p.2.trace.count walletUpdates)) =
      some (Outcome.err Error.ErrUpdateWalletInterrupted, 11) ∧
    (WalletImpl.Transaction.withContext Scenario.cancelled Scenario.env
        Scenario.deposit Scenario.st).map
      (fun p => (p.1.isOk, p.2.committed.wallet.map (fun w => w.Amount),
        p.2.committed.transaction_record.map (fun r => r.Status))) =
      some (true, [75], [dbModels.TransactionStatus_Success]) := by
  decide

/-- C24 (amended). `Transaction` does not consult the request context: whether and whenever
the context is cancelled, the call does what it does under a context that is never
cancelled.  In particular, when every conditional update meets a conflict (reads and the
append succeeding), it makes all eleven attempts and returns
`ErrUpdateWalletInterrupted`, not a cancellation reason. -/
theorem C24_context_not_consulted (ctx : context.Context) (env : Env) (req : TransactionReq)
    (st : Database) (w : dbModels.WalletModel) (a : Decimal)
    (hparse : env.NewFromString req.Amount = some a)
    (hw : st.committed.walletByID req.WalletID = some w)
    (hab : 0 ≤ w.Amount + a)
    (hread : ∀ n, env.fault walletScan n = none)
    (hnew : ∀ n, env.fault recordCreate n = none)
    (hcas : ∀ n, env.fault walletUpdates n = some StoreFault.ErrRecordNotFound) :
    (∀ (env0 : Env) (req0 : TransactionReq) (st0 : Database),
      WalletImpl.Transaction.withContext ctx env0 req0 st0 =
        WalletImpl.Transaction.withContext context.Background env0 req0 st0) ∧
    ∃ st', WalletImpl.Transaction.withContext ctx env req st =
        some (Outcome.err Error.ErrUpdateWalletInterrupted, st') ∧
      st'.committed.wallet = st.committed.wallet ∧
      st'.trace.count walletUpdates = st.trace.count walletUpdates + 11 := by
  refine ⟨fun _ _ _ => rfl, ?_⟩
  obtain ⟨st', h1, h2, -, h4, -⟩ :=
    WalletImpl.Transaction_eval_conflicts env req st w a hparse hw hab hread hnew hcas
  exact ⟨st', h1, h2, h4⟩

/-- C24 (amended), at the deposit of 25 under a context cancelled from the start, on the
store whose conditional updates all meet a conflict. -/
theorem C24_context_not_consulted_witness :
    (∀ (env0 : Env) (req0 : TransactionReq) (st0 : Database),
      WalletImpl.Transaction.withContext Scenario.cancelled env0 req0 st0 =
        WalletImpl.Transaction.withContext context.Background env0 req0 st0) ∧
    ∃ st', WalletImpl.Transaction.withContext Scenario.cancelled Scenario.conflictEnv
        Scenario.deposit Scenario.st =
        some (Outcome.err Error.ErrUpdateWalletInterrupted, st') ∧
      st'.committed.wallet = Scenario.st.committed.wallet ∧
      st'.trace.count walletUpdates = Scenario.st.trace.count walletUpdates + 11 :=
  C24_context_not_consulted Scenario.cancelled Scenario.conflictEnv Scenario.deposit
    Scenario.st Scenario.wallet 25 (by decide) (by decide) (by decide) (fun _ => rfl)
    (fun _ => rfl) (fun _ => rfl)

/-! ## The Failed stamp -/

/-- However the store behaves, when the loop of `Transaction` returns an error other than
`ErrInsufficientBalance`, the last call it issued is the update of the journal (the Failed
stamp), and the transaction has been rolled back before it. -/
theorem WalletImpl.Transaction.loop_stamp (env : Env) (req : TransactionReq) (a : Decimal)
    (transactionRecord : dbModels.TransactionRecordModel) :
    ∀ (fuel retryCount : Nat) (st : Database) (e : Error) (st' : Database),
    WalletImpl.Transaction.loop env req a transactionRecord gorm.DB.began fuel retryCount st =
      some (WalletImpl.LoopExit.returned e, st') →
    e ≠ Error.ErrInsufficientBalance →
    st'.pending = none ∧ st'.trace.head? = some recordUpdates := by
  intro fuel
  induction fuel with
  | zero => intro rc st e st' h; simp [WalletImpl.Transaction.loop] at h
  | succ fuel ih =>
    intro rc st e st' h he
    simp only [WalletImpl.Transaction.loop] at h
    by_cases hrc : rc > 10
    · rw [if_pos hrc, WalletImpl.Transaction.fail_eq] at h
      simp only [Option.some.injEq, Prod.mk.injEq] at h
      rw [← h.2]
      exact ⟨rfl, rfl⟩
    · rw [if_neg hrc] at h
      rcases hget : walletDao.Get env gorm.DB.began ⟨[req.WalletID], [], none, none⟩ st with
        ⟨r, st1⟩
      rw [hget] at h
      rcases r with e1 | _ | w
      · simp only [WalletImpl.Transaction.fail_eq, Option.some.injEq, Prod.mk.injEq] at h
        rw [← h.2]
        exact ⟨rfl, rfl⟩
      · simp only [WalletImpl.Transaction.fail_eq, Option.some.injEq, Prod.mk.injEq] at h
        rw [← h.2]
        exact ⟨rfl, rfl⟩
      · simp only [] at h
        by_cases hlt : w.Amount + a < 0
        · rw [if_pos hlt] at h
          simp only [Option.some.injEq, Prod.mk.injEq, WalletImpl.LoopExit.returned.injEq] at h
          exact absurd h.1.symm he
        · rw [if_neg hlt] at h
          rcases hmod : walletDao.Modify env gorm.DB.began w ⟨w.Amount + a⟩ st1 with ⟨m, st2⟩
          rw [hmod] at h
          rcases m with _ | e2
          · simp at h
          · cases e2 with
            | ErrRecordNotFound => exact ih (rc + 1) st2 e st' h he
            | ErrTxDone =>
              simp only [WalletImpl.Transaction.fail_eq, Option.some.injEq, Prod.mk.injEq] at h
              rw [← h.2]
              exact ⟨rfl, rfl⟩
            | other code =>
              simp only [WalletImpl.Transaction.fail_eq, Option.some.injEq, Prod.mk.injEq] at h
              rw [← h.2]
              exact ⟨rfl, rfl⟩

/-- C21 (what the code does). The failure block of `Transaction` runs `db = db.Rollback()`
and then `transactionRecordDao.Modify(db, ...)` on that same handle: the handle of the
transaction that was just rolled back, which answers `ErrTxDone` whatever the store would
have answered.  So whenever a `Transaction` call that appended its journal row returns
without a result (the reads of the journal succeeding), the row is stored with status
Pending and no wallet row has changed; unless the error is `ErrInsufficientBalance`, the
last call issued is that update of the journal, after the rollback. -/
theorem C21_failed_stamp_on_rolled_back_handle (env : Env) (req : TransactionReq)
    (st : Database) (out : Outcome TransactionRes) (st' : Database)
    (h : WalletImpl.Transaction env req st = some (out, st'))
    (hscan : ∀ n, env.fault recordScan n = none)
    (hout : ∀ res, out ≠ Outcome.ok res)
    (happended : st'.committed.transaction_record ≠ st.committed.transaction_record) :
    (∀ (s : Database) (record : dbModels.TransactionRecordModel),
      transactionRecordDao.Modify env (gorm.Rollback gorm.DB.began s).1 record
        (transactionRecordDao.UpdateModel.status dbModels.TransactionStatus_Failed)
        (gorm.Rollback gorm.DB.began s).2 =
      (some StoreFault.ErrTxDone,
        { s with pending := none, trace := recordUpdates :: s.trace })) ∧
    ∃ row, st'.committed.transaction_record = st.committed.transaction_record ++ [row] ∧
      row.Status = dbModels.TransactionStatus_Pending ∧
      st'.committed.wallet = st.committed.wallet ∧
      (out = Outcome.err Error.ErrInsufficientBalance ∨
        (st'.pending = none ∧ st'.trace.head? = some recordUpdates)) := by
  refine ⟨fun s record => ?_, ?_⟩
  · simp only [gorm.Rollback]
    rw [transactionRecordDao_Modify_done env gorm.DB.began _ _ _ (by simp [gorm.view])]
  simp only [WalletImpl.Transaction] at h
  rcases hparse : env.NewFromString req.Amount with _ | a
  · simp only [hparse, Option.some.injEq, Prod.mk.injEq] at h
    rw [← h.2] at happended
    exact absurd rfl happended
  · simp only [hparse] at h
    rcases hf0 : env.fault walletScan st.trace.length with _ | e0
    · rw [walletDao_Get_ok env gorm.DB.pool req.WalletID st st.committed (by simp [gorm.view])
        hf0] at h
      simp only [] at h
      rcases hf1 : env.fault recordCreate (st.trace.length + 1) with _ | e1
      · rw [transactionRecordDao_New_ok env gorm.DB.pool _ _ st.committed (by simp [gorm.view])
          (by simpa using hf1) rfl rfl rfl] at h
        simp only [gorm.Begin, gorm.flush] at h
        rcases hloop : WalletImpl.Transaction.loop env req a
            (transactionRecordDao.created (WalletImpl.Transaction.pendingRecord req a
              ((st.committed.walletByID req.WalletID).getD default)) st.now
              st.committed.transaction_record) gorm.DB.began 12 0
            { committed := { st.committed with transaction_record :=
                  st.committed.transaction_record ++
                  [transactionRecordDao.created (WalletImpl.Transaction.pendingRecord req a
                    ((st.committed.walletByID req.WalletID).getD default))
                    st.now st.committed.transaction_record] },
              pending := some { st.committed with transaction_record :=
                  st.committed.transaction_record ++
                  [transactionRecordDao.created (WalletImpl.Transaction.pendingRecord req a
                    ((st.committed.walletByID req.WalletID).getD default))
                    st.now st.committed.transaction_record] },
              now := st.now,
              trace := recordCreate :: walletScan :: st.trace } with _ | ⟨exit, st3⟩
        · rw [hloop] at h
          simp at h
        · rw [hloop] at h
          obtain ⟨i1, i2, i3, i4⟩ := WalletImpl.Transaction.loop_inv env req a _
            { st.committed with transaction_record := st.committed.transaction_record ++
                [transactionRecordDao.created (WalletImpl.Transaction.pendingRecord req a
                  ((st.committed.walletByID req.WalletID).getD default))
                  st.now st.committed.transaction_record] }
            ((st.committed.walletByID req.WalletID).getD default)
            (by simp only [Tables.walletByID]) 12 0 _ rfl exit st3 hloop
          simp only at i1 i2
          rcases exit with e | ⟨b, c⟩
          · simp only [Option.some.injEq, Prod.mk.injEq] at h
            obtain ⟨h1, h2⟩ := h
            subst h1 h2
            refine ⟨_, by rw [i1], rfl, by rw [i1], ?_⟩
            by_cases he : e = Error.ErrInsufficientBalance
            · left; rw [he]
            · right
              exact WalletImpl.Transaction.loop_stamp env req a _ 12 0 _ e st3 hloop he
          · obtain ⟨j1, j2, j3, j4⟩ := i3 b c rfl
            subst j1 j2
            simp only [] at h
            rcases hf3 : env.fault recordUpdates st3.trace.length with _ | e3
            · rw [transactionRecordDao_Modify_ok env gorm.DB.began _ _ st3 _
                (by simp only [gorm.view]; exact j4) hf3] at h
              simp only [gorm.flush, gorm.Commit] at h
              rw [transactionRecordDao_Get_ok env gorm.DB.pool _ _ _
                (by simp only [gorm.view]; rfl) (hscan _)] at h
              simp only [Option.some.injEq, Prod.mk.injEq] at h
              exact absurd h.1.symm (hout _)
            · rw [transactionRecordDao_Modify_fault env gorm.DB.began _ _ st3 _ e3
                (by simp only [gorm.view]; exact j4) hf3] at h
              simp only [gorm.Rollback, Option.some.injEq, Prod.mk.injEq] at h
              obtain ⟨h1, h2⟩ := h
              subst h1 h2
              exact ⟨transactionRecordDao.created (WalletImpl.Transaction.pendingRecord req a
                  ((st.committed.walletByID req.WalletID).getD default)) st.now
                  st.committed.transaction_record,
                by simp only [i1], rfl, by simp only [i1], Or.inr ⟨rfl, rfl⟩⟩
      · rw [transactionRecordDao_New_fault env gorm.DB.pool _ _ st.committed e1
          (by simp [gorm.view]) (by simpa using hf1)] at h
        simp only [Option.some.injEq, Prod.mk.injEq] at h
        rw [← h.2] at happended
        exact absurd rfl happended
    · rw [walletDao_Get_fault env gorm.DB.pool _ st st.committed e0 (by simp [gorm.view])
        hf0] at h
      by_cases he0 : e0 = StoreFault.ErrRecordNotFound
      · rw [if_pos he0] at h
        simp only [Option.some.injEq, Prod.mk.injEq] at h
        rw [← h.2] at happended
        exact absurd rfl happended
      · rw [if_neg he0] at h
        simp only [Option.some.injEq, Prod.mk.injEq] at h
        rw [← h.2] at happended
        exact absurd rfl happended

/-- C21, at the deposit of 25 on a store whose conditional updates all meet a conflict and
which would accept every update of the journal: the call returns
`ErrUpdateWalletInterrupted`, its last call is the update of the journal, and journal row 1
is stored with status Pending, not Failed. -/
theorem C21_failed_stamp_on_rolled_back_handle_witness :
    (Scenario.conflictEnv.fault recordUpdates 24 = none) ∧
    (WalletImpl.Transaction Scenario.conflictEnv Scenario.deposit Scenario.st =
      some (Outcome.err Error.ErrUpdateWalletInterrupted, Scenario.afterConflicts)) ∧
    Scenario.afterConflicts.trace.length = 25 ∧
    (Scenario.afterConflicts.committed.transaction_record.map (fun r => (r.ID, r.Status)) =
      [(1, dbModels.TransactionStatus_Pending)]) ∧
    ∃ row, Scenario.afterConflicts.committed.transaction_record =
        Scenario.st.committed.transaction_record ++ [row] ∧
      row.Status = dbModels.TransactionStatus_Pending ∧
      Scenario.afterConflicts.committed.wallet = Scenario.st.committed.wallet ∧
      ((Outcome.err Error.ErrUpdateWalletInterrupted : Outcome TransactionRes) =
          Outcome.err Error.ErrInsufficientBalance ∨
        (Scenario.afterConflicts.pending = none ∧
          Scenario.afterConflicts.trace.head? = some recordUpdates)) :=
  ⟨by decide, by decide, by decide, by decide,
    (C21_failed_stamp_on_rolled_back_handle Scenario.conflictEnv Scenario.deposit Scenario.st
      (Outcome.err Error.ErrUpdateWalletInterrupted) Scenario.afterConflicts (by decide)
      (fun _ => rfl) (fun res hres => by cases hres) (by decide)).2⟩

/-! ## The action column does not steer the engine -/

theorem gorm.view_withoutAction (db : gorm.DB) (st : Database) :
    gorm.view db st.withoutAction = (gorm.view db st).map Tables.withoutAction := by
  cases db <;> rfl

theorem gorm.connect_withoutAction (env : Env) (c : Call) (db : gorm.DB) (st : Database) :
    gorm.connect env c db st.withoutAction =
      ((gorm.connect env c db st).1.map Tables.withoutAction,
        (gorm.connect env c db st).2.withoutAction) := by
  simp only [gorm.connect, gorm.view_withoutAction]
  rcases gorm.view db st with _ | t
  · rfl
  · simp only [Option.map_some']
    have hlen : st.withoutAction.trace.length = st.trace.length := rfl
    rw [hlen]
    rcases env.fault c st.trace.length with _ | e <;> rfl

theorem gorm.flush_withoutAction (db : gorm.DB) (t : Tables) (st : Database) :
    gorm.flush db t.withoutAction st.withoutAction = (gorm.flush db t st).withoutAction := by
  cases db <;> rfl

theorem walletDao_Get_withoutAction (env : Env) (db : gorm.DB) (q : walletDao.QueryModel)
    (st : Database) :
    walletDao.Get env db q st.withoutAction =
      ((walletDao.Get env db q st).1, (walletDao.Get env db q st).2.withoutAction) := by
  simp only [walletDao.Get, gorm.Scan, gorm.connect_withoutAction]
  rcases gorm.connect env ⟨Verb.Scan, walletTable.name⟩ db st with ⟨r, st1⟩
  rcases r with e | t
  · cases e <;> rfl
  · simp only [Except.map]
    have ht : walletTable.get t.withoutAction = walletTable.get t := rfl
    rw [ht]
    rcases (walletDao.queryChain q (gorm.Statement.table dbModels.WalletModel)).rows
      (walletTable.get t) with _ | ⟨x, xs⟩ <;> rfl

theorem walletDao_Modify_withoutAction (env : Env) (db : gorm.DB)
    (model : dbModels.WalletModel) (update : walletDao.UpdateModel) (st : Database) :
    walletDao.Modify env db model update st.withoutAction =
      ((walletDao.Modify env db model update st).1,
        (walletDao.Modify env db model update st).2.withoutAction) := by
  simp only [walletDao.Modify, walletDao.modifyUpdates, gorm.Updates,
    gorm.connect_withoutAction]
  rcases gorm.connect env ⟨Verb.Updates, walletTable.name⟩ db st with ⟨r, st1⟩
  rcases r with e | t
  · rfl
  · simp only [Except.map]
    have hnow : st.withoutAction.now = st.now := rfl
    rw [hnow, ← gorm.flush_withoutAction]
    rfl

theorem transactionRecordDao_attrs_withoutAction (u : transactionRecordDao.UpdateModel)
    (r : dbModels.TransactionRecordModel) :
    transactionRecordDao.attrs u r.withoutAction = (transactionRecordDao.attrs u r).withoutAction := by
  obtain ⟨b, a, s, m, rb, ra, ri⟩ := u
  cases b <;> cases a <;> cases s <;> cases m <;> cases rb <;> cases ra <;> cases ri <;> rfl

theorem transactionRecordDao_New_withoutAction (env : Env) (db : gorm.DB)
    (model : dbModels.TransactionRecordModel) (st : Database) :
    transactionRecordDao.New env db model.withoutAction st.withoutAction =
      ((transactionRecordDao.New env db model st).1.map
          dbModels.TransactionRecordModel.withoutAction,
        (transactionRecordDao.New env db model st).2.withoutAction) := by
  simp only [transactionRecordDao.New, gorm.Create, gorm.connect_withoutAction]
  rcases gorm.connect env ⟨Verb.Create, transactionRecordTable.name⟩ db st with ⟨r, st1⟩
  rcases r with e | t
  · rfl
  · simp only [Except.map]
    have hnow : st.withoutAction.now = st.now := rfl
    have hids : (transactionRecordTable.get t.withoutAction).map (fun r => r.ID) =
        (transactionRecordTable.get t).map (fun r => r.ID) := by
      simp [transactionRecordTable, Tables.withoutAction,
        dbModels.TransactionRecordModel.withoutAction]
    rw [hnow, hids, ← gorm.flush_withoutAction]
    simp [transactionRecordTable, Tables.withoutAction,
      dbModels.TransactionRecordModel.withoutAction]

theorem transactionRecordDao_Modify_withoutAction (env : Env) (db : gorm.DB)
    (model : dbModels.TransactionRecordModel) (update : transactionRecordDao.UpdateModel)
    (st : Database) :
    transactionRecordDao.Modify env db model.withoutAction update st.withoutAction =
      ((transactionRecordDao.Modify env db model update st).1,
        (transactionRecordDao.Modify env db model update st).2.withoutAction) := by
  simp only [transactionRecordDao.Modify, gorm.Updates, gorm.connect_withoutAction]
  rcases gorm.connect env ⟨Verb.Updates, transactionRecordTable.name⟩ db st with ⟨r, st1⟩
  rcases r with e | t
  · rfl
  · simp only [Except.map]
    have hnow : st.withoutAction.now = st.now := rfl
    rw [hnow, ← gorm.flush_withoutAction]
    congr 2
    simp only [transactionRecordTable, Tables.withoutAction, List.map_map,
      transactionRecordDao.modifyStatement, gorm.Statement.table]
    congr 1
    apply List.map_congr_left
    intro r _
    simp only [Function.comp, List.all_cons, List.all_nil, Bool.and_true]
    have h1 : r.withoutAction.ID = r.ID := rfl
    have h2 : r.withoutAction.Status = r.Status := rfl
    have h3 : model.withoutAction.ID = model.ID := rfl
    have h4 : model.withoutAction.Status = model.Status := rfl
    rw [h1, h2, h3, h4]
    split
    · rw [transactionRecordDao_attrs_withoutAction]; rfl
    · rfl

theorem transactionRecordDao_Get_withoutAction (env : Env) (db : gorm.DB) (id : Nat)
    (st : Database) :
    transactionRecordDao.Get env db (transactionRecordDao.QueryModel.byID id)
        st.withoutAction =
      ((transactionRecordDao.Get env db (transactionRecordDao.QueryModel.byID id) st).1.map
          (Option.map dbModels.TransactionRecordModel.withoutAction),
        (transactionRecordDao.Get env db (transactionRecordDao.QueryModel.byID id)
          st).2.withoutAction) := by
  simp only [transactionRecordDao.Get, gorm.Scan, gorm.connect_withoutAction]
  rcases gorm.connect env ⟨Verb.Scan, transactionRecordTable.name⟩ db st with ⟨r, st1⟩
  rcases r with e | t
  · cases e <;> rfl
  · simp only [Except.map, transactionRecordDao_rows_byID]
    have ht : transactionRecordTable.get t.withoutAction =
        (transactionRecordTable.get t).map dbModels.TransactionRecordModel.withoutAction := rfl
    rw [ht, List.filter_map]
    have hp : ((fun r : dbModels.TransactionRecordModel => decide (r.ID = id)) ∘
        dbModels.TransactionRecordModel.withoutAction) = (fun r => decide (r.ID = id)) := rfl
    rw [hp]
    generalize (transactionRecordTable.get t).filter (fun r => decide (r.ID = id)) = l
    cases l <;> rfl

theorem WalletImpl.Transaction.fail_withoutAction (env : Env)
    (transactionRecord : dbModels.TransactionRecordModel) (st : Database) :
    WalletImpl.Transaction.fail env gorm.DB.began transactionRecord.withoutAction
        st.withoutAction =
      (WalletImpl.Transaction.fail env gorm.DB.began transactionRecord st).withoutAction := by
  rw [WalletImpl.Transaction.fail_eq, WalletImpl.Transaction.fail_eq]
  rfl

/-- The loop of `Transaction` commutes with blanking the action column: run for the record
and the database without their actions, it does what it does with them, the actions
blanked afterwards. -/
theorem WalletImpl.Transaction.loop_withoutAction (env : Env) (req : TransactionReq)
    (a : Decimal) (transactionRecord : dbModels.TransactionRecordModel) :
    ∀ (fuel retryCount : Nat) (st : Database),
    WalletImpl.Transaction.loop env { req with Action := 0 } a
        transactionRecord.withoutAction gorm.DB.began fuel retryCount st.withoutAction =
      (WalletImpl.Transaction.loop env req a transactionRecord gorm.DB.began fuel retryCount
        st).map (fun p => (p.1, p.2.withoutAction)) := by
  intro fuel
  induction fuel with
  | zero => intro rc st; rfl
  | succ fuel ih =>
    intro rc st
    simp only [WalletImpl.Transaction.loop]
    by_cases hrc : rc > 10
    · rw [if_pos hrc, if_pos hrc, WalletImpl.Transaction.fail_withoutAction]
      rfl
    · rw [if_neg hrc, if_neg hrc, walletDao_Get_withoutAction]
      rcases walletDao.Get env gorm.DB.began ⟨[req.WalletID], [], none, none⟩ st with ⟨r, st1⟩
      rcases r with e | _ | w
      · simp only [WalletImpl.Transaction.fail_withoutAction]; rfl
      · simp only [WalletImpl.Transaction.fail_withoutAction]; rfl
      · simp only []
        by_cases hlt : w.Amount + a < 0
        · rw [if_pos hlt, if_pos hlt]; rfl
        · rw [if_neg hlt, if_neg hlt, walletDao_Modify_withoutAction]
          rcases walletDao.Modify env gorm.DB.began w ⟨w.Amount + a⟩ st1 with ⟨m, st2⟩
          rcases m with _ | e2
          · rfl
          · cases e2 with
            | ErrRecordNotFound => exact ih (rc + 1) st2
            | ErrTxDone => simp only [WalletImpl.Transaction.fail_withoutAction]; rfl
            | other code => simp only [WalletImpl.Transaction.fail_withoutAction]; rfl

/-- `Transaction` commutes with blanking the action: run for the request without its action
on the database without the actions of its journal, it returns what it returns with them,
and leaves the database it leaves with them, the actions blanked. -/
theorem WalletImpl.Transaction_withoutAction (env : Env) (req : TransactionReq)
    (st : Database) :
    WalletImpl.Transaction env { req with Action := 0 } st.withoutAction =
      (WalletImpl.Transaction env req st).map (fun p => (p.1, p.2.withoutAction)) := by
  simp only [WalletImpl.Transaction]
  rcases env.NewFromString req.Amount with _ | a
  · rfl
  · simp only []
    rw [walletDao_Get_withoutAction]
    rcases walletDao.Get env gorm.DB.pool ⟨[req.WalletID], [], none, none⟩ st with ⟨r, st1⟩
    rcases r with e | _ | w
    · rfl
    · rfl
    · simp only []
      have hrec : WalletImpl.Transaction.pendingRecord { req with Action := 0 } a w =
          (WalletImpl.Transaction.pendingRecord req a w).withoutAction := rfl
      rw [hrec, transactionRecordDao_New_withoutAction]
      rcases transactionRecordDao.New env gorm.DB.pool
        (WalletImpl.Transaction.pendingRecord req a w) st1 with ⟨r2, st2⟩
      rcases r2 with e | record
      · rfl
      · simp only [Except.map]
        have hbegin : gorm.Begin st2.withoutAction =
            ((gorm.Begin st2).1, (gorm.Begin st2).2.withoutAction) := rfl
        rw [hbegin]
        simp only []
        have hb1 : (gorm.Begin st2).1 = gorm.DB.began := rfl
        rw [hb1, WalletImpl.Transaction.loop_withoutAction]
        rcases WalletImpl.Transaction.loop env req a record gorm.DB.began 12 0
          (gorm.Begin st2).2 with _ | ⟨exit, st3⟩
        · rfl
        · rcases exit with e | ⟨b, c⟩
          · rfl
          · simp only [Option.map_some']
            rw [transactionRecordDao_Modify_withoutAction]
            rcases transactionRecordDao.Modify env gorm.DB.began record
              ⟨some (some b), some (some c), some dbModels.TransactionStatus_Success, none,
                none, none, none⟩ st3 with ⟨m, st4⟩
            rcases m with _ | e
            · simp only []
              have hcommit : (gorm.Commit gorm.DB.began st4.withoutAction).2 =
                  (gorm.Commit gorm.DB.began st4).2.withoutAction := by
                obtain ⟨committed, pending, now, trace⟩ := st4
                cases pending <;> rfl
              have hid : record.withoutAction.ID = record.ID := rfl
              rw [hcommit, hid, transactionRecordDao_Get_withoutAction]
              rcases transactionRecordDao.Get env gorm.DB.pool
                (transactionRecordDao.QueryModel.byID record.ID)
                (gorm.Commit gorm.DB.began st4).2 with ⟨r5, st5⟩
              rcases r5 with e | _ | stored
              · rfl
              · rfl
              · rfl
            · rfl

/-- C23. The action code does not influence the arithmetic.  For every store state and every
sequence of store responses, two `Transaction` requests that differ only in their action
return the same error or result (`BeforeAmount` and `AfterAmount` included), issue the same
store calls, and leave the same database up to the `action` column of the journal: the same
wallet rows and amounts, and journal rows with the same status and the same other columns.
The journal row a call appends carries the action of its request, and that is the only
difference. -/
theorem C23_action_does_not_steer (env : Env) (req : TransactionReq) (st : Database)
    (action : Int) :
    (WalletImpl.Transaction env { req with Action := action } st).map
        (fun p => (p.1, p.2.withoutAction)) =
      (WalletImpl.Transaction env req st).map (fun p => (p.1, p.2.withoutAction)) ∧
    (WalletImpl.Transaction env { req with Action := action } st).map
        (fun p => (p.1, p.2.committed.wallet,
          p.2.committed.transaction_record.map (fun r => r.Status), p.2.trace)) =
      (WalletImpl.Transaction env req st).map
        (fun p => (p.1, p.2.committed.wallet,
          p.2.committed.transaction_record.map (fun r => r.Status), p.2.trace)) ∧
    ∀ out st', WalletImpl.Transaction env req st = some (out, st') →
      st'.committed.transaction_record = st.committed.transaction_record ∨
      ∃ row, st'.committed.transaction_record = st.committed.transaction_record ++ [row] ∧
        row.Action = req.Action := by
  have h1 : (WalletImpl.Transaction env { req with Action := action } st).map
        (fun p => (p.1, p.2.withoutAction)) =
      (WalletImpl.Transaction env req st).map (fun p => (p.1, p.2.withoutAction)) := by
    rw [← WalletImpl.Transaction_withoutAction env req st,
      ← WalletImpl.Transaction_withoutAction env { req with Action := action } st]
  refine ⟨h1, ?_, ?_⟩
  · have h2 := congrArg (Option.map (fun p : Outcome TransactionRes × Database =>
      (p.1, p.2.committed.wallet,
        p.2.committed.transaction_record.map (fun r => r.Status), p.2.trace))) h1
    have hg : ((fun p : Outcome TransactionRes × Database =>
          (p.1, p.2.committed.wallet,
            p.2.committed.transaction_record.map (fun r => r.Status), p.2.trace)) ∘
        (fun p : Outcome TransactionRes × Database => (p.1, p.2.withoutAction))) =
        (fun p : Outcome TransactionRes × Database =>
          (p.1, p.2.committed.wallet,
            p.2.committed.transaction_record.map (fun r => r.Status), p.2.trace)) := by
      funext p
      simp [Function.comp, Database.withoutAction, Tables.withoutAction,
        dbModels.TransactionRecordModel.withoutAction]
    rw [Option.map_map, Option.map_map, hg] at h2
    exact h2
  · intro out st' h
    obtain ⟨-, h3 | ⟨a, -, h3, -⟩ | ⟨a, -, -, h3, -, -⟩⟩ :=
      WalletImpl.Transaction_cases env req st _ rfl out st' h
    · left; rw [h3.1]
    · right; rw [h3]; exact ⟨_, rfl, rfl⟩
    · right; rw [h3]; exact ⟨_, rfl, rfl⟩

/-- C23, at the deposit of 25 into the wallet that holds 50, sent once as a deposit and once
as a withdrawal: both calls return the same result (50 before, 75 after) and leave the
wallet at 75 and a Success row; the rows differ in their action. -/
theorem C23_action_does_not_steer_witness :
    (WalletImpl.Transaction Scenario.env
        { Scenario.deposit with Action := dbModels.TransactionAction_Withdraw }
        Scenario.st).map
      (fun p => (p.1, p.2.committed.wallet.map (fun w => w.Amount),
        p.2.committed.transaction_record.map (fun r => (r.Status, r.Action)))) =
      some (Outcome.ok ⟨1, "50", "75", "USD", dbModels.TransactionStatus_Success,
          1700000000, 1700000000⟩, [75],
        [(dbModels.TransactionStatus_Success, dbModels.TransactionAction_Withdraw)]) ∧
    (WalletImpl.Transaction Scenario.env Scenario.deposit Scenario.st).map
      (fun p => (p.1, p.2.committed.wallet.map (fun w => w.Amount),
        p.2.committed.transaction_record.map (fun r => (r.Status, r.Action)))) =
      some (Outcome.ok ⟨1, "50", "75", "USD", dbModels.TransactionStatus_Success,
          1700000000, 1700000000⟩, [75],
        [(dbModels.TransactionStatus_Success, dbModels.TransactionAction_Deposit)]) ∧
    (WalletImpl.Transaction Scenario.env
        { Scenario.deposit with Action := dbModels.TransactionAction_Withdraw }
        Scenario.st).map (fun p => (p.1, p.2.withoutAction)) =
      (WalletImpl.Transaction Scenario.env Scenario.deposit Scenario.st).map
        (fun p => (p.1, p.2.withoutAction)) :=
  ⟨by decide, by decide,
    (C23_action_does_not_steer Scenario.env Scenario.deposit Scenario.st
      dbModels.TransactionAction_Withdraw).1⟩

end BeWallet
